import Mathlib

/-!
Ujjivana backend: points, progress and quiz bookkeeping.

A shallow embedding of the request handlers of `src/backend` that keep the
points ledger, the per-module progress records and the quiz scores, together
with the properties of the specification that concern them.

Conventions of the embedding:

* JavaScript numbers that count points, lessons or indices are `Int`;
  timestamps (`Date`) are `Int` milliseconds since the epoch;
* a collection addressed by `findById` is a map `Nat → Option _` from the
  document id, and the progress collection a map from the (user, module) key;
  a collection that is only appended to and searched is a `List`;
* every handler takes the store and the clock reading (`new Date()`) and
  returns the HTTP response together with the new store;
* a record holds the paths that the schema of its document declares: a value
  that a handler assigns to an undeclared path is not stored;
* values computed in floating point (the percentage of a quiz attempt) are
  left out of the records and responses.
-/

namespace Ujjivana

/-! ## Built-ins of the host language -/

/-- Milliseconds in one day. -/
def msPerDay : Int := 86400000

/-- Calendar year and zero-based month of a timestamp, in the proleptic
Gregorian calendar (the era/day-of-era decomposition).  The built-ins read the
local time of the server; the time zone of the server is taken to be UTC. -/
def civilYearMonth (t : Int) : Int × Int :=
  let z := t / msPerDay + 719468
  let era := z / 146097
  let doe := z - era * 146097
  let yoe := (doe - doe / 1460 + doe / 36524 - doe / 146096) / 365
  let doy := doe - (365 * yoe + yoe / 4 - yoe / 100)
  let mp := (5 * doy + 2) / 153
  let m := if mp < 10 then mp + 3 else mp - 9
  (yoe + era * 400 + (if m ≤ 2 then 1 else 0), m - 1)

/-- The `Date.prototype.getFullYear` built-in. -/
def getFullYear (t : Int) : Int := (civilYearMonth t).1

/-- The `Date.prototype.getMonth` built-in (January is 0). -/
def getMonth (t : Int) : Int := (civilYearMonth t).2

/-! ## Data model (`src/backend/models`) -/

/-- The `type` enum of a `pointsHistory` entry (`models/User.js`). -/
inductive PointsType where
  | module_completed
  | quiz_completed
  | daily_question
  | challenge_completed
  | reward_redemption
  | initial_migration
  | event_registration
  | survey_completed
  | other
deriving DecidableEq, Repr

/-- One entry of `User.pointsHistory`. -/
structure PointsHistoryEntry where
  points : Int
  type : PointsType
  description : String
  relatedId : Option Nat
  earnedAt : Int
deriving DecidableEq, Repr

/-- One entry of `User.badges`. -/
structure Badge where
  name : String
  description : String
  earnedAt : Int
deriving DecidableEq, Repr

/-- The account document (`models/User.js`), restricted to the fields the
bookkeeping handlers read or write. -/
structure User where
  points : Int := 0
  monthlyPoints : Int := 0
  weeklyPoints : Int := 0
  lastMonthlyReset : Int := 0
  lastWeeklyReset : Int := 0
  modulesCompleted : Int := 0
  badges : List Badge := []
  quizAttempts : Nat → Option Int := fun _ => none
  pointsHistory : List PointsHistoryEntry := []

/-- A lesson of a module (`LessonSchema`). -/
structure Lesson where
  title : String
  order : Int
deriving DecidableEq, Repr

/-- The module document (`models/Module.js`). -/
structure Module where
  title : String := ""
  category : String := ""
  lessons : List Lesson := []
  points : Int := 0
deriving DecidableEq, Repr

/-- The per (user, module) progress document (`models/UserProgress.js`), with
the paths of the schema that the handlers read or write.  The handlers also
assign `currentLesson`, `earnedPoints` and `completedBy`; the schema declares
none of them, so they are not part of a stored record. -/
structure UserProgress where
  user : Nat
  module : Nat
  completedLessons : List Int := []
  isCompleted : Bool := false
  lastAccessed : Int := 0
deriving DecidableEq, Repr

/-- A question of a quiz (`QuestionSchema`). -/
structure Question where
  correctAnswer : Int
  points : Int := 10
deriving DecidableEq, Repr

/-- The quiz document (`models/Quiz.js`); `module` is the referenced module
id, when the quiz belongs to one. -/
structure Quiz where
  title : String := ""
  module : Option Nat := none
  questions : List Question := []
  totalPoints : Int := 0
deriving DecidableEq, Repr

/-- One submitted answer of the request body of `submitQuiz`. -/
structure Answer where
  questionIndex : Int
  answerIndex : Int
deriving DecidableEq, Repr

/-- One element of `answerResults` / `QuizAttempt.answers`. -/
structure AnswerResult where
  questionIndex : Int
  answerIndex : Int
  isCorrect : Bool
  points : Int
deriving DecidableEq, Repr

/-- The quiz attempt document (`models/QuizAttempt.js`).  Its `percentage`, a
floating-point value that the pre-save hook recomputes from the score and the
total, is left out. -/
structure QuizAttempt where
  user : Nat
  quiz : Nat
  score : Int
  totalPoints : Int
  answers : List AnswerResult
  submittedAt : Int
deriving DecidableEq

/-- The reward document (`models/Reward.js`); `stock = none` is the
`null` (unlimited) stock. -/
structure Reward where
  name : String := ""
  pointsRequired : Int
  stock : Option Int := some 0
deriving DecidableEq, Repr

/-- The `status` enum of a redemption. -/
inductive RedemptionStatus where
  | pending
  | completed
  | cancelled
deriving DecidableEq, Repr

/-- The redemption document (`models/Redemption.js`). -/
structure Redemption where
  user : Nat
  reward : Nat
  pointsSpent : Int
  status : RedemptionStatus := RedemptionStatus.pending
  redeemedAt : Int
deriving DecidableEq, Repr

/-- A submission of a participant (`participants.submissions` in
`models/Challenge.js`); `status` is the stored string, validated against the
enum pending / approved / rejected when the challenge is saved. -/
structure Submission where
  id : Nat
  submission : String := ""
  description : String := ""
  submittedAt : Int := 0
  status : String := "pending"
  reviewedAt : Option Int := none
  feedback : String := ""
  pointsAwarded : Int := 0
deriving DecidableEq, Repr

/-- A participant sub-record of a challenge (`participants` in
`models/Challenge.js`). -/
structure Participant where
  id : Nat
  user : Nat
  joinedAt : Int := 0
  progress : Rat := 0
  completed : Bool := false
  completedAt : Option Int := none
  submissions : List Submission := []
  approvedSubmissions : Int := 0
deriving DecidableEq

/-- The `completionCriteria` of a challenge. -/
structure CompletionCriteria where
  type : String := "custom"
  target : Int := 10
  requiresSubmission : Bool := false
deriving DecidableEq, Repr

/-- The challenge document (`models/Challenge.js`). -/
structure Challenge where
  title : String := ""
  pointsReward : Int := 100
  completionCriteria : CompletionCriteria := {}
  participants : List Participant := []
  isActive : Bool := true
deriving DecidableEq

/-- The `role` of the authenticated caller. -/
inductive Role where
  | student
  | teacher
  | admin
deriving DecidableEq, Repr

/-- A registration of an event (`registrationSchema` in `models/Event.js`),
with the fields the methods and handlers read or write; the name and email
copied from the account and the free-form registration data are left out. -/
structure Registration where
  userId : Nat
  registrationDate : Int := 0
  attended : Bool := false
  pointsAwarded : Int := 0
deriving DecidableEq, Repr

/-- The event document (`models/Event.js`); `maxParticipants = 0` means
unlimited. -/
structure Event where
  name : String := ""
  date : Int := 0
  lastDateToRegister : Int := 0
  maxParticipants : Int := 0
  currentParticipants : Int := 0
  pointsReward : Int := 0
  isActive : Bool := true
  registrations : List Registration := []
deriving DecidableEq, Repr

/-- The document store. -/
structure Db where
  users : Nat → Option User := fun _ => none
  modules : Nat → Option Module := fun _ => none
  progress : Nat → Nat → Option UserProgress := fun _ _ => none
  quizzes : Nat → Option Quiz := fun _ => none
  quizAttempts : List QuizAttempt := []
  rewards : Nat → Option Reward := fun _ => none
  redemptions : List Redemption := []
  challenges : Nat → Option Challenge := fun _ => none
  events : Nat → Option Event := fun _ => none

/-- Store with the account `u` saved under the id `id`. -/
def Db.setUser (db : Db) (id : Nat) (u : User) : Db :=
  { db with users := fun i => if i = id then some u else db.users i }

/-- Store with the progress record `p` saved under the key (`userId`, `moduleId`). -/
def Db.setProgress (db : Db) (userId moduleId : Nat) (p : UserProgress) : Db :=
  { db with progress := fun u m =>
      if u = userId ∧ m = moduleId then some p else db.progress u m }

/-- Store with the reward `r` saved under the id `id`. -/
def Db.setReward (db : Db) (id : Nat) (r : Reward) : Db :=
  { db with rewards := fun i => if i = id then some r else db.rewards i }

/-- Store with the challenge `c` saved under the id `id`. -/
def Db.setChallenge (db : Db) (id : Nat) (c : Challenge) : Db :=
  { db with challenges := fun i => if i = id then some c else db.challenges i }

/-- Store with the event `e` saved under the id `id`. -/
def Db.setEvent (db : Db) (id : Nat) (e : Event) : Db :=
  { db with events := fun i => if i = id then some e else db.events i }

/-- The HTTP response of a handler: status code and the `success` flag. -/
structure Response where
  status : Nat
  success : Bool
  message : String := ""
deriving DecidableEq, Repr

/-! ## Points ledger (`src/backend/utils/pointsUtils.js`) -/

/-- Milliseconds in seven days, `1000 * 60 * 60 * 24 * 7`. -/
def msPerWeek : Int := 1000 * 60 * 60 * 24 * 7

/-- The body of `updateUserPoints` on the loaded account document: weekly
and monthly rollover checks, the three counters, and the history entry. -/
def applyPoints (now : Int) (user : User) (points : Int) (type : PointsType)
    (description : String) (relatedId : Option Nat) : User :=
  let weekDiff := (now - user.lastWeeklyReset) / msPerWeek
  let user := if weekDiff ≥ 1 then { user with weeklyPoints := 0, lastWeeklyReset := now } else user
  let monthDiff := (getFullYear now - getFullYear user.lastMonthlyReset) * 12
    + getMonth now - getMonth user.lastMonthlyReset
  let user := if monthDiff ≥ 1 then { user with monthlyPoints := 0, lastMonthlyReset := now } else user
  { user with
    points := user.points + points
    monthlyPoints := user.monthlyPoints + points
    weeklyPoints := user.weeklyPoints + points
    pointsHistory := user.pointsHistory ++
      [{ points := points, type := type, description := description,
         relatedId := relatedId, earnedAt := now }] }

/-- The ledger entry point `updateUserPoints(userId, points, type, description,
relatedId)`: throws when the account is absent, otherwise saves and returns
the updated account. -/
def updateUserPoints (db : Db) (now : Int) (userId : Nat) (points : Int)
    (type : PointsType) (description : String) (relatedId : Option Nat) :
    Except String (User × Db) :=
  match db.users userId with
  | none => Except.error "User not found"
  | some user =>
    let user := applyPoints now user points type description relatedId
    Except.ok (user, db.setUser userId user)

/-! ## Badges (`UserSchema.methods.addBadge`) -/

/-- The method `addBadge(badgeName, description)`: pushes a badge unless one
with that name exists; returns the account and whether a badge was pushed. -/
def addBadge (now : Int) (user : User) (badgeName : String) (description : String) :
    User × Bool :=
  match user.badges.find? (fun b => b.name = badgeName) with
  | none =>
    ({ user with badges := user.badges ++
        [{ name := badgeName, description := description, earnedAt := now }] }, true)
  | some _ => (user, false)

/-! ## Module progress (`src/backend/controllers/moduleController.js`) -/

/-- The elements of `new Set(xs)` in insertion order: every value once, at
its first occurrence. -/
def setToArray : List Int → List Int
  | [] => []
  | a :: l => a :: (setToArray l).filter (fun b => b ≠ a)

/-- The expression `[...new Set(xs)].sort((a, b) => a - b)`. -/
def dedupeSort (xs : List Int) : List Int :=
  (setToArray xs).insertionSort (fun a b => a ≤ b)

/-- The handler `getModuleProgress`: returns the progress record, creating an
empty one when none exists. -/
def getModuleProgress (db : Db) (now : Int) (userId moduleId : Nat) : Response × Db :=
  match db.progress userId moduleId with
  | some _ => ({ status := 200, success := true }, db)
  | none =>
    let progress : UserProgress :=
      { user := userId, module := moduleId, completedLessons := [], isCompleted := false,
        lastAccessed := now }
    ({ status := 200, success := true }, db.setProgress userId moduleId progress)

/-- The handler `updateLessonProgress`, with `lessonIndex` already parsed
(`parseInt(lessonIndex)`) and `isCompleted` the truthiness of the body field. -/
def updateLessonProgress (db : Db) (now : Int) (userId moduleId : Nat)
    (lessonIndex : Int) (isCompleted : Bool) : Response × Db :=
  let progress : UserProgress :=
    match db.progress userId moduleId with
    | none =>
      { user := userId, module := moduleId,
        completedLessons := if isCompleted then [lessonIndex] else [],
        isCompleted := false, lastAccessed := now }
    | some progress =>
      let progress :=
        if isCompleted then
          if ¬ progress.completedLessons.contains lessonIndex then
            { progress with
              completedLessons := dedupeSort (progress.completedLessons ++ [lessonIndex]) }
          else progress
        else progress
      { progress with lastAccessed := now }
  ({ status := 200, success := true, message := "Lesson progress updated successfully" },
    db.setProgress userId moduleId progress)

/-- The handler `completeModule`.  Its assignment `progress.earnedPoints = ...`
is to a path that the schema of the progress document does not declare, so
`progress.save()` stores `isCompleted` and `lastAccessed` only.  The account is
loaded before the ledger call and saved after it; that `save()` writes the two
paths the handler modified on its copy (`modulesCompleted` and `badges`) onto
the stored account, the ledger fields written by `updateUserPoints` staying as
stored. -/
def completeModule (db : Db) (now : Int) (userId moduleId : Nat) : Response × Db :=
  match db.progress userId moduleId with
  | none => ({ status := 404, success := false, message := "Progress not found" }, db)
  | some progress =>
    match db.modules moduleId with
    | none => ({ status := 404, success := false, message := "Module not found" }, db)
    | some module =>
      let totalLessons := module.lessons.length
      let completedLessons := progress.completedLessons.length
      if completedLessons ≠ totalLessons then
        ({ status := 400, success := false,
           message := "Cannot complete module. Please complete all lessons first." }, db)
      else if progress.isCompleted then
        ({ status := 400, success := false, message := "Module already completed" }, db)
      else
        let wasAlreadyCompleted := progress.isCompleted
        let progress := { progress with isCompleted := true, lastAccessed := now }
        let db := db.setProgress userId moduleId progress
        let ok : Response := { status := 200, success := true, message := "Module completed!" }
        if wasAlreadyCompleted then (ok, db)
        else
          match db.users userId with
          | none => (ok, db)
          | some user =>
            match updateUserPoints db now userId module.points PointsType.module_completed
                ("Completed " ++ module.title) (some moduleId) with
            | Except.error e => ({ status := 500, success := false, message := e }, db)
            | Except.ok (stored, db) =>
              let user := { user with modulesCompleted := user.modulesCompleted + 1 }
              let user := (addBadge now user (module.category ++ " Expert")
                ("Awarded for completing " ++ module.title)).1
              (ok, db.setUser userId { stored with
                modulesCompleted := user.modulesCompleted, badges := user.badges })

/-! ## Quiz submission (`src/backend/controllers/quizController.js`) -/

/-- The expression `question.points || 10`: a zero (falsy) value counts as 10. -/
def questionPoints (question : Question) : Int :=
  if question.points = 0 then 10 else question.points

/-- The running totals of the scoring loop of `submitQuiz`. -/
structure Scoring where
  score : Int := 0
  totalPoints : Int := 0
  answerResults : List AnswerResult := []
deriving DecidableEq, Repr

/-- The expression `answers && answers.find(a => a.questionIndex === index)`;
`answers = none` is a request body without the field. -/
def findAnswer (answers : Option (List Answer)) (index : Nat) : Option Answer :=
  match answers with
  | none => none
  | some l => l.find? (fun a => a.questionIndex = (index : Int))

/-- One iteration of `quiz.questions.forEach((question, index) => ...)`. -/
def scoreStep (answers : Option (List Answer)) (index : Nat) (question : Question)
    (acc : Scoring) : Scoring :=
  let totalPoints := acc.totalPoints + questionPoints question
  match findAnswer answers index with
  | some userAnswer =>
    if userAnswer.answerIndex = question.correctAnswer then
      { score := acc.score + questionPoints question, totalPoints := totalPoints,
        answerResults := acc.answerResults ++
          [{ questionIndex := index, answerIndex := userAnswer.answerIndex,
             isCorrect := true, points := questionPoints question }] }
    else
      { score := acc.score, totalPoints := totalPoints,
        answerResults := acc.answerResults ++
          [{ questionIndex := index, answerIndex := userAnswer.answerIndex,
             isCorrect := false, points := 0 }] }
  | none =>
    { score := acc.score, totalPoints := totalPoints,
      answerResults := acc.answerResults ++
        [{ questionIndex := index, answerIndex := -1, isCorrect := false, points := 0 }] }

/-- The scoring loop of `submitQuiz` from question index `index` on. -/
def scoreLoop (answers : Option (List Answer)) : Nat → List Question → Scoring → Scoring
  | _, [], acc => acc
  | index, question :: rest, acc =>
    scoreLoop answers (index + 1) rest (scoreStep answers index question acc)

/-- The totals `submitQuiz` computes for a quiz and an answers list. -/
def scoreQuiz (quiz : Quiz) (answers : Option (List Answer)) : Scoring :=
  scoreLoop answers 0 quiz.questions {}

/-- The `data` object of the response of `submitQuiz`, without its rounded
`percentage` (a floating-point computation). -/
structure SubmitQuizData where
  score : Int
  totalPoints : Int
  answers : List AnswerResult
  attemptSaved : Bool
  pointsAwarded : Int
  isFirstAttempt : Bool
deriving DecidableEq, Repr

/-- The handler `submitQuiz`. -/
def submitQuiz (db : Db) (now : Int) (userId quizId : Nat) (answers : Option (List Answer)) :
    Response × Option SubmitQuizData × Db :=
  match db.quizzes quizId with
  | none => ({ status := 404, success := false, message := "Quiz not found" }, none, db)
  | some quiz =>
    let existingAttempt := db.quizAttempts.find? (fun a => a.user = userId ∧ a.quiz = quizId)
    let s := scoreQuiz quiz answers
    let score := s.score
    let totalPoints := s.totalPoints
    let quizAttempt : QuizAttempt :=
      { user := userId, quiz := quizId, score := score, totalPoints := totalPoints,
        answers := s.answerResults, submittedAt := now }
    let db1 : Db :=
      if score > 0 then
        { db with quizAttempts := db.quizAttempts ++ [quizAttempt] }
      else db
    let awarded : Int × Db :=
      if score > 0 then
        match db1.users userId with
        | none => (0, db1)
        | some user =>
          let user := { user with
            quizAttempts := fun q => if q = quizId then some score else user.quizAttempts q }
          if existingAttempt.isNone then
            let pointsAwarded := score
            let user := { user with
              points := user.points + pointsAwarded
              monthlyPoints := user.monthlyPoints + pointsAwarded
              weeklyPoints := user.weeklyPoints + pointsAwarded
              pointsHistory := user.pointsHistory ++
                [{ points := pointsAwarded, type := PointsType.quiz_completed,
                   description := "Completed quiz: " ++ quiz.title,
                   relatedId := none, earnedAt := now }] }
            (pointsAwarded, db1.setUser userId user)
          else (0, db1.setUser userId user)
      else (0, db1)
    ({ status := 200, success := true },
      some { score := score, totalPoints := totalPoints,
             answers := s.answerResults, attemptSaved := decide (score > 0),
             pointsAwarded := awarded.1, isFirstAttempt := existingAttempt.isNone },
      awarded.2)

/-- The test `score / quiz.totalPoints >= 0.8` on numbers: a zero divisor
gives an infinity or NaN, which passes only for a positive score. -/
def meetsThreshold (score totalPoints : Int) : Bool :=
  if totalPoints = 0 then decide (score > 0)
  else decide ((score : Rat) / (totalPoints : Rat) ≥ 4 / 5)

/-- The handler `completeModuleOnQuizPass`. -/
def completeModuleOnQuizPass (db : Db) (now : Int) (userId quizId : Nat) (score : Int) :
    Response × Db :=
  match db.quizzes quizId with
  | none => ({ status := 404, success := false, message := "Quiz not found" }, db)
  | some quiz =>
    match quiz.module with
    | none =>
      ({ status := 400, success := false,
         message := "Quiz is not associated with any module" }, db)
    | some moduleId =>
      match db.modules moduleId with
      | none =>
        ({ status := 400, success := false,
           message := "Quiz is not associated with any module" }, db)
      | some module =>
        if meetsThreshold score quiz.totalPoints then
          let created : UserProgress :=
            { user := userId, module := moduleId, completedLessons := [], isCompleted := true,
              lastAccessed := now }
          let found : UserProgress × Db :=
            match db.progress userId moduleId with
            | none => (created, db.setProgress userId moduleId created)
            | some moduleProgress =>
              if ¬ moduleProgress.isCompleted then
                let moduleProgress := { moduleProgress with isCompleted := true }
                (moduleProgress, db.setProgress userId moduleId moduleProgress)
              else (moduleProgress, db)
          let moduleProgress := found.1
          let db := found.2
          if ¬ moduleProgress.isCompleted then
            match db.users userId with
            | none => ({ status := 500, success := false }, db)
            | some user =>
              ({ status := 200, success := true },
                db.setUser userId { user with
                  points := user.points + module.points
                  modulesCompleted := user.modulesCompleted + 1 })
          else ({ status := 200, success := true }, db)
        else ({ status := 200, success := true, message := "below the passing threshold" }, db)

/-! ## Direct point updates (`src/backend/controllers/authController.js`) -/

/-- The handler `updatePoints`. -/
def updatePoints (db : Db) (now : Int) (userId : Nat) (points : Int) (type : PointsType)
    (description : String) : Response × Db :=
  match db.users userId with
  | none => ({ status := 404, success := false, message := "User not found" }, db)
  | some user =>
    ({ status := 200, success := true },
      db.setUser userId { user with
        points := user.points + points
        monthlyPoints := user.monthlyPoints + points
        weeklyPoints := user.weeklyPoints + points
        pointsHistory := user.pointsHistory ++
          [{ points := points, type := type, description := description,
             relatedId := none, earnedAt := now }] })

/-- The handler `updateQuizAttempt`; `points = none` is a body without the
field. -/
def updateQuizAttempt (db : Db) (now : Int) (userId quizId : Nat) (score : Int)
    (points : Option Int) (type : PointsType) (description : String) : Response × Db :=
  match db.users userId with
  | none => ({ status := 404, success := false, message := "User not found" }, db)
  | some user =>
    let user := { user with
      quizAttempts := fun q => if q = quizId then some score else user.quizAttempts q }
    let user :=
      match points with
      | some points =>
        if points ≠ 0 ∧ points > 0 then
          { user with
            points := user.points + points
            monthlyPoints := user.monthlyPoints + points
            weeklyPoints := user.weeklyPoints + points
            pointsHistory := user.pointsHistory ++
              [{ points := points, type := type, description := description,
                 relatedId := none, earnedAt := now }] }
        else user
      | none => user
    ({ status := 200, success := true }, db.setUser userId user)

/-! ## Reward redemption (`src/backend/controllers/redeemController.js`) -/

/-- The handler `redeemReward`. -/
def redeemReward (db : Db) (now : Int) (userId rewardId : Nat) : Response × Db :=
  match db.rewards rewardId with
  | none => ({ status := 404, success := false, message := "Reward not found" }, db)
  | some reward =>
    match db.users userId with
    | none => ({ status := 500, success := false }, db)
    | some user =>
      if user.points < reward.pointsRequired then
        ({ status := 400, success := false,
           message := "Not enough points to redeem this reward" }, db)
      else if reward.stock.isSome ∧ reward.stock.getD 0 ≤ 0 then
        ({ status := 400, success := false, message := "This reward is out of stock" }, db)
      else
        let db := db.setUser userId { user with points := user.points - reward.pointsRequired }
        let db :=
          match reward.stock with
          | some stock => db.setReward rewardId { reward with stock := some (stock - 1) }
          | none => db
        ({ status := 200, success := true },
          { db with redemptions := db.redemptions ++
              [{ user := userId, reward := rewardId, pointsSpent := reward.pointsRequired,
                 status := RedemptionStatus.pending, redeemedAt := now }] })

/-! ## Challenge submissions (`src/backend/controllers/submissionController.js`) -/

/-- The array with its first element satisfying `p` replaced by `f` of it: the
effect of assigning to the fields of the subdocument that `.id(...)` returned. -/
def modifyFirst {α : Type} (p : α → Bool) (f : α → α) : List α → List α
  | [] => []
  | a :: l => if p a then f a :: l else a :: modifyFirst p f l

/-- The enum validator of `submissions.status`, run when the challenge is
saved. -/
def validStatus (status : String) : Bool :=
  status = "pending" ∨ status = "approved" ∨ status = "rejected"

/-- The expression `Math.min(100, (approvedSubmissions / target) * 100)`, in
exact arithmetic, for a non-zero target (the schema requires target >= 1). -/
def progressPercentage (approvedSubmissions target : Int) : Rat :=
  min 100 ((approvedSubmissions : Rat) / (target : Rat) * 100)

/-- The bonus block of `reviewSubmission` (`if (pointsAwarded && pointsAwarded > 0)`):
the reviewed submission and the store after it, or the error thrown by
`updateUserPoints`. -/
def reviewBonus (db : Db) (now : Int) (challengeId : Nat) (challenge : Challenge)
    (participant : Participant) (submission : Submission) (pointsAwarded : Option Int) :
    Except String (Submission × Db) :=
  match pointsAwarded with
  | some points =>
    if points ≠ 0 ∧ points > 0 then
      match updateUserPoints db now participant.user points PointsType.other
          ("Bonus points for submission in challenge: " ++ challenge.title)
          (some challengeId) with
      | Except.error e => Except.error e
      | Except.ok (_, db1) => Except.ok ({ submission with pointsAwarded := points }, db1)
    else Except.ok (submission, db)
  | none => Except.ok (submission, db)

/-- The approval block of `reviewSubmission` (`if (status === 'approved')`): the
participant and the store after it, or the error thrown inside it. -/
def reviewApproval (db : Db) (now : Int) (challengeId : Nat) (challenge : Challenge)
    (participant : Participant) (status : String) : Except String (Participant × Db) :=
  if status = "approved" then
    let participant := { participant with
      approvedSubmissions := participant.approvedSubmissions + 1 }
    let progressPercentage := progressPercentage participant.approvedSubmissions
      challenge.completionCriteria.target
    let participant := { participant with progress := progressPercentage }
    if progressPercentage ≥ 100 ∧ ¬ participant.completed then
      let participant := { participant with completed := true, completedAt := some now }
      match updateUserPoints db now participant.user challenge.pointsReward
          PointsType.challenge_completed
          ("Completed challenge: " ++ challenge.title) (some challengeId) with
      | Except.error e => Except.error e
      | Except.ok (_, db2) =>
        match db2.users participant.user with
        | none => Except.error "Cannot read properties of null"
        | some user =>
          Except.ok (participant, db2.setUser participant.user
            (addBadge now user ("Challenge Champion: " ++ challenge.title)
              ("Completed the " ++ challenge.title ++ " challenge and earned " ++
                toString challenge.pointsReward ++ " points")).1)
    else Except.ok (participant, db)
  else Except.ok (participant, db)

/-- The end of `reviewSubmission`: `challenge.save()` with its validators (the
status enum, and the 0..100 range of a recomputed progress), the final account
lookup and the response.  A validation error is answered by the error handler
of `server.js` with 400 and the message "Validation error". -/
def reviewSave (db : Db) (challengeId participantId : Nat) (challenge : Challenge)
    (participant : Participant) (status : String) : Response × Db :=
  if ¬ (validStatus status ∧
      (status = "approved" → 0 ≤ participant.progress ∧ participant.progress ≤ 100))
  then ({ status := 400, success := false, message := "Validation error" }, db)
  else
    let db3 := db.setChallenge challengeId { challenge with
      participants := modifyFirst (fun p => p.id = participantId)
        (fun _ => participant) challenge.participants }
    match db3.users participant.user with
    | none =>
      ({ status := 500, success := false, message := "Cannot read properties of null" }, db3)
    | some _ =>
      ({ status := 200, success := true,
         message := "Submission " ++ status ++ " successfully" }, db3)

/-- The handler `reviewSubmission`.  A throw of `updateUserPoints`, of the
validators run by `challenge.save()` or of the final account lookup ends the
request with the error response, what was saved before the throw staying
saved. -/
def reviewSubmission (db : Db) (now : Int) (role : Role)
    (challengeId participantId submissionId : Nat) (status feedback : String)
    (pointsAwarded : Option Int) : Response × Db :=
  match db.challenges challengeId with
  | none => ({ status := 404, success := false, message := "Challenge not found" }, db)
  | some challenge =>
    if role ≠ Role.teacher ∧ role ≠ Role.admin then
      ({ status := 403, success := false, message := "Not authorized to review submissions" },
        db)
    else
      match challenge.participants.find? (fun p => p.id = participantId) with
      | none => ({ status := 404, success := false, message := "Participant not found" }, db)
      | some participant =>
        match participant.submissions.find? (fun s => s.id = submissionId) with
        | none => ({ status := 404, success := false, message := "Submission not found" }, db)
        | some submission =>
          let submission := { submission with
            status := status, feedback := feedback, reviewedAt := some now }
          match reviewBonus db now challengeId challenge participant submission
              pointsAwarded with
          | Except.error e => ({ status := 500, success := false, message := e }, db)
          | Except.ok (submission, db1) =>
            let participant := { participant with
              submissions := modifyFirst (fun s => s.id = submissionId) (fun _ => submission)
                participant.submissions }
            match reviewApproval db1 now challengeId challenge participant status with
            | Except.error e => ({ status := 500, success := false, message := e }, db1)
            | Except.ok (participant, db2) =>
              reviewSave db2 challengeId participantId challenge participant status

/-! ## Runs of operations and sample data -/

/-- The arguments of one call of `updateUserPoints`, with the clock reading
at the call. -/
structure LedgerCall where
  now : Int
  points : Int
  type : PointsType := PointsType.other
  description : String := ""
  relatedId : Option Nat := none
deriving DecidableEq, Repr

/-- The history entry a ledger call appends. -/
def LedgerCall.entry (c : LedgerCall) : PointsHistoryEntry :=
  { points := c.points, type := c.type, description := c.description,
    relatedId := c.relatedId, earnedAt := c.now }

/-- Successive calls of `updateUserPoints` for one account; stops at the first
call that throws. -/
def runLedger (db : Db) (userId : Nat) : List LedgerCall → Except String Db
  | [] => Except.ok db
  | c :: cs =>
    match updateUserPoints db c.now userId c.points c.type c.description c.relatedId with
    | Except.error e => Except.error e
    | Except.ok (_, db) => runLedger db userId cs

/-- A store with one fresh account, under id 1. -/
def freshDb : Db := { users := fun i => if i = 1 then some {} else none }

/-- Sum of the `points` fields of the account's history entries. -/
def histSum (user : User) : Int := (user.pointsHistory.map (fun e => e.points)).sum

/-- Total `pointsSpent` of the redemption records of one user. -/
def spentBy (db : Db) (userId : Nat) : Int :=
  ((db.redemptions.filter (fun r => r.user = userId)).map (fun r => r.pointsSpent)).sum

/-- One request to a point-changing operation, with its arguments and the
clock reading at the call. -/
inductive PointsOp where
  | updateUserPoints (now : Int) (userId : Nat) (points : Int) (type : PointsType)
      (description : String) (relatedId : Option Nat)
  | submitQuiz (now : Int) (userId quizId : Nat) (answers : Option (List Answer))
  | updatePoints (now : Int) (userId : Nat) (points : Int) (type : PointsType)
      (description : String)
  | updateQuizAttempt (now : Int) (userId quizId : Nat) (score : Int) (points : Option Int)
      (type : PointsType) (description : String)
  | redeemReward (now : Int) (userId rewardId : Nat)
  | completeModuleOnQuizPass (now : Int) (userId quizId : Nat) (score : Int)

/-- The store after one request; a ledger call that throws leaves it as it was. -/
def PointsOp.apply (db : Db) : PointsOp → Db
  | PointsOp.updateUserPoints now userId points type description relatedId =>
    match Ujjivana.updateUserPoints db now userId points type description relatedId with
    | Except.ok (_, db1) => db1
    | Except.error _ => db
  | PointsOp.submitQuiz now userId quizId answers =>
    (Ujjivana.submitQuiz db now userId quizId answers).2.2
  | PointsOp.updatePoints now userId points type description =>
    (Ujjivana.updatePoints db now userId points type description).2
  | PointsOp.updateQuizAttempt now userId quizId score points type description =>
    (Ujjivana.updateQuizAttempt db now userId quizId score points type description).2
  | PointsOp.redeemReward now userId rewardId =>
    (Ujjivana.redeemReward db now userId rewardId).2
  | PointsOp.completeModuleOnQuizPass now userId quizId score =>
    (Ujjivana.completeModuleOnQuizPass db now userId quizId score).2

/-- Whether the request is a `redeemReward`. -/
def PointsOp.isRedeem : PointsOp → Bool
  | PointsOp.redeemReward _ _ _ => true
  | _ => false

/-- The store after a sequence of requests, served one after the other. -/
def runOps (db : Db) (ops : List PointsOp) : Db := ops.foldl PointsOp.apply db

/-- The ledger relation of a store: for every account, points plus the points
spent on its redemptions equals the sum of its history entries. -/
def LedgerInv (db : Db) : Prop :=
  ∀ userId user, db.users userId = some user → user.points + spentBy db userId = histSum user

/-- A store with one fresh account (id 1) and one reward (id 1) that costs 5
points and has unlimited stock. -/
def rewardDb : Db :=
  { users := fun i => if i = 1 then some {} else none
    rewards := fun i => if i = 1 then some { pointsRequired := 5, stock := none } else none }

/-- A store with module 1 (two lessons, 50 points), account 1, and a progress
record of account 1 for module 1 with both lessons completed. -/
def moduleDb : Db :=
  { users := fun i => if i = 1 then some {} else none
    modules := fun i =>
      if i = 1 then
        some { title := "Rivers", category := "Biodiversity", points := 50,
               lessons := [{ title := "a", order := 1 }, { title := "b", order := 2 }] }
      else none
    progress := fun u m =>
      if u = 1 ∧ m = 1 then
        some { user := 1, module := 1, completedLessons := [0, 1] }
      else none }

/-- The store `moduleDb` with only the first lesson of module 1 completed. -/
def partialDb : Db :=
  { moduleDb with
    progress := fun u m =>
      if u = 1 ∧ m = 1 then some { user := 1, module := 1, completedLessons := [0] } else none }

/-- One request to the system: a point-changing operation or one of the
module-progress handlers. -/
inductive Op where
  | points (op : PointsOp)
  | getModuleProgress (now : Int) (userId moduleId : Nat)
  | updateLessonProgress (now : Int) (userId moduleId : Nat) (lessonIndex : Int)
      (isCompleted : Bool)
  | completeModule (now : Int) (userId moduleId : Nat)

/-- The store after one request. -/
def Op.apply (db : Db) : Op → Db
  | Op.points op => op.apply db
  | Op.getModuleProgress now userId moduleId =>
    (Ujjivana.getModuleProgress db now userId moduleId).2
  | Op.updateLessonProgress now userId moduleId lessonIndex isCompleted =>
    (Ujjivana.updateLessonProgress db now userId moduleId lessonIndex isCompleted).2
  | Op.completeModule now userId moduleId => (Ujjivana.completeModule db now userId moduleId).2

/-- A store with module 1 (one lesson, 50 points), quiz 1 of that module
(one question worth 10), account 1, and a progress record of account 1 for
module 1 with no lesson completed. -/
def quizDb : Db :=
  { users := fun i => if i = 1 then some {} else none
    modules := fun i =>
      if i = 1 then some { title := "Rivers", points := 50, lessons := [{ title := "a", order := 1 }] }
      else none
    quizzes := fun i =>
      if i = 1 then
        some { title := "Rivers quiz", module := some 1, totalPoints := 10,
               questions := [{ correctAnswer := 2, points := 10 }] }
      else none
    progress := fun u m =>
      if u = 1 ∧ m = 1 then some { user := 1, module := 1 } else none }

/-- A store whose progress record of account 1 for module 1 lists the
completed lessons as 2, 1 (not in ascending order). -/
def unsortedDb : Db :=
  { progress := fun u m =>
      if u = 1 ∧ m = 1 then some { user := 1, module := 1, completedLessons := [2, 1] }
      else none }

/-- The `completedLessons` that `updateLessonProgress` stores, given the prior
record if any. -/
def lessonsAfter (prior : Option UserProgress) (lessonIndex : Int) (isCompleted : Bool) :
    List Int :=
  match prior with
  | none => if isCompleted then [lessonIndex] else []
  | some progress =>
    if isCompleted ∧ lessonIndex ∉ progress.completedLessons then
      dedupeSort (progress.completedLessons ++ [lessonIndex])
    else progress.completedLessons

/-- The points question `index` contributes to the score: its
`question.points || 10` when the first submitted answer for that index has the
correct `answerIndex`, and 0 otherwise. -/
def awarded (answers : Option (List Answer)) (index : Nat) (question : Question) : Int :=
  match findAnswer answers index with
  | some userAnswer =>
    if userAnswer.answerIndex = question.correctAnswer then questionPoints question else 0
  | none => 0

/-- Sum of `awarded` over the questions, numbered from `index`. -/
def awardedFrom (answers : Option (List Answer)) : Nat → List Question → Int
  | _, [] => 0
  | index, question :: rest =>
    awarded answers index question + awardedFrom answers (index + 1) rest

/-- A store with quiz 1 made of a single question whose `points` is 0. -/
def zeroPointDb : Db :=
  { users := fun i => if i = 1 then some {} else none
    quizzes := fun i =>
      if i = 1 then some { title := "Zero", questions := [{ correctAnswer := 0, points := 0 }] }
      else none }

/-- A quiz of two questions worth 10 points each. -/
def twoQuestionQuiz : Quiz :=
  { title := "Two", totalPoints := 20,
    questions := [{ correctAnswer := 1, points := 10 }, { correctAnswer := 0, points := 10 }] }

/-- A store with account 1 and `twoQuestionQuiz` as quiz 1. -/
def twoQuestionDb : Db :=
  { users := fun i => if i = 1 then some {} else none
    quizzes := fun i => if i = 1 then some twoQuestionQuiz else none }

/-- The arguments of one `submitQuiz` request of a given user for a given
quiz: the clock reading and the submitted answers. -/
structure SubmitCall where
  now : Int
  answers : Option (List Answer)
deriving DecidableEq, Repr

/-- The store after successive `submitQuiz` requests of one user for one quiz. -/
def runSubmits (db : Db) (userId quizId : Nat) (calls : List SubmitCall) : Db :=
  calls.foldl (fun db c => (submitQuiz db c.now userId quizId c.answers).2.2) db

/-- Whether `QuizAttempt.findOne({ user, quiz })` finds a record. -/
def hasAttempt (db : Db) (userId quizId : Nat) : Bool :=
  (db.quizAttempts.find? (fun a => a.user = userId ∧ a.quiz = quizId)).isSome

/-- A store with account 1 holding 20 points (and a history entry for
them), reward 1 costing 5 points with 2 in stock, and reward 2 costing 30
points with unlimited stock. -/
def shopDb : Db :=
  { users := fun i =>
      if i = 1 then
        some { points := 20, monthlyPoints := 20, weeklyPoints := 20,
               pointsHistory := [{ points := 20, type := PointsType.other, description := "",
                                   relatedId := none, earnedAt := 0 }] }
      else none
    rewards := fun i =>
      if i = 1 then some { name := "Bottle", pointsRequired := 5, stock := some 2 }
      else if i = 2 then some { name := "Trip", pointsRequired := 30, stock := none }
      else none }

/-- The bonus a review credits: the `pointsAwarded` of the request when it is
present and greater than 0. -/
def bonusPoints (pointsAwarded : Option Int) : Option Int :=
  match pointsAwarded with
  | some points => if points ≠ 0 ∧ points > 0 then some points else none
  | none => none

/-- Whether a review with the given status completes the participant: the
status is approved, the recomputed progress reaches 100 and the participant is
not yet completed. -/
def completesNow (challenge : Challenge) (participant : Participant) (status : String) : Bool :=
  decide (status = "approved" ∧
    progressPercentage (participant.approvedSubmissions + 1)
      challenge.completionCriteria.target ≥ 100 ∧
    participant.completed = false)

/-- The submission as `reviewSubmission` leaves it. -/
def reviewedSubmission (now : Int) (submission : Submission) (status feedback : String)
    (pointsAwarded : Option Int) : Submission :=
  match bonusPoints pointsAwarded with
  | some points =>
    { submission with
      status := status, feedback := feedback, reviewedAt := some now, pointsAwarded := points }
  | none => { submission with status := status, feedback := feedback, reviewedAt := some now }

/-- The participant as `reviewSubmission` leaves it, `submission` being the
reviewed submission. -/
def reviewedParticipant (now : Int) (challenge : Challenge) (participant : Participant)
    (submission : Submission) (status feedback : String) (pointsAwarded : Option Int) :
    Participant :=
  let submissions := modifyFirst (fun s => s.id = submission.id)
    (fun _ => reviewedSubmission now submission status feedback pointsAwarded)
    participant.submissions
  if status = "approved" then
    { participant with
      submissions := submissions
      approvedSubmissions := participant.approvedSubmissions + 1
      progress := progressPercentage (participant.approvedSubmissions + 1)
        challenge.completionCriteria.target
      completed := participant.completed || completesNow challenge participant status
      completedAt :=
        if completesNow challenge participant status then some now
        else participant.completedAt }
  else { participant with submissions := submissions }

/-- The participant's account as `reviewSubmission` leaves it: the bonus, if
any, then the completion reward and badge, if the review completes. -/
def reviewedAccount (now : Int) (challengeId : Nat) (challenge : Challenge)
    (participant : Participant) (status : String) (pointsAwarded : Option Int) (user : User) :
    User :=
  let user :=
    match bonusPoints pointsAwarded with
    | some points =>
      applyPoints now user points PointsType.other
        ("Bonus points for submission in challenge: " ++ challenge.title) (some challengeId)
    | none => user
  if completesNow challenge participant status then
    (addBadge now
      (applyPoints now user challenge.pointsReward PointsType.challenge_completed
        ("Completed challenge: " ++ challenge.title) (some challengeId))
      ("Challenge Champion: " ++ challenge.title)
      ("Completed the " ++ challenge.title ++ " challenge and earned " ++
                toString challenge.pointsReward ++ " points")).1
  else user

/-- Whether the validators of `challenge.save()` pass after a review. -/
def reviewValid (challenge : Challenge) (participant : Participant) (status : String) : Bool :=
  validStatus status ∧
    (status = "approved" →
      0 ≤ progressPercentage (participant.approvedSubmissions + 1)
        challenge.completionCriteria.target ∧
      progressPercentage (participant.approvedSubmissions + 1)
        challenge.completionCriteria.target ≤ 100)

/-- The arguments of one `reviewSubmission` request. -/
structure ReviewCall where
  now : Int
  role : Role
  challengeId : Nat
  participantId : Nat
  submissionId : Nat
  status : String
  feedback : String := ""
  pointsAwarded : Option Int := none
deriving DecidableEq, Repr

/-- The store after one `reviewSubmission` request. -/
def ReviewCall.apply (db : Db) (c : ReviewCall) : Db :=
  (reviewSubmission db c.now c.role c.challengeId c.participantId c.submissionId c.status
    c.feedback c.pointsAwarded).2

/-- The store after successive `reviewSubmission` requests. -/
def runReviews (db : Db) (calls : List ReviewCall) : Db := calls.foldl ReviewCall.apply db

/-- The history entries that credit the completion of a given challenge. -/
def completionEntries (user : User) (challengeId : Nat) : List PointsHistoryEntry :=
  user.pointsHistory.filter
    (fun e => e.type = PointsType.challenge_completed ∧ e.relatedId = some challengeId)

/-- The participant sub-record `participantId` of challenge `challengeId`, as
`challenge.participants.id(participantId)` finds it. -/
def findParticipant (db : Db) (challengeId participantId : Nat) : Option Participant :=
  match db.challenges challengeId with
  | none => none
  | some c => c.participants.find? (fun p => p.id = participantId)

/-- The submission `submissionId` of a participant of a challenge, as
`participant.submissions.id(submissionId)` finds it. -/
def findSubmission (db : Db) (challengeId participantId submissionId : Nat) :
    Option Submission :=
  match findParticipant db challengeId participantId with
  | none => none
  | some p => p.submissions.find? (fun s => s.id = submissionId)

/-- A store with account 1 and challenge 1 (reward 100, target 3) in which
account 1 participates (participant 1) with submission 1 already approved,
submission 2 pending, and one approved submission counted. -/
def reviewDb : Db :=
  { users := fun i => if i = 1 then some {} else none
    challenges := fun i =>
      if i = 1 then
        some { title := "Cleanup", pointsReward := 100,
               completionCriteria := { target := 3, requiresSubmission := true },
               participants :=
                 [{ id := 1, user := 1, approvedSubmissions := 1,
                    submissions := [{ id := 1, status := "approved" }, { id := 2 }] }] }
      else none }

/-- The points of the history entries that credit the completion of a given
challenge, in order. -/
def completionPoints (user : User) (challengeId : Nat) : List Int :=
  (completionEntries user challengeId).map (fun e => e.points)

/-- The relation kept by reviews between the `completed` flag of participant
`participantId` of challenge `challengeId` and the completion credits of its
account `userId`: the credits are those of the list `before`, followed by one
credit of the challenge's reward exactly when the participant is completed. -/
def CompletionInv (db : Db) (challengeId participantId userId : Nat) (reward : Int)
    (before : List Int) : Prop :=
  ∃ c p usr, db.challenges challengeId = some c ∧ c.pointsReward = reward ∧
    c.participants.find? (fun q => q.id = participantId) = some p ∧ p.user = userId ∧
    (c.participants.map (fun q => q.user)).Nodup ∧ db.users userId = some usr ∧
    completionPoints usr challengeId = before ++ (if p.completed then [reward] else [])

/-- A store with `twoQuestionQuiz` as quiz 1 and account 1 holding 5 points,
all counted in the weekly and monthly counters, whose last weekly and monthly
resets are at time 0. -/
def staleDb : Db :=
  { users := fun i =>
      if i = 1 then
        some { points := 5, monthlyPoints := 5, weeklyPoints := 5,
               pointsHistory := [{ points := 5, type := PointsType.other, description := "",
                                   relatedId := none, earnedAt := 0 }] }
      else none
    quizzes := fun i => if i = 1 then some twoQuestionQuiz else none }

/-- The middleware `requireTeacher` (`middleware/teacher.js`) for a caller whose
stored role is `role`: the 403 response that ends the request, or `none` when
the request goes on to the handler. -/
def requireTeacher (role : Role) : Option Response :=
  if role ≠ Role.teacher ∧ role ≠ Role.admin then
    some { status := 403, success := false, message := "Teacher or admin access required" }
  else none

/-- The review route of `routes/submissions.js`: `requireTeacher`, then the
handler `reviewSubmission`. -/
def reviewRoute (db : Db) (now : Int) (role : Role)
    (challengeId participantId submissionId : Nat) (status feedback : String)
    (pointsAwarded : Option Int) : Response × Db :=
  match requireTeacher role with
  | some response => (response, db)
  | none =>
    reviewSubmission db now role challengeId participantId submissionId status feedback
      pointsAwarded

/-- The history entry written for a bonus of `points` on a submission in the
challenge `challengeId`. -/
def bonusEntry (now : Int) (challengeId : Nat) (challenge : Challenge) (points : Int) :
    PointsHistoryEntry :=
  { points := points, type := PointsType.other,
    description := "Bonus points for submission in challenge: " ++ challenge.title,
    relatedId := some challengeId, earnedAt := now }

/-- The history entry written when a review completes the challenge
`challengeId`. -/
def completionEntry (now : Int) (challengeId : Nat) (challenge : Challenge) :
    PointsHistoryEntry :=
  { points := challenge.pointsReward, type := PointsType.challenge_completed,
    description := "Completed challenge: " ++ challenge.title,
    relatedId := some challengeId, earnedAt := now }

/-! ## Completion checks (`src/backend/controllers/moduleController.js`) -/

/-- The `data` of the answers of `checkModuleCompletion` and
`validateModuleCompletion`; `isCompleted` is absent from the answer that
`validateModuleCompletion` gives when there is no progress record. -/
structure CompletionCheck where
  canComplete : Bool
  completedLessons : Nat
  totalLessons : Nat
  isCompleted : Option Bool := none
deriving DecidableEq, Repr

/-- The handler `checkModuleCompletion`. -/
def checkModuleCompletion (db : Db) (userId moduleId : Nat) :
    Response × Option CompletionCheck :=
  match db.modules moduleId with
  | none => ({ status := 404, success := false, message := "Module not found" }, none)
  | some module =>
    let progress := db.progress userId moduleId
    let totalLessons := module.lessons.length
    let completedLessons :=
      match progress with
      | some p => p.completedLessons.length
      | none => 0
    let isCompleted :=
      match progress with
      | some p => p.isCompleted
      | none => false
    let canComplete := decide (completedLessons = totalLessons) && decide (totalLessons > 0)
      && !isCompleted
    ({ status := 200, success := true },
      some { canComplete := canComplete, completedLessons := completedLessons,
             totalLessons := totalLessons, isCompleted := some isCompleted })

/-- The handler `validateModuleCompletion`. -/
def validateModuleCompletion (db : Db) (userId moduleId : Nat) :
    Response × Option CompletionCheck :=
  match db.modules moduleId with
  | none => ({ status := 404, success := false, message := "Module not found" }, none)
  | some module =>
    match db.progress userId moduleId with
    | none =>
      ({ status := 200, success := true },
        some { canComplete := false, completedLessons := 0,
               totalLessons := module.lessons.length })
    | some progress =>
      let totalLessons := module.lessons.length
      let completedLessons := progress.completedLessons.length
      let canComplete := decide (completedLessons = totalLessons) && decide (totalLessons > 0)
        && !progress.isCompleted
      ({ status := 200, success := true },
        some { canComplete := canComplete, completedLessons := completedLessons,
               totalLessons := totalLessons, isCompleted := some progress.isCompleted })

/-! ## Work submitted to a challenge, and direct completion -/

/-- The handler `submitChallengeWork` (`controllers/submissionController.js`);
`participantId` and `submissionId` are the ids generated for the sub-documents
it pushes. -/
def submitChallengeWork (db : Db) (now : Int) (userId challengeId : Nat)
    (submission description : String) (participantId submissionId : Nat) : Response × Db :=
  match db.challenges challengeId with
  | none => ({ status := 404, success := false, message := "Challenge not found" }, db)
  | some challenge =>
    if challenge.completionCriteria.type ≠ "custom" ∨
        ¬ challenge.completionCriteria.requiresSubmission then
      ({ status := 400, success := false,
         message := "This challenge does not accept submissions" }, db)
    else
      let participants :=
        match challenge.participants.find? (fun p => p.user = userId) with
        | some _ => challenge.participants
        | none =>
          challenge.participants ++
            [{ id := participantId, user := userId, joinedAt := now, progress := 0,
               completed := false, submissions := [], approvedSubmissions := 0 }]
      let participants := modifyFirst (fun p => p.user = userId)
        (fun p => { p with
          submissions := p.submissions ++
            [{ id := submissionId, submission := submission, description := description,
               submittedAt := now, status := "pending" }] })
        participants
      ({ status := 200, success := true,
         message := "Work submitted successfully! Waiting for teacher approval." },
        db.setChallenge challengeId { challenge with participants := participants })

/-- The handler `completeChallenge` that `controllers/challengeController.js`
exports; no router mounts it (see `ChallengeRequest.apply`).  `participantId` is
the id generated for the participant it pushes when the caller has none.  A
throw of `updateUserPoints` or of the validators run by `challenge.save()` (the
0..100 range of the progress of a pushed participant) ends the request with the
error response, what was saved before staying saved. -/
def completeChallenge (db : Db) (now : Int) (userId challengeId participantId : Nat) :
    Response × Db :=
  match db.challenges challengeId with
  | none => ({ status := 404, success := false, message := "Challenge not found" }, db)
  | some challenge =>
    let existingParticipant := challenge.participants.find? (fun p => p.user = userId)
    let alreadyCompleted :=
      match existingParticipant with
      | some p => p.completedAt.isSome
      | none => false
    if alreadyCompleted then
      ({ status := 400, success := false, message := "Challenge already completed" }, db)
    else
      match updateUserPoints db now userId challenge.pointsReward
          PointsType.challenge_completed
          ("Completed challenge: " ++ challenge.title) (some challengeId) with
      | Except.error e => ({ status := 500, success := false, message := e }, db)
      | Except.ok (_, db1) =>
        match db1.users userId with
        | none =>
          ({ status := 500, success := false, message := "Cannot read properties of null" },
            db1)
        | some user =>
          let db2 := db1.setUser userId
            (addBadge now user ("Challenge Champion: " ++ challenge.title)
              ("Completed the " ++ challenge.title ++ " challenge and earned " ++
                toString challenge.pointsReward ++ " points")).1
          match existingParticipant with
          | some _ =>
            ({ status := 200, success := true, message := "Challenge completed!" },
              db2.setChallenge challengeId { challenge with
                participants := modifyFirst (fun p => p.user = userId)
                  (fun p => { p with completedAt := some now }) challenge.participants })
          | none =>
            if ¬ (0 ≤ challenge.completionCriteria.target ∧
                challenge.completionCriteria.target ≤ 100) then
              ({ status := 400, success := false, message := "Validation error" }, db2)
            else
              ({ status := 200, success := true, message := "Challenge completed!" },
                db2.setChallenge challengeId { challenge with
                  participants := challenge.participants ++
                    [{ id := participantId, user := userId, completedAt := some now,
                       progress := (challenge.completionCriteria.target : Rat) }] })

/-- The store `quizDb` without any progress record. -/
def quizDbNoProgress : Db :=
  { quizDb with progress := fun _ _ => none }

/-- A store with account 1, a module 1 worth 50 points that has no lessons, and
the progress record of account 1 for it as `getModuleProgress` creates it. -/
def emptyModuleDb : Db :=
  { users := fun i => if i = 1 then some {} else none
    modules := fun i =>
      if i = 1 then some { title := "Soil", category := "Biodiversity", points := 50 }
      else none
    progress := fun u m =>
      if u = 1 ∧ m = 1 then some { user := 1, module := 1 } else none }

/-- A store with account 1 and challenge 1 (reward 100, target 2, submissions
required) that has no participant yet. -/
def openChallengeDb : Db :=
  { users := fun i => if i = 1 then some {} else none
    challenges := fun i =>
      if i = 1 then
        some { title := "Cleanup", pointsReward := 100,
               completionCriteria := { target := 2, requiresSubmission := true } }
      else none }

/-- The number of submissions of a participant whose status is approved, as
`getUserChallengeProgress` counts them. -/
def approvedCount (participant : Participant) : Nat :=
  (participant.submissions.filter (fun s => s.status = "approved")).length

/-- A store with account 1 and challenge 1 (reward 100, target 1, submissions
required) that has no participant yet. -/
def singleTargetDb : Db :=
  { users := fun i => if i = 1 then some {} else none
    challenges := fun i =>
      if i = 1 then
        some { title := "Cleanup", pointsReward := 100,
               completionCriteria := { target := 1, requiresSubmission := true } }
      else none }

/-- The store `openChallengeDb` after account 1 has submitted one piece of work
to challenge 1 (participant 1, submission 1). -/
def submittedDb : Db :=
  (submitChallengeWork openChallengeDb 1 1 1 "photo" "" 1 1).2

/-- The store `submittedDb` after a teacher has approved submission 1. -/
def approvedOnceDb : Db :=
  (reviewSubmission submittedDb 2 Role.teacher 1 1 1 "approved" "" none).2

/-- The store `approvedOnceDb` after a teacher has approved submission 1 a
second time. -/
def approvedTwiceDb : Db :=
  (reviewSubmission approvedOnceDb 3 Role.teacher 1 1 1 "approved" "" none).2

/-- The store `approvedOnceDb` after a teacher has reviewed submission 1 again,
now rejecting it. -/
def approvedThenRejectedDb : Db :=
  (reviewSubmission approvedOnceDb 3 Role.teacher 1 1 1 "rejected" "" none).2

/-- The store `singleTargetDb` after account 1 has submitted one piece of work
to challenge 1 (participant 1, submission 1). -/
def singleSubmittedDb : Db :=
  (submitChallengeWork singleTargetDb 1 1 1 "photo" "" 1 1).2

/-- The store `singleSubmittedDb` after account 1 has called
`completeChallenge` on challenge 1. -/
def selfCompletedDb : Db :=
  (completeChallenge singleSubmittedDb 2 1 1 2).2

/-- The store `selfCompletedDb` after a teacher has approved submission 1. -/
def selfCompletedApprovedDb : Db :=
  (reviewSubmission selfCompletedDb 3 Role.teacher 1 1 1 "approved" "" none).2

/-! ## Event registrations (`src/backend/models/Event.js`,
`src/backend/controllers/eventController.js`) -/

/-- The virtual `registrationOpen` of an event, read at time `now`. -/
def registrationOpen (now : Int) (event : Event) : Bool :=
  let registrationClosed := decide (now > event.lastDateToRegister)
  event.isActive && decide (event.date > now) && !registrationClosed &&
    (decide (event.maxParticipants = 0) ||
      decide (event.currentParticipants < event.maxParticipants))

/-- The method `addRegistration` of an event: the result of the call (the error
thrown, if any) and the document after it. -/
def addRegistration (now : Int) (event : Event) (userId : Nat) (pointsAwarded : Int) :
    Except String Unit × Event :=
  if ¬ registrationOpen now event then
    (Except.error "Registration is closed for this event", event)
  else
    match event.registrations.find? (fun reg => reg.userId = userId) with
    | some _ => (Except.error "User already registered for this event", event)
    | none =>
      (Except.ok (),
        { event with
          registrations := event.registrations ++
            [{ userId := userId, registrationDate := now, pointsAwarded := pointsAwarded }]
          currentParticipants := event.currentParticipants + 1 })

/-- The method `removeRegistration` of an event: the result of the call (the
removed registration, or the error thrown) and the document after it.
`findIndex` followed by `splice(index, 1)` removes the first registration of
the user. -/
def removeRegistration (event : Event) (userId : Nat) : Except String Registration × Event :=
  match event.registrations.find? (fun reg => reg.userId = userId) with
  | none => (Except.error "User not registered for this event", event)
  | some removedRegistration =>
    (Except.ok removedRegistration,
      { event with
        registrations := event.registrations.eraseP (fun reg => reg.userId = userId)
        currentParticipants := max 0 (event.currentParticipants - 1) })

/-- The handler `registerForEvent`; every throw is answered 400 with the
message of the error. -/
def registerForEvent (db : Db) (now : Int) (userId eventId : Nat) : Response × Db :=
  match db.events eventId with
  | none => ({ status := 404, success := false, message := "Event not found" }, db)
  | some event =>
    if now > event.lastDateToRegister then
      ({ status := 400, success := false,
         message := "Registration period has ended for this event" }, db)
    else if ¬ registrationOpen now event then
      ({ status := 400, success := false,
         message := "Registration is closed for this event" }, db)
    else
      match db.users userId with
      | none =>
        ({ status := 400, success := false, message := "Cannot read properties of null" }, db)
      | some _ =>
        let pointsToAward := if event.pointsReward ≠ 0 then event.pointsReward else 0
        match addRegistration now event userId pointsToAward with
        | (Except.error e, _) => ({ status := 400, success := false, message := e }, db)
        | (Except.ok _, event) =>
          let db1 := db.setEvent eventId event
          if pointsToAward > 0 then
            match updateUserPoints db1 now userId pointsToAward PointsType.event_registration
                ("Registered for event: " ++ event.name) (some eventId) with
            | Except.error e => ({ status := 400, success := false, message := e }, db1)
            | Except.ok (_, db2) =>
              ({ status := 200, success := true,
                 message := "Successfully registered for event" }, db2)
          else
            ({ status := 200, success := true,
               message := "Successfully registered for event" }, db1)

/-- The handler `unregisterFromEvent`; every throw is answered 400 with the
message of the error. -/
def unregisterFromEvent (db : Db) (now : Int) (userId eventId : Nat) : Response × Db :=
  match db.events eventId with
  | none => ({ status := 404, success := false, message := "Event not found" }, db)
  | some event =>
    match removeRegistration event userId with
    | (Except.error e, _) => ({ status := 400, success := false, message := e }, db)
    | (Except.ok removedRegistration, event) =>
      let db1 := db.setEvent eventId event
      if removedRegistration.pointsAwarded ≠ 0 ∧ removedRegistration.pointsAwarded > 0 then
        match updateUserPoints db1 now userId (-removedRegistration.pointsAwarded)
            PointsType.event_registration
            ("Unregistered from event: " ++ event.name) (some eventId) with
        | Except.error e => ({ status := 400, success := false, message := e }, db1)
        | Except.ok (_, db2) =>
          ({ status := 200, success := true,
             message := "Successfully unregistered from event" }, db2)
      else
        ({ status := 200, success := true,
           message := "Successfully unregistered from event" }, db1)

/-- The invariant of the registrations of an event: `currentParticipants` is
the number of registrations, and no user id appears in two registrations. -/
def EventInv (event : Event) : Prop :=
  event.currentParticipants = (event.registrations.length : Int) ∧
  (event.registrations.map (fun reg => reg.userId)).Nodup

/-- The store after the `pointsReward` of an event has been changed to
`pointsReward`, as `updateEvent` does with a body that holds this field. -/
def setPointsReward (db : Db) (eventId : Nat) (pointsReward : Int) : Db :=
  match db.events eventId with
  | none => db
  | some event => db.setEvent eventId { event with pointsReward := pointsReward }

/-- An event that takes place at time 100, open for registration until time 50,
with room for 2 participants of which 1 is taken by account 7, worth 20
points. -/
def fairEvent : Event :=
  { name := "Fair", date := 100, lastDateToRegister := 50, maxParticipants := 2,
    currentParticipants := 1, pointsReward := 20,
    registrations := [{ userId := 7, registrationDate := 1, pointsAwarded := 20 }] }

/-- A store with account 1 (holding 5 points) and `fairEvent` as event 1. -/
def eventDb : Db :=
  { users := fun i =>
      if i = 1 then
        some { points := 5,
               pointsHistory := [{ points := 5, type := PointsType.other, description := "",
                                   relatedId := none, earnedAt := 0 }] }
      else none
    events := fun i => if i = 1 then some fairEvent else none }

/-- The answer of `server.js` to a request under `/api` that no router
matches. -/
def apiRouteNotFound : Response :=
  { status := 404, success := false, message := "API route not found" }

/-- A request of a run in which completions and reviews interleave: the request
`POST /api/challenges/:id/complete` that the route comment of
`completeChallenge` names, sent by `userId`, or the review of a submission. -/
inductive ChallengeRequest where
  | complete (now : Int) (userId challengeId : Nat)
  | review (call : ReviewCall)

/-- The answer of the application to such a request and the store after it.
`routes/challenges.js` has no route `/:id/complete` and no other router mounts
`completeChallenge`, so that request falls through to the fallback of
`server.js`; a review goes through the review route. -/
def ChallengeRequest.apply (db : Db) : ChallengeRequest → Response × Db
  | ChallengeRequest.complete _ _ _ => (apiRouteNotFound, db)
  | ChallengeRequest.review c =>
    reviewRoute db c.now c.role c.challengeId c.participantId c.submissionId c.status
      c.feedback c.pointsAwarded

/-- The store after successive requests. -/
def runRequests (db : Db) (requests : List ChallengeRequest) : Db :=
  requests.foldl (fun d r => (ChallengeRequest.apply d r).2) db

/-! ## The points ledger: theorems -/

theorem applyPoints_points (now : Int) (user : User) (points : Int) (type : PointsType)
    (description : String) (relatedId : Option Nat) :
    (applyPoints now user points type description relatedId).points = user.points + points := by
  simp only [applyPoints]
  split_ifs <;> rfl

theorem applyPoints_pointsHistory (now : Int) (user : User) (points : Int) (type : PointsType)
    (description : String) (relatedId : Option Nat) :
    (applyPoints now user points type description relatedId).pointsHistory =
      user.pointsHistory ++ [{ points := points, type := type, description := description,
                               relatedId := relatedId, earnedAt := now }] := by
  simp only [applyPoints]
  split_ifs <;> rfl

theorem setUser_users_self (db : Db) (id : Nat) (u : User) :
    (db.setUser id u).users id = some u := by
  simp [Db.setUser]

theorem setUser_users_other (db : Db) (id i : Nat) (u : User) (h : i ≠ id) :
    (db.setUser id u).users i = db.users i := by
  simp [Db.setUser, h]

theorem runLedger_spec (calls : List LedgerCall) :
    ∀ (db : Db) (userId : Nat) (user : User), db.users userId = some user →
      ∃ db1 user1, runLedger db userId calls = Except.ok db1 ∧ db1.users userId = some user1 ∧
        user1.points = user.points + (calls.map (fun c => c.points)).sum ∧
        user1.pointsHistory = user.pointsHistory ++ calls.map LedgerCall.entry := by
  induction calls with
  | nil =>
    intro db userId user hu
    exact ⟨db, user, rfl, hu, by simp, by simp⟩
  | cons c cs ih =>
    intro db userId user hu
    obtain ⟨db1, user1, hrun, hu1, hp, hh⟩ :=
      ih (db.setUser userId (applyPoints c.now user c.points c.type c.description c.relatedId))
        userId _ (setUser_users_self _ _ _)
    refine ⟨db1, user1, ?_, hu1, ?_, ?_⟩
    · simp only [runLedger, updateUserPoints, hu]
      exact hrun
    · rw [hp, applyPoints_points]
      simp [add_assoc]
    · rw [hh, applyPoints_pointsHistory]
      simp [LedgerCall.entry]

/-- C1: for an account that starts with points 0 and an empty history, N
calls of `updateUserPoints` with deltas d1..dN (any sign, any clock readings,
hence any weekly or monthly rollovers) all succeed and leave points equal to
d1 + ... + dN and a history of exactly the N entries of the calls, in call
order. -/
theorem updateUserPoints_accumulates (db : Db) (userId : Nat) (user : User)
    (calls : List LedgerCall) (hu : db.users userId = some user)
    (hp : user.points = 0) (hh : user.pointsHistory = []) :
    ∃ db1 user1, runLedger db userId calls = Except.ok db1 ∧ db1.users userId = some user1 ∧
      user1.points = (calls.map (fun c => c.points)).sum ∧
      user1.pointsHistory.length = calls.length ∧
      user1.pointsHistory.map (fun e => e.points) = calls.map (fun c => c.points) ∧
      user1.pointsHistory = calls.map LedgerCall.entry := by
  obtain ⟨db1, user1, hrun, hu1, hp1, hh1⟩ := runLedger_spec calls db userId user hu
  rw [hp, zero_add] at hp1
  rw [hh, List.nil_append] at hh1
  refine ⟨db1, user1, hrun, hu1, hp1, ?_, ?_, hh1⟩
  · simp [hh1]
  · simp [hh1, LedgerCall.entry, Function.comp_def]

theorem updateUserPoints_accumulates_witness :
    freshDb.users 1 = some {} ∧
    ∃ db1 user1,
      runLedger freshDb 1 [{ now := 0, points := 5 }, { now := 700000000, points := -2 }]
        = Except.ok db1 ∧ db1.users 1 = some user1 ∧
      user1.points = ([{ now := 0, points := 5 }, { now := 700000000, points := -2 }].map
        (fun (c : LedgerCall) => c.points)).sum ∧
      user1.pointsHistory.length =
        [({ now := 0, points := 5 } : LedgerCall), { now := 700000000, points := -2 }].length ∧
      user1.pointsHistory.map (fun e => e.points) =
        [({ now := 0, points := 5 } : LedgerCall), { now := 700000000, points := -2 }].map
          (fun c => c.points) ∧
      user1.pointsHistory =
        [({ now := 0, points := 5 } : LedgerCall), { now := 700000000, points := -2 }].map
          LedgerCall.entry :=
  ⟨rfl, updateUserPoints_accumulates freshDb 1 {} _ rfl rfl rfl⟩

theorem week_elapsed_iff (d : Int) : d / msPerWeek ≥ 1 ↔ d ≥ 604800000 := by
  have h : msPerWeek = 604800000 := by norm_num [msPerWeek]
  rw [h]
  omega

/-- C2: `updateUserPoints` resets the weekly counter exactly when at least
604800000 ms have elapsed since `lastWeeklyReset`: then the stored
`weeklyPoints` is the delta and `lastWeeklyReset` is the call time; otherwise
`weeklyPoints` is the old value plus the delta and `lastWeeklyReset` is
unchanged. -/
theorem updateUserPoints_weekly (db : Db) (now : Int) (userId : Nat) (user : User)
    (delta : Int) (type : PointsType) (description : String) (relatedId : Option Nat)
    (hu : db.users userId = some user) :
    ∃ db1 user1,
      updateUserPoints db now userId delta type description relatedId = Except.ok (user1, db1) ∧
      db1.users userId = some user1 ∧
      (now - user.lastWeeklyReset ≥ 604800000 →
        user1.weeklyPoints = delta ∧ user1.lastWeeklyReset = now) ∧
      (¬ now - user.lastWeeklyReset ≥ 604800000 →
        user1.weeklyPoints = user.weeklyPoints + delta ∧
        user1.lastWeeklyReset = user.lastWeeklyReset) := by
  refine ⟨db.setUser userId (applyPoints now user delta type description relatedId),
    applyPoints now user delta type description relatedId,
    by simp only [updateUserPoints, hu], setUser_users_self _ _ _, ?_, ?_⟩
  · intro h
    have hw := (week_elapsed_iff _).mpr h
    simp only [applyPoints, hw, if_true]
    split_ifs <;> simp
  · intro h
    have hw : ¬ (now - user.lastWeeklyReset) / msPerWeek ≥ 1 := fun hc =>
      h ((week_elapsed_iff _).mp hc)
    simp only [applyPoints, hw, if_false]
    split_ifs <;> simp

theorem updateUserPoints_weekly_witness :
    freshDb.users 1 = some {} ∧
    ∃ db1 user1,
      updateUserPoints freshDb 604800000 1 7 PointsType.other "" none = Except.ok (user1, db1) ∧
      db1.users 1 = some user1 ∧
      (604800000 - ({} : User).lastWeeklyReset ≥ 604800000 →
        user1.weeklyPoints = 7 ∧ user1.lastWeeklyReset = 604800000) ∧
      (¬ 604800000 - ({} : User).lastWeeklyReset ≥ 604800000 →
        user1.weeklyPoints = ({} : User).weeklyPoints + 7 ∧
        user1.lastWeeklyReset = ({} : User).lastWeeklyReset) :=
  ⟨rfl, updateUserPoints_weekly freshDb 604800000 1 {} 7 PointsType.other "" none rfl⟩

/-- C3: `updateUserPoints` resets the monthly counter exactly when
(year(now) - year(lastMonthlyReset)) * 12 + month(now) - month(lastMonthlyReset)
is at least 1: then the stored `monthlyPoints` is the delta and
`lastMonthlyReset` is the call time; otherwise `monthlyPoints` is the old value
plus the delta and `lastMonthlyReset` is unchanged. -/
theorem updateUserPoints_monthly (db : Db) (now : Int) (userId : Nat) (user : User)
    (delta : Int) (type : PointsType) (description : String) (relatedId : Option Nat)
    (hu : db.users userId = some user) :
    ∃ db1 user1,
      updateUserPoints db now userId delta type description relatedId = Except.ok (user1, db1) ∧
      db1.users userId = some user1 ∧
      ((getFullYear now - getFullYear user.lastMonthlyReset) * 12
          + getMonth now - getMonth user.lastMonthlyReset ≥ 1 →
        user1.monthlyPoints = delta ∧ user1.lastMonthlyReset = now) ∧
      (¬ (getFullYear now - getFullYear user.lastMonthlyReset) * 12
          + getMonth now - getMonth user.lastMonthlyReset ≥ 1 →
        user1.monthlyPoints = user.monthlyPoints + delta ∧
        user1.lastMonthlyReset = user.lastMonthlyReset) := by
  refine ⟨db.setUser userId (applyPoints now user delta type description relatedId),
    applyPoints now user delta type description relatedId,
    by simp only [updateUserPoints, hu], setUser_users_self _ _ _, ?_, ?_⟩
  · intro h
    simp only [applyPoints, h, if_true]
    split_ifs <;> simp
  · intro h
    simp only [applyPoints, h, if_false]
    split_ifs <;> simp

theorem updateUserPoints_monthly_witness :
    freshDb.users 1 = some {} ∧
    ∃ db1 user1,
      updateUserPoints freshDb 2678400000 1 7 PointsType.other "" none = Except.ok (user1, db1) ∧
      db1.users 1 = some user1 ∧
      ((getFullYear 2678400000 - getFullYear ({} : User).lastMonthlyReset) * 12
          + getMonth 2678400000 - getMonth ({} : User).lastMonthlyReset ≥ 1 →
        user1.monthlyPoints = 7 ∧ user1.lastMonthlyReset = 2678400000) ∧
      (¬ (getFullYear 2678400000 - getFullYear ({} : User).lastMonthlyReset) * 12
          + getMonth 2678400000 - getMonth ({} : User).lastMonthlyReset ≥ 1 →
        user1.monthlyPoints = ({} : User).monthlyPoints + 7 ∧
        user1.lastMonthlyReset = ({} : User).lastMonthlyReset) :=
  ⟨rfl, updateUserPoints_monthly freshDb 2678400000 1 {} 7 PointsType.other "" none rfl⟩

/-! ## The ledger relation between points and history -/

theorem ledgerInv_of_setUser (db db1 : Db) (uid : Nat) (u u1 : User) (hinv : LedgerInv db)
    (hu : db.users uid = some u)
    (husers : db1.users = (db.setUser uid u1).users)
    (hred : db1.redemptions = db.redemptions)
    (hd : u1.points + histSum u = u.points + histSum u1) : LedgerInv db1 := by
  intro i x hx
  have hs : spentBy db1 i = spentBy db i := by simp [spentBy, hred]
  rw [husers] at hx
  by_cases hi : i = uid
  · subst hi
    rw [setUser_users_self] at hx
    cases hx
    have := hinv i u hu
    rw [hs]; linarith
  · rw [setUser_users_other _ _ _ _ hi] at hx
    rw [hs]; exact hinv i x hx

theorem ledgerInv_of_users_eq (db db1 : Db) (hinv : LedgerInv db)
    (husers : db1.users = db.users) (hred : db1.redemptions = db.redemptions) : LedgerInv db1 := by
  intro i x hx
  have hs : spentBy db1 i = spentBy db i := by simp [spentBy, hred]
  rw [husers] at hx
  rw [hs]; exact hinv i x hx

theorem submitQuiz_ledgerInv (db : Db) (now : Int) (userId quizId : Nat)
    (answers : Option (List Answer)) (hinv : LedgerInv db) :
    LedgerInv (submitQuiz db now userId quizId answers).2.2 := by
  unfold submitQuiz
  split
  · exact hinv
  · simp only []
    split_ifs with h1 h2
    · cases hU : db.users userId with
      | none => simp only [hU]; exact ledgerInv_of_users_eq db _ hinv rfl rfl
      | some user =>
        simp only [hU]
        exact ledgerInv_of_setUser db _ userId user _ hinv hU rfl rfl (by simp [histSum]; ring)
    · cases hU : db.users userId with
      | none => simp only [hU]; exact ledgerInv_of_users_eq db _ hinv rfl rfl
      | some user =>
        simp only [hU]
        exact ledgerInv_of_setUser db _ userId user _ hinv hU rfl rfl (by simp [histSum])
    · exact hinv

theorem updateUserPoints_ledgerInv (db db1 : Db) (now : Int) (userId : Nat) (points : Int)
    (type : PointsType) (description : String) (relatedId : Option Nat) (user1 : User)
    (hinv : LedgerInv db)
    (h : updateUserPoints db now userId points type description relatedId = Except.ok (user1, db1)) :
    LedgerInv db1 := by
  unfold updateUserPoints at h
  cases hU : db.users userId with
  | none => simp [hU] at h
  | some user =>
    simp only [hU, Except.ok.injEq, Prod.mk.injEq] at h
    obtain ⟨-, rfl⟩ := h
    refine ledgerInv_of_setUser db _ userId user _ hinv hU rfl rfl ?_
    rw [applyPoints_points]
    simp [histSum, applyPoints_pointsHistory]; ring

theorem updatePoints_ledgerInv (db : Db) (now : Int) (userId : Nat) (points : Int)
    (type : PointsType) (description : String) (hinv : LedgerInv db) :
    LedgerInv (updatePoints db now userId points type description).2 := by
  unfold updatePoints
  cases hU : db.users userId with
  | none => exact hinv
  | some user =>
    exact ledgerInv_of_setUser db _ userId user _ hinv hU rfl rfl (by simp [histSum]; ring)

theorem updateQuizAttempt_ledgerInv (db : Db) (now : Int) (userId quizId : Nat) (score : Int)
    (points : Option Int) (type : PointsType) (description : String) (hinv : LedgerInv db) :
    LedgerInv (updateQuizAttempt db now userId quizId score points type description).2 := by
  unfold updateQuizAttempt
  cases hU : db.users userId with
  | none => exact hinv
  | some user =>
    refine ledgerInv_of_setUser db _ userId user _ hinv hU rfl rfl ?_
    cases points with
    | none => simp [histSum]
    | some p =>
      simp only []
      split_ifs
      · simp [histSum]; ring
      · simp [histSum]

theorem completeModuleOnQuizPass_users (db : Db) (now : Int) (userId quizId : Nat)
    (score : Int) :
    (completeModuleOnQuizPass db now userId quizId score).2.users = db.users ∧
    (completeModuleOnQuizPass db now userId quizId score).2.redemptions = db.redemptions := by
  unfold completeModuleOnQuizPass
  cases db.quizzes quizId with
  | none => exact ⟨rfl, rfl⟩
  | some quiz =>
    simp only []
    cases quiz.module with
    | none => exact ⟨rfl, rfl⟩
    | some moduleId =>
      simp only []
      cases db.modules moduleId with
      | none => exact ⟨rfl, rfl⟩
      | some module =>
        by_cases h1 : meetsThreshold score quiz.totalPoints = true
        · cases hP : db.progress userId moduleId with
          | none => simp [h1, Db.setProgress]
          | some p =>
            cases hc : p.isCompleted <;> simp [h1, hc, Db.setProgress]
        · simp [h1]

theorem redeemReward_ledgerInv (db : Db) (now : Int) (userId rewardId : Nat)
    (hinv : LedgerInv db) : LedgerInv (redeemReward db now userId rewardId).2 := by
  unfold redeemReward
  cases db.rewards rewardId with
  | none => exact hinv
  | some reward =>
    simp only []
    cases hU : db.users userId with
    | none => exact hinv
    | some user =>
      simp only []
      split_ifs with h1 h2
      · exact hinv
      · exact hinv
      · intro i x hx
        have husers : ∀ db0 : Db, (match reward.stock with
            | some stock => db0.setReward rewardId { reward with stock := some (stock - 1) }
            | none => db0).users = db0.users ∧ (match reward.stock with
            | some stock => db0.setReward rewardId { reward with stock := some (stock - 1) }
            | none => db0).redemptions = db0.redemptions := by
          intro db0; cases reward.stock <;> exact ⟨rfl, rfl⟩
        simp only [(husers _).1] at hx
        simp only [spentBy, (husers _).2]
        by_cases hi : i = userId
        · subst hi
          rw [setUser_users_self] at hx
          cases hx
          have := hinv i user hU
          simp [spentBy, histSum, Db.setUser, List.filter_append] at this ⊢
          linarith
        · rw [setUser_users_other _ _ _ _ hi] at hx
          have := hinv i x hx
          have hne : ¬ userId = i := fun h => hi h.symm
          simp [spentBy, histSum, Db.setUser, List.filter_append, hne] at this ⊢
          linarith

theorem PointsOp.apply_ledgerInv (db : Db) (op : PointsOp) (hinv : LedgerInv db) :
    LedgerInv (op.apply db) := by
  cases op with
  | updateUserPoints now userId points type description relatedId =>
    simp only [PointsOp.apply]
    cases h : Ujjivana.updateUserPoints db now userId points type description relatedId with
    | error e => exact hinv
    | ok r =>
      obtain ⟨user1, db1⟩ := r
      exact updateUserPoints_ledgerInv db db1 now userId points type description relatedId
        user1 hinv h
  | submitQuiz now userId quizId answers => exact submitQuiz_ledgerInv db now userId quizId answers hinv
  | updatePoints now userId points type description =>
    exact updatePoints_ledgerInv db now userId points type description hinv
  | updateQuizAttempt now userId quizId score points type description =>
    exact updateQuizAttempt_ledgerInv db now userId quizId score points type description hinv
  | redeemReward now userId rewardId => exact redeemReward_ledgerInv db now userId rewardId hinv
  | completeModuleOnQuizPass now userId quizId score =>
    have h := completeModuleOnQuizPass_users db now userId quizId score
    exact ledgerInv_of_users_eq db _ hinv h.1 h.2

theorem PointsOp.apply_redemptions (db : Db) (op : PointsOp) (h : op.isRedeem = false) :
    (op.apply db).redemptions = db.redemptions := by
  cases op with
  | updateUserPoints now userId points type description relatedId =>
    simp only [PointsOp.apply, Ujjivana.updateUserPoints]
    cases db.users userId <;> rfl
  | submitQuiz now userId quizId answers =>
    simp only [PointsOp.apply, Ujjivana.submitQuiz]
    cases db.quizzes quizId with
    | none => rfl
    | some quiz =>
      simp only []
      split_ifs
      · cases db.users userId <;> rfl
      · cases db.users userId <;> rfl
      · rfl
  | updatePoints now userId points type description =>
    simp only [PointsOp.apply, Ujjivana.updatePoints]
    cases db.users userId <;> rfl
  | updateQuizAttempt now userId quizId score points type description =>
    simp only [PointsOp.apply, Ujjivana.updateQuizAttempt]
    cases db.users userId <;> rfl
  | redeemReward now userId rewardId => simp [PointsOp.isRedeem] at h
  | completeModuleOnQuizPass now userId quizId score =>
    exact (completeModuleOnQuizPass_users db now userId quizId score).2

theorem runOps_ledgerInv (ops : List PointsOp) :
    ∀ db : Db, LedgerInv db → LedgerInv (runOps db ops) := by
  induction ops with
  | nil => intro db h; exact h
  | cons op ops ih =>
    intro db h
    exact ih (op.apply db) (PointsOp.apply_ledgerInv db op h)

theorem runOps_redemptions (ops : List PointsOp) :
    ∀ db : Db, (∀ op ∈ ops, PointsOp.isRedeem op = false) →
      (runOps db ops).redemptions = db.redemptions := by
  induction ops with
  | nil => intro db _; rfl
  | cons op ops ih =>
    intro db h
    have h1 := ih (op.apply db) (fun o ho => h o (List.mem_cons_of_mem _ ho))
    have h2 := PointsOp.apply_redemptions db op (h op (List.mem_cons_self _ _))
    simp only [runOps, List.foldl_cons] at h1 ⊢
    rw [h1, h2]

/-- C4 (as stated, refuted): from a fresh account, a ledger credit of 10
followed by the redemption of a 5-point reward leaves points = 5 while the
history entries sum to 10. -/
theorem points_eq_history_sum_fails :
    ((runOps rewardDb
        [PointsOp.updateUserPoints 0 1 10 PointsType.other "" none,
         PointsOp.redeemReward 0 1 1]).users 1).map (fun u => (u.points, histSum u))
      = some (5, 10) := by
  decide

/-- C4 (amended): from a store whose accounts are fresh and which holds no
redemption record, after any sequence of updateUserPoints, submitQuiz,
updatePoints, updateQuizAttempt, redeemReward and completeModuleOnQuizPass
requests every account has points equal to the sum of its history entries
minus the points spent on its redemptions; and when the sequence contains no
redeemReward request, points equals the sum of the history entries. -/
theorem points_history_relation (db : Db) (ops : List PointsOp)
    (hfresh : ∀ i u, db.users i = some u → u.points = 0 ∧ u.pointsHistory = [])
    (hred : db.redemptions = []) (userId : Nat) (user : User)
    (hu : (runOps db ops).users userId = some user) :
    user.points = histSum user - spentBy (runOps db ops) userId ∧
    ((∀ op ∈ ops, PointsOp.isRedeem op = false) → user.points = histSum user) := by
  have hinv : LedgerInv db := by
    intro i u hi
    obtain ⟨h1, h2⟩ := hfresh i u hi
    simp [spentBy, histSum, hred, h1, h2]
  have h := runOps_ledgerInv ops db hinv userId user hu
  refine ⟨by linarith, fun hno => ?_⟩
  have hr := runOps_redemptions ops db hno
  have hs : spentBy (runOps db ops) userId = 0 := by simp [spentBy, hr, hred]
  rw [hs] at h
  linarith

theorem points_history_relation_witness :
    (∀ i u, rewardDb.users i = some u → u.points = 0 ∧ u.pointsHistory = []) ∧
    rewardDb.redemptions = [] ∧
    (runOps rewardDb
        [PointsOp.updateUserPoints 0 1 10 PointsType.other "" none,
         PointsOp.redeemReward 0 1 1]).users 1 =
      some { points := 5, monthlyPoints := 10, weeklyPoints := 10,
             pointsHistory := [{ points := 10, type := PointsType.other, description := "",
                                 relatedId := none, earnedAt := 0 }] } ∧
    (5 : Int) = 10 - spentBy (runOps rewardDb
        [PointsOp.updateUserPoints 0 1 10 PointsType.other "" none,
         PointsOp.redeemReward 0 1 1]) 1 := by
  have hfresh : ∀ i u, rewardDb.users i = some u → u.points = 0 ∧ u.pointsHistory = [] := by
    intro i u h
    simp only [rewardDb] at h
    split_ifs at h
    cases h
    exact ⟨rfl, rfl⟩
  have hu : (runOps rewardDb
        [PointsOp.updateUserPoints 0 1 10 PointsType.other "" none,
         PointsOp.redeemReward 0 1 1]).users 1 =
      some { points := 5, monthlyPoints := 10, weeklyPoints := 10,
             pointsHistory := [{ points := 10, type := PointsType.other, description := "",
                                 relatedId := none, earnedAt := 0 }] } := by
    rfl
  exact ⟨hfresh, rfl, hu, (points_history_relation rewardDb _ hfresh rfl 1 _ hu).1⟩

/-! ## Module completion -/

theorem setProgress_progress_self (db : Db) (u m : Nat) (p : UserProgress) :
    (db.setProgress u m p).progress u m = some p := by
  simp [Db.setProgress]

/-- C5: `completeModule` answers 400 and leaves the whole store (progress
records and accounts) unchanged whenever the progress record exists and either
the number of completed lessons differs from the lesson count of the module or
`isCompleted` is already true; and a `completeModule` call that follows a
successful one is answered 400 and changes nothing. -/
theorem completeModule_rejects (db : Db) (now now2 : Int) (userId moduleId : Nat)
    (progress : UserProgress) (module : Module)
    (hp : db.progress userId moduleId = some progress)
    (hm : db.modules moduleId = some module) :
    ((progress.completedLessons.length ≠ module.lessons.length ∨ progress.isCompleted = true) →
      (completeModule db now userId moduleId).1.status = 400 ∧
      (completeModule db now userId moduleId).1.success = false ∧
      (completeModule db now userId moduleId).2 = db) ∧
    ((completeModule db now userId moduleId).1.status = 200 →
      (completeModule (completeModule db now userId moduleId).2 now2 userId moduleId).1.status
        = 400 ∧
      (completeModule (completeModule db now userId moduleId).2 now2 userId moduleId).2
        = (completeModule db now userId moduleId).2) := by
  constructor
  · intro h
    simp only [completeModule, hp, hm]
    by_cases hlen : progress.completedLessons.length = module.lessons.length
    · have hc : progress.isCompleted = true := by
        rcases h with h | h
        · exact absurd hlen h
        · exact h
      simp [hlen, hc]
    · simp [hlen]
  · intro hok
    by_cases hlen : progress.completedLessons.length = module.lessons.length
    · cases hc : progress.isCompleted with
      | true =>
        simp [completeModule, hp, hm, hlen, hc] at hok
      | false =>
        cases hU : db.users userId with
        | none =>
          simp [completeModule, hp, hm, hlen, hc, hU, Db.setProgress]
        | some user =>
          simp [completeModule, hp, hm, hlen, hc, hU, Db.setProgress, updateUserPoints,
            Db.setUser]
    · simp [completeModule, hp, hm, hlen] at hok

theorem completeModule_rejects_witness :
    ((([0] : List Int).length ≠ 2 ∨ false = true) →
      (completeModule partialDb 5 1 1).1.status = 400 ∧
      (completeModule partialDb 5 1 1).1.success = false ∧
      (completeModule partialDb 5 1 1).2 = partialDb) ∧
    ((completeModule moduleDb 5 1 1).1.status = 200 →
      (completeModule (completeModule moduleDb 5 1 1).2 9 1 1).1.status = 400 ∧
      (completeModule (completeModule moduleDb 5 1 1).2 9 1 1).2
        = (completeModule moduleDb 5 1 1).2) ∧
    (([0] : List Int).length ≠ 2 ∨ false = true) ∧
    (completeModule moduleDb 5 1 1).1.status = 200 :=
  ⟨(completeModule_rejects partialDb 5 9 1 1
      { user := 1, module := 1, completedLessons := [0] }
      { title := "Rivers", category := "Biodiversity", points := 50,
        lessons := [{ title := "a", order := 1 }, { title := "b", order := 2 }] } rfl rfl).1,
   (completeModule_rejects moduleDb 5 9 1 1
      { user := 1, module := 1, completedLessons := [0, 1] }
      { title := "Rivers", category := "Biodiversity", points := 50,
        lessons := [{ title := "a", order := 1 }, { title := "b", order := 2 }] } rfl rfl).2,
   by decide, by decide⟩

theorem addBadge_fields (now : Int) (user : User) (badgeName description : String) :
    (addBadge now user badgeName description).1.modulesCompleted = user.modulesCompleted := by
  unfold addBadge
  split <;> rfl

theorem completeModule_effect (db : Db) (now : Int) (userId moduleId : Nat)
    (progress : UserProgress) (module : Module) (user : User)
    (hp : db.progress userId moduleId = some progress)
    (hm : db.modules moduleId = some module)
    (hu : db.users userId = some user)
    (hlen : progress.completedLessons.length = module.lessons.length)
    (hc : progress.isCompleted = false) :
    (completeModule db now userId moduleId).1.status = 200 ∧
    (completeModule db now userId moduleId).2.progress userId moduleId
      = some { progress with isCompleted := true, lastAccessed := now } ∧
    (∃ user1, (completeModule db now userId moduleId).2.users userId = some user1 ∧
      user1.points = user.points + module.points ∧
      user1.pointsHistory = user.pointsHistory ++
        [{ points := module.points, type := PointsType.module_completed,
           description := "Completed " ++ module.title, relatedId := some moduleId,
           earnedAt := now }] ∧
      user1.modulesCompleted = user.modulesCompleted + 1) := by
  have hstep : completeModule db now userId moduleId =
      ({ status := 200, success := true, message := "Module completed!" },
        ((db.setProgress userId moduleId { progress with
            isCompleted := true, lastAccessed := now }).setUser
          userId (applyPoints now user module.points PointsType.module_completed
            ("Completed " ++ module.title) (some moduleId))).setUser userId
          { applyPoints now user module.points PointsType.module_completed
              ("Completed " ++ module.title) (some moduleId) with
            modulesCompleted := (addBadge now
              { user with modulesCompleted := user.modulesCompleted + 1 }
              (module.category ++ " Expert")
              ("Awarded for completing " ++ module.title)).1.modulesCompleted
            badges := (addBadge now
              { user with modulesCompleted := user.modulesCompleted + 1 }
              (module.category ++ " Expert")
              ("Awarded for completing " ++ module.title)).1.badges }) := by
    simp [completeModule, hp, hm, hlen, hc, hu, Db.setProgress, updateUserPoints, Db.setUser]
  rw [hstep]
  refine ⟨rfl, ?_, ⟨_, setUser_users_self _ _ _, ?_, ?_, ?_⟩⟩
  · simp [Db.setUser, Db.setProgress]
  · exact applyPoints_points now user module.points PointsType.module_completed
      ("Completed " ++ module.title) (some moduleId)
  · exact applyPoints_pointsHistory now user module.points PointsType.module_completed
      ("Completed " ++ module.title) (some moduleId)
  · exact addBadge_fields now { user with modulesCompleted := user.modulesCompleted + 1 }
      (module.category ++ " Expert") ("Awarded for completing " ++ module.title)

/-- C6 (code bug): in a store where account 1 has completed both lessons of
module 1 (worth 50 points), `completeModule` answers 200, credits the 50 points
with one `module_completed` history entry and counts one completed module, but
the progress record it stores is the old one with `isCompleted = true` and the
new `lastAccessed` only: the `earnedPoints` that the handler assigns is not a
path of the stored document. -/
theorem completeModule_stored_record :
    (completeModule moduleDb 5 1 1).1.status = 200 ∧
    (completeModule moduleDb 5 1 1).2.progress 1 1 =
      some { user := 1, module := 1, completedLessons := [0, 1], isCompleted := true,
             lastAccessed := 5 } ∧
    ((completeModule moduleDb 5 1 1).2.users 1).map
      (fun u => (u.points, u.modulesCompleted,
        u.pointsHistory.map (fun e => (e.points, e.type))))
      = some (50, 1, [(50, PointsType.module_completed)]) := by
  decide

/-! ## Where `isCompleted` becomes true -/

/-- C7 (as stated, refuted): with no lesson of the one-lesson module
completed and `isCompleted` false, `completeModuleOnQuizPass` with a passing
score stores `isCompleted = true`. -/
theorem isCompleted_without_lessons :
    (quizDb.progress 1 1).map (fun p => (p.isCompleted, p.completedLessons.length))
      = some (false, 0) ∧
    (quizDb.modules 1).map (fun m => m.lessons.length) = some 1 ∧
    ((completeModuleOnQuizPass quizDb 3 1 1 10).2.progress 1 1).map
      (fun p => (p.isCompleted, p.completedLessons.length)) = some (true, 0) := by
  have h : meetsThreshold 10 10 = true := by
    simp only [meetsThreshold]
    norm_num
  refine ⟨by decide, by decide, ?_⟩
  simp [completeModuleOnQuizPass, quizDb, h, Db.setProgress]

theorem PointsOp.apply_progress (db : Db) (op : PointsOp)
    (h : ∀ now userId quizId score,
      op ≠ PointsOp.completeModuleOnQuizPass now userId quizId score) :
    (op.apply db).progress = db.progress := by
  cases op with
  | updateUserPoints now userId points type description relatedId =>
    simp only [PointsOp.apply, Ujjivana.updateUserPoints]
    cases db.users userId <;> rfl
  | submitQuiz now userId quizId answers =>
    simp only [PointsOp.apply, Ujjivana.submitQuiz]
    cases db.quizzes quizId with
    | none => rfl
    | some quiz =>
      simp only []
      split_ifs
      · cases db.users userId <;> rfl
      · cases db.users userId <;> rfl
      · rfl
  | updatePoints now userId points type description =>
    simp only [PointsOp.apply, Ujjivana.updatePoints]
    cases db.users userId <;> rfl
  | updateQuizAttempt now userId quizId score points type description =>
    simp only [PointsOp.apply, Ujjivana.updateQuizAttempt]
    cases db.users userId <;> rfl
  | redeemReward now userId rewardId =>
    simp only [PointsOp.apply, Ujjivana.redeemReward]
    cases db.rewards rewardId with
    | none => rfl
    | some reward =>
      simp only []
      cases db.users userId with
      | none => rfl
      | some user =>
        simp only []
        split_ifs
        · rfl
        · rfl
        · cases reward.stock <;> rfl
  | completeModuleOnQuizPass now userId quizId score => exact absurd rfl (h now userId quizId score)

theorem getModuleProgress_isCompleted (db : Db) (now : Int) (userId moduleId u m : Nat)
    (p p1 : UserProgress) (hp : db.progress u m = some p)
    (hp1 : (getModuleProgress db now userId moduleId).2.progress u m = some p1) : p1 = p := by
  unfold getModuleProgress at hp1
  cases hq : db.progress userId moduleId with
  | some q =>
    simp only [hq] at hp1
    exact Option.some.inj (hp1.symm.trans hp)
  | none =>
    simp only [hq, Db.setProgress] at hp1
    split_ifs at hp1 with hk
    · obtain ⟨rfl, rfl⟩ := hk
      rw [hq] at hp
      cases hp
    · exact Option.some.inj (hp1.symm.trans hp)

theorem updateLessonProgress_isCompleted (db : Db) (now : Int) (userId moduleId : Nat)
    (lessonIndex : Int) (isCompleted : Bool) (u m : Nat) (p p1 : UserProgress)
    (hp : db.progress u m = some p)
    (hp1 : (updateLessonProgress db now userId moduleId lessonIndex isCompleted).2.progress u m
      = some p1) : p1.isCompleted = p.isCompleted := by
  by_cases hk : u = userId ∧ m = moduleId
  · obtain ⟨rfl, rfl⟩ := hk
    simp only [updateLessonProgress, Db.setProgress, hp, and_self, if_true,
      Option.some.injEq] at hp1
    rw [← hp1]
    split_ifs <;> rfl
  · simp only [updateLessonProgress, Db.setProgress, hk, if_false] at hp1
    rw [Option.some.inj (hp1.symm.trans hp)]

theorem completeModule_isCompleted (db : Db) (now : Int) (userId moduleId u m : Nat)
    (p p1 : UserProgress) (hp : db.progress u m = some p) (hf : p.isCompleted = false)
    (hp1 : (completeModule db now userId moduleId).2.progress u m = some p1)
    (ht : p1.isCompleted = true) :
    (userId = u ∧ moduleId = m) ∧
    ∃ module, db.modules m = some module ∧
      p.completedLessons.length = module.lessons.length := by
  have hne : p1 ≠ p := fun h => by rw [h, hf] at ht; cases ht
  have hsame : (completeModule db now userId moduleId).2.progress u m = db.progress u m →
      False := fun h => hne (Option.some.inj (hp1.symm.trans (h.trans hp)))
  cases hq : db.progress userId moduleId with
  | none => exact absurd (by simp [completeModule, hq]) hsame
  | some q =>
    cases hm : db.modules moduleId with
    | none => exact absurd (by simp [completeModule, hq, hm]) hsame
    | some module =>
      by_cases hlen : q.completedLessons.length = module.lessons.length
      · cases hc : q.isCompleted with
        | true => exact absurd (by simp [completeModule, hq, hm, hlen, hc]) hsame
        | false =>
          by_cases hk : u = userId ∧ m = moduleId
          · obtain ⟨rfl, rfl⟩ := hk
            rw [hq] at hp
            cases hp
            exact ⟨⟨rfl, rfl⟩, module, hm, hlen⟩
          · refine absurd ?_ hsame
            cases hU : db.users userId with
            | none => simp [completeModule, hq, hm, hlen, hc, hU, Db.setProgress, hk]
            | some user =>
              simp [completeModule, hq, hm, hlen, hc, hU, Db.setProgress, hk,
                updateUserPoints, Db.setUser]
      · exact absurd (by simp [completeModule, hq, hm, hlen]) hsame

theorem completeModuleOnQuizPass_isCompleted (db : Db) (now : Int) (userId quizId : Nat)
    (score : Int)
    (u m : Nat) (p p1 : UserProgress) (hp : db.progress u m = some p)
    (hf : p.isCompleted = false)
    (hp1 : (completeModuleOnQuizPass db now userId quizId score).2.progress u m = some p1)
    (ht : p1.isCompleted = true) :
    userId = u ∧ ∃ quiz, db.quizzes quizId = some quiz ∧ quiz.module = some m ∧
      meetsThreshold score quiz.totalPoints = true := by
  have hne : p1 ≠ p := fun h => by rw [h, hf] at ht; cases ht
  have hsame : (completeModuleOnQuizPass db now userId quizId score).2.progress u m
      = db.progress u m → False :=
    fun h => hne (Option.some.inj (hp1.symm.trans (h.trans hp)))
  cases hq : db.quizzes quizId with
  | none => exact absurd (by simp [completeModuleOnQuizPass, hq]) hsame
  | some quiz =>
    cases hqm : quiz.module with
    | none => exact absurd (by simp [completeModuleOnQuizPass, hq, hqm]) hsame
    | some moduleId =>
      cases hm : db.modules moduleId with
      | none => exact absurd (by simp [completeModuleOnQuizPass, hq, hqm, hm]) hsame
      | some module =>
        by_cases hth : meetsThreshold score quiz.totalPoints = true
        · by_cases hk : u = userId ∧ m = moduleId
          · obtain ⟨rfl, rfl⟩ := hk
            exact ⟨rfl, quiz, rfl, hqm, hth⟩
          · refine absurd ?_ hsame
            cases hP : db.progress userId moduleId with
            | none => simp [completeModuleOnQuizPass, hq, hqm, hm, hth, hP, Db.setProgress, hk]
            | some r =>
              cases hc : r.isCompleted <;>
                simp [completeModuleOnQuizPass, hq, hqm, hm, hth, hP, hc, Db.setProgress, hk]
        · exact absurd (by simp [completeModuleOnQuizPass, hq, hqm, hm, hth]) hsame

/-- C7 (amended): over the operations of the system (the point operations,
getModuleProgress, updateLessonProgress, completeModule), the `isCompleted`
flag of a progress record changes from false to true only in `completeModule`
for that user and module, in a state where the number of completed lessons
equals the lesson count of the module, or in `completeModuleOnQuizPass` by
that user for a quiz of that module with score / quiz.totalPoints >= 0.8,
whatever the completed lessons. -/
theorem isCompleted_becomes_true_only (db : Db) (op : Op) (u m : Nat) (p p1 : UserProgress)
    (hp : db.progress u m = some p) (hf : p.isCompleted = false)
    (hp1 : (op.apply db).progress u m = some p1) (ht : p1.isCompleted = true) :
    (∃ now module, op = Op.completeModule now u m ∧ db.modules m = some module ∧
      p.completedLessons.length = module.lessons.length) ∨
    (∃ now quizId score quiz,
      op = Op.points (PointsOp.completeModuleOnQuizPass now u quizId score) ∧
      db.quizzes quizId = some quiz ∧ quiz.module = some m ∧
      meetsThreshold score quiz.totalPoints = true) := by
  have hne : p1 ≠ p := fun h => by rw [h, hf] at ht; cases ht
  cases op with
  | points pop =>
    by_cases hq : ∃ now userId quizId score,
        pop = PointsOp.completeModuleOnQuizPass now userId quizId score
    · obtain ⟨now, userId, quizId, score, rfl⟩ := hq
      obtain ⟨rfl, quiz, h1, h2, h3⟩ :=
        completeModuleOnQuizPass_isCompleted db now userId quizId score u m p p1 hp hf hp1 ht
      exact Or.inr ⟨now, quizId, score, quiz, rfl, h1, h2, h3⟩
    · have hall : ∀ now userId quizId score,
          pop ≠ PointsOp.completeModuleOnQuizPass now userId quizId score :=
        fun t a b c h => hq ⟨t, a, b, c, h⟩
      have h := PointsOp.apply_progress db pop hall
      simp only [Op.apply, h] at hp1
      exact absurd (Option.some.inj (hp1.symm.trans hp)) hne
  | getModuleProgress now userId moduleId =>
    exact absurd (getModuleProgress_isCompleted db now userId moduleId u m p p1 hp hp1) hne
  | updateLessonProgress now userId moduleId lessonIndex isCompleted =>
    have h := updateLessonProgress_isCompleted db now userId moduleId lessonIndex isCompleted
      u m p p1 hp hp1
    rw [hf, ht] at h
    cases h
  | completeModule now userId moduleId =>
    obtain ⟨⟨rfl, rfl⟩, module, h1, h2⟩ :=
      completeModule_isCompleted db now userId moduleId u m p p1 hp hf hp1 ht
    exact Or.inl ⟨now, module, rfl, h1, h2⟩

theorem isCompleted_becomes_true_only_witness :
    (Op.apply moduleDb (Op.completeModule 5 1 1)).progress 1 1 =
      some { user := 1, module := 1, completedLessons := [0, 1],
             isCompleted := true, lastAccessed := 5 } ∧
    ((∃ now module, Op.completeModule 5 1 1 = Op.completeModule now 1 1 ∧
        moduleDb.modules 1 = some module ∧
        ([0, 1] : List Int).length = module.lessons.length) ∨
     (∃ now quizId score quiz,
        Op.completeModule 5 1 1
          = Op.points (PointsOp.completeModuleOnQuizPass now 1 quizId score) ∧
        moduleDb.quizzes quizId = some quiz ∧ quiz.module = some 1 ∧
        meetsThreshold score quiz.totalPoints = true)) :=
  ⟨by decide,
   isCompleted_becomes_true_only moduleDb (Op.completeModule 5 1 1) 1 1
     { user := 1, module := 1, completedLessons := [0, 1] }
     { user := 1, module := 1, completedLessons := [0, 1],
       isCompleted := true, lastAccessed := 5 }
     rfl rfl (by decide) rfl⟩

/-! ## Lesson progress -/

theorem mem_setToArray (a : Int) : ∀ l : List Int, a ∈ setToArray l ↔ a ∈ l := by
  intro l
  induction l with
  | nil => simp [setToArray]
  | cons b l ih =>
    simp only [setToArray, List.mem_cons, List.mem_filter, ih]
    by_cases h : a = b <;> simp [h]

theorem nodup_setToArray : ∀ l : List Int, (setToArray l).Nodup := by
  intro l
  induction l with
  | nil => simp [setToArray]
  | cons b l ih =>
    simp only [setToArray, List.nodup_cons, List.mem_filter]
    exact ⟨by simp, ih.filter _⟩

theorem mem_dedupeSort (a : Int) (l : List Int) : a ∈ dedupeSort l ↔ a ∈ l := by
  unfold dedupeSort
  rw [(List.perm_insertionSort _ _).mem_iff, mem_setToArray]

theorem dedupeSort_strictAsc (l : List Int) : (dedupeSort l).Sorted (fun a b => a < b) := by
  unfold dedupeSort
  have hs : ((setToArray l).insertionSort (fun a b => a ≤ b)).Sorted (fun a b => a ≤ b) :=
    List.sorted_insertionSort _ _
  have hn : ((setToArray l).insertionSort (fun a b => a ≤ b)).Nodup :=
    (List.perm_insertionSort _ _).nodup_iff.mpr (nodup_setToArray l)
  exact hs.lt_of_le hn

theorem updateLessonProgress_stored (db : Db) (now : Int) (userId moduleId : Nat)
    (lessonIndex : Int) (isCompleted : Bool) :
    ∃ p1, (updateLessonProgress db now userId moduleId lessonIndex isCompleted).2.progress
        userId moduleId = some p1 ∧
      p1.completedLessons = lessonsAfter (db.progress userId moduleId) lessonIndex isCompleted := by
  refine ⟨_, setProgress_progress_self _ _ _ _, ?_⟩
  cases db.progress userId moduleId with
  | none => simp [lessonsAfter]
  | some p =>
    cases isCompleted with
    | false => simp [lessonsAfter]
    | true =>
      by_cases hmem : lessonIndex ∈ p.completedLessons <;> simp [lessonsAfter, hmem]

/-- C8: `updateLessonProgress` with `isCompleted = true` is idempotent on
`completedLessons`: after a call with lesson index i the index is a member of
the stored list, and a second call with the same index stores the same list
(same size, same contents). -/
theorem updateLessonProgress_idempotent (db : Db) (now now2 : Int) (userId moduleId : Nat)
    (lessonIndex : Int) :
    ∃ p1 p2,
      (updateLessonProgress db now userId moduleId lessonIndex true).2.progress userId moduleId
        = some p1 ∧
      (updateLessonProgress (updateLessonProgress db now userId moduleId lessonIndex true).2
          now2 userId moduleId lessonIndex true).2.progress userId moduleId = some p2 ∧
      p2.completedLessons = p1.completedLessons ∧
      p2.completedLessons.length = p1.completedLessons.length ∧
      lessonIndex ∈ p1.completedLessons := by
  obtain ⟨p1, h1, hl1⟩ := updateLessonProgress_stored db now userId moduleId lessonIndex true
  obtain ⟨p2, h2, hl2⟩ := updateLessonProgress_stored
    (updateLessonProgress db now userId moduleId lessonIndex true).2 now2 userId moduleId
    lessonIndex true
  have hmem : lessonIndex ∈ p1.completedLessons := by
    rw [hl1]
    cases db.progress userId moduleId with
    | none => simp [lessonsAfter]
    | some p =>
      by_cases hm : lessonIndex ∈ p.completedLessons
      · simp [lessonsAfter, hm]
      · simp [lessonsAfter, hm, mem_dedupeSort]
  have heq : p2.completedLessons = p1.completedLessons := by
    rw [hl2, h1]
    simp [lessonsAfter, hmem]
  exact ⟨p1, p2, h1, h2, heq, by rw [heq], hmem⟩

/-- C9 (as stated, refuted): on a stored record whose list is 2, 1, a call
for the already listed lesson 1 stores the list 2, 1 again, which is not
ascending. -/
theorem updateLessonProgress_keeps_unsorted :
    ((updateLessonProgress unsortedDb 0 1 1 1 true).2.progress 1 1).map
      (fun p => p.completedLessons) = some [2, 1] ∧
    ¬ ([2, 1] : List Int).Sorted (fun a b => a < b) := by
  constructor
  · decide
  · simp [List.Sorted]

/-- C9 (amended): after an `updateLessonProgress` call the stored
`completedLessons` is strictly ascending whenever the record is new or the
prior stored list was strictly ascending, and also whenever the call has
`isCompleted` true and its lesson index was absent from the prior list. -/
theorem updateLessonProgress_strictAsc (db : Db) (now : Int) (userId moduleId : Nat)
    (lessonIndex : Int) (isCompleted : Bool)
    (h : (∀ p, db.progress userId moduleId = some p →
            p.completedLessons.Sorted (fun a b => a < b)) ∨
         (isCompleted = true ∧ ∀ p, db.progress userId moduleId = some p →
            lessonIndex ∉ p.completedLessons)) :
    ∃ p1, (updateLessonProgress db now userId moduleId lessonIndex isCompleted).2.progress
        userId moduleId = some p1 ∧
      p1.completedLessons.Sorted (fun a b => a < b) := by
  obtain ⟨p1, h1, hl1⟩ :=
    updateLessonProgress_stored db now userId moduleId lessonIndex isCompleted
  refine ⟨p1, h1, ?_⟩
  rw [hl1]
  cases hp : db.progress userId moduleId with
  | none =>
    cases isCompleted <;> simp [lessonsAfter, List.Sorted]
  | some p =>
    simp only [lessonsAfter]
    split_ifs with hc
    · exact dedupeSort_strictAsc _
    · rcases h with h | h
      · exact h p hp
      · exact absurd ⟨h.1, h.2 p hp⟩ hc

theorem updateLessonProgress_strictAsc_witness :
    ((∀ p, moduleDb.progress 1 1 = some p → p.completedLessons.Sorted (fun a b => a < b)) ∨
      (true = true ∧ ∀ p, moduleDb.progress 1 1 = some p → (5 : Int) ∉ p.completedLessons)) ∧
    ∃ p1, (updateLessonProgress moduleDb 7 1 1 5 true).2.progress 1 1 = some p1 ∧
      p1.completedLessons.Sorted (fun a b => a < b) := by
  have h : (∀ p, moduleDb.progress 1 1 = some p →
        p.completedLessons.Sorted (fun a b => a < b)) ∨
      (true = true ∧ ∀ p, moduleDb.progress 1 1 = some p → (5 : Int) ∉ p.completedLessons) := by
    left
    intro p hp
    have hq : p = { user := 1, module := 1, completedLessons := [0, 1] } :=
      (Option.some.inj hp).symm
    rw [hq]
    simp [List.Sorted]
  exact ⟨h, updateLessonProgress_strictAsc moduleDb 7 1 1 5 true h⟩

/-! ## Quiz scoring -/

theorem scoreStep_score (answers : Option (List Answer)) (index : Nat) (question : Question)
    (acc : Scoring) :
    (scoreStep answers index question acc).score = acc.score + awarded answers index question ∧
    (scoreStep answers index question acc).totalPoints
      = acc.totalPoints + questionPoints question := by
  unfold scoreStep awarded
  cases findAnswer answers index with
  | none => simp
  | some a =>
    simp only []
    split_ifs <;> simp

theorem scoreLoop_totals (answers : Option (List Answer)) (questions : List Question) :
    ∀ (index : Nat) (acc : Scoring),
      (scoreLoop answers index questions acc).score
        = acc.score + awardedFrom answers index questions ∧
      (scoreLoop answers index questions acc).totalPoints
        = acc.totalPoints + (questions.map questionPoints).sum := by
  induction questions with
  | nil => intro index acc; simp [scoreLoop, awardedFrom]
  | cons q qs ih =>
    intro index acc
    obtain ⟨h1, h2⟩ := ih (index + 1) (scoreStep answers index q acc)
    obtain ⟨h3, h4⟩ := scoreStep_score answers index q acc
    simp only [scoreLoop, awardedFrom, List.map_cons, List.sum_cons]
    rw [h1, h2, h3, h4]
    constructor <;> ring

theorem submitQuiz_totals (db : Db) (now : Int) (userId quizId : Nat)
    (answers : Option (List Answer)) (quiz : Quiz) (hq : db.quizzes quizId = some quiz) :
    (scoreQuiz quiz answers).score = awardedFrom answers 0 quiz.questions ∧
    (scoreQuiz quiz answers).totalPoints = (quiz.questions.map questionPoints).sum ∧
    (∃ data, (submitQuiz db now userId quizId answers).2.1 = some data ∧
      (submitQuiz db now userId quizId answers).1.status = 200 ∧
      data.score = (scoreQuiz quiz answers).score ∧
      data.totalPoints = (scoreQuiz quiz answers).totalPoints) := by
  obtain ⟨h1, h2⟩ := scoreLoop_totals answers quiz.questions 0 {}
  refine ⟨?_, ?_, ?_⟩
  · simpa [scoreQuiz] using h1
  · simpa [scoreQuiz] using h2
  · simp [submitQuiz, hq]

/-- C10 (code bug): quiz 1 has a single question whose `points` is 0, so the
points of its questions sum to 0 (the `totalPoints` that the pre-save hook of
the quiz computes); when account 1, holding 0 points, answers it correctly,
`submitQuiz` reports score 10 and totalPoints 10 and credits 10 points to the
account. -/
theorem submitQuiz_zero_points_question :
    (zeroPointDb.quizzes 1).map
      (fun q => ((q.questions.map (fun x => x.points)).sum, q.totalPoints)) = some (0, 0) ∧
    (zeroPointDb.users 1).map (fun u => u.points) = some 0 ∧
    (submitQuiz zeroPointDb 0 1 1 (some [{ questionIndex := 0, answerIndex := 0 }])).2.1.map
      (fun d => (d.score, d.totalPoints, d.pointsAwarded)) = some (10, 10, 10) ∧
    ((submitQuiz zeroPointDb 0 1 1
        (some [{ questionIndex := 0, answerIndex := 0 }])).2.2.users 1).map
      (fun u => u.points) = some 10 := by
  refine ⟨by decide, by decide, by decide, by decide⟩

/-! ## Repeated quiz submissions -/

theorem submitQuiz_quizzes (db : Db) (now : Int) (userId quizId : Nat)
    (answers : Option (List Answer)) :
    (submitQuiz db now userId quizId answers).2.2.quizzes = db.quizzes := by
  simp only [submitQuiz]
  cases db.quizzes quizId with
  | none => rfl
  | some quiz =>
    simp only []
    split_ifs
    · cases db.users userId <;> rfl
    · cases db.users userId <;> rfl
    · rfl

theorem submitQuiz_quizAttempts (db : Db) (now : Int) (userId quizId : Nat)
    (answers : Option (List Answer)) (quiz : Quiz) (hq : db.quizzes quizId = some quiz) :
    (submitQuiz db now userId quizId answers).2.2.quizAttempts =
      if (scoreQuiz quiz answers).score > 0 then
        db.quizAttempts ++
          [{ user := userId, quiz := quizId, score := (scoreQuiz quiz answers).score,
             totalPoints := (scoreQuiz quiz answers).totalPoints,
             answers := (scoreQuiz quiz answers).answerResults,
             submittedAt := now }]
      else db.quizAttempts := by
  simp only [submitQuiz, hq]
  split_ifs
  · cases db.users userId <;> rfl
  · cases db.users userId <;> rfl
  · rfl

theorem submitQuiz_hasAttempt_mono (db : Db) (now : Int) (userId quizId : Nat)
    (answers : Option (List Answer)) (h : hasAttempt db userId quizId = true) :
    hasAttempt (submitQuiz db now userId quizId answers).2.2 userId quizId = true := by
  cases hq : db.quizzes quizId with
  | none => simpa [submitQuiz, hq] using h
  | some quiz =>
    unfold hasAttempt at h ⊢
    rw [submitQuiz_quizAttempts db now userId quizId answers quiz hq]
    split_ifs
    · rw [List.find?_append]
      cases hf : List.find? (fun a => decide (a.user = userId ∧ a.quiz = quizId))
        db.quizAttempts with
      | none => rw [hf] at h; cases h
      | some a => rfl
    · exact h

theorem submitQuiz_hasAttempt_of_score (db : Db) (now : Int) (userId quizId : Nat)
    (answers : Option (List Answer)) (quiz : Quiz) (hq : db.quizzes quizId = some quiz)
    (hs : (scoreQuiz quiz answers).score > 0) :
    hasAttempt (submitQuiz db now userId quizId answers).2.2 userId quizId = true := by
  unfold hasAttempt
  rw [submitQuiz_quizAttempts db now userId quizId answers quiz hq, if_pos hs,
    List.find?_append]
  cases hf : List.find? (fun a => decide (a.user = userId ∧ a.quiz = quizId))
    db.quizAttempts with
  | some a => rfl
  | none => simp [List.find?]

theorem runSubmits_hasAttempt (calls : List SubmitCall) :
    ∀ (db : Db) (userId quizId : Nat), hasAttempt db userId quizId = true →
      hasAttempt (runSubmits db userId quizId calls) userId quizId = true := by
  induction calls with
  | nil => intro db userId quizId h; exact h
  | cons c cs ih =>
    intro db userId quizId h
    exact ih _ userId quizId (submitQuiz_hasAttempt_mono db c.now userId quizId c.answers h)

theorem submitQuiz_awards_zero (db : Db) (now : Int) (userId quizId : Nat)
    (answers : Option (List Answer)) (user : User) (hu : db.users userId = some user)
    (h : hasAttempt db userId quizId = true) :
    (∀ data, (submitQuiz db now userId quizId answers).2.1 = some data →
      data.pointsAwarded = 0) ∧
    ∃ user1, (submitQuiz db now userId quizId answers).2.2.users userId = some user1 ∧
      user1.points = user.points ∧ user1.weeklyPoints = user.weeklyPoints ∧
      user1.monthlyPoints = user.monthlyPoints ∧ user1.pointsHistory = user.pointsHistory := by
  have hf : (List.find? (fun a => decide (a.user = userId ∧ a.quiz = quizId))
      db.quizAttempts).isNone = false := by
    unfold hasAttempt at h
    cases hx : List.find? (fun a => decide (a.user = userId ∧ a.quiz = quizId))
      db.quizAttempts with
    | none => rw [hx] at h; cases h
    | some a => rfl
  cases hq : db.quizzes quizId with
  | none => simp [submitQuiz, hq, hu]
  | some quiz =>
    by_cases hs : (scoreQuiz quiz answers).score > 0
    · simp only [submitQuiz, hq, hs, if_true, hu, hf, Bool.false_eq_true, if_false, Db.setUser]
      simp
    · simp [submitQuiz, hq, hs, hu]

theorem submitQuiz_users_some (db : Db) (now : Int) (userId quizId : Nat)
    (answers : Option (List Answer)) (u : Nat) (user : User) (hu : db.users u = some user) :
    ∃ user1, (submitQuiz db now userId quizId answers).2.2.users u = some user1 := by
  simp only [submitQuiz]
  cases db.quizzes quizId with
  | none => exact ⟨user, hu⟩
  | some quiz =>
    simp only []
    by_cases hk : u = userId
    · subst hk
      split_ifs <;> simp [hu, Db.setUser]
    · split_ifs <;> cases hx : db.users userId <;> simp [hu, Db.setUser, hk]

theorem submitQuiz_data_some (db : Db) (now : Int) (userId quizId : Nat)
    (answers : Option (List Answer)) (quiz : Quiz) (hq : db.quizzes quizId = some quiz) :
    ∃ data, (submitQuiz db now userId quizId answers).2.1 = some data := by
  simp only [submitQuiz, hq]
  exact ⟨_, rfl⟩

theorem runSubmits_quizzes (calls : List SubmitCall) :
    ∀ (db : Db) (userId quizId : Nat), (runSubmits db userId quizId calls).quizzes = db.quizzes := by
  induction calls with
  | nil => intro db userId quizId; rfl
  | cons c cs ih =>
    intro db userId quizId
    have h := ih (submitQuiz db c.now userId quizId c.answers).2.2 userId quizId
    simp only [runSubmits, List.foldl_cons] at h ⊢
    rw [h, submitQuiz_quizzes]

theorem runSubmits_users_some (calls : List SubmitCall) :
    ∀ (db : Db) (userId quizId u : Nat) (user : User), db.users u = some user →
      ∃ user1, (runSubmits db userId quizId calls).users u = some user1 := by
  induction calls with
  | nil => intro db userId quizId u user hu; exact ⟨user, hu⟩
  | cons c cs ih =>
    intro db userId quizId u user hu
    obtain ⟨user1, h1⟩ := submitQuiz_users_some db c.now userId quizId c.answers u user hu
    exact ih _ userId quizId u user1 h1

/-- C11 (as stated, refuted): a first submission that scores 0 stores no
attempt, so the second submission of the same user for the same quiz, scoring
10, is awarded 10 points. -/
theorem submitQuiz_second_call_awarded :
    (submitQuiz twoQuestionDb 0 1 1 none).2.1.map (fun d => (d.score, d.pointsAwarded))
      = some (0, 0) ∧
    (submitQuiz (submitQuiz twoQuestionDb 0 1 1 none).2.2 5 1 1
        (some [{ questionIndex := 0, answerIndex := 1 }])).2.1.map
      (fun d => (d.score, d.pointsAwarded)) = some (10, 10) ∧
    ((submitQuiz (submitQuiz twoQuestionDb 0 1 1 none).2.2 5 1 1
        (some [{ questionIndex := 0, answerIndex := 1 }])).2.2.users 1).map
      (fun u => u.points) = some 10 := by
  refine ⟨by decide, by decide, by decide⟩

/-- C11 (amended): in any sequence of `submitQuiz` calls by one user for one
quiz, every call after the first call that scored more than 0 awards 0 points:
its `pointsAwarded` is 0 and the account's points, weeklyPoints, monthlyPoints
and pointsHistory are unchanged by it (calls that score 0 store no attempt
and do not count as the first attempt). -/
theorem submitQuiz_after_scored_attempt (db : Db) (userId quizId : Nat) (quiz : Quiz)
    (user0 : User) (first : SubmitCall) (later : List SubmitCall) (c : SubmitCall)
    (hq : db.quizzes quizId = some quiz) (hu : db.users userId = some user0)
    (hs : (scoreQuiz quiz first.answers).score > 0) :
    ∃ user user1 data,
      (runSubmits (submitQuiz db first.now userId quizId first.answers).2.2 userId quizId
        later).users userId = some user ∧
      (submitQuiz
        (runSubmits (submitQuiz db first.now userId quizId first.answers).2.2 userId quizId
          later) c.now userId quizId c.answers).2.1 = some data ∧
      data.pointsAwarded = 0 ∧
      (submitQuiz
        (runSubmits (submitQuiz db first.now userId quizId first.answers).2.2 userId quizId
          later) c.now userId quizId c.answers).2.2.users userId = some user1 ∧
      user1.points = user.points ∧ user1.weeklyPoints = user.weeklyPoints ∧
      user1.monthlyPoints = user.monthlyPoints ∧
      user1.pointsHistory = user.pointsHistory := by
  have h1 := submitQuiz_hasAttempt_of_score db first.now userId quizId first.answers quiz hq hs
  have h2 := runSubmits_hasAttempt later _ userId quizId h1
  obtain ⟨userA, hA⟩ :=
    submitQuiz_users_some db first.now userId quizId first.answers userId user0 hu
  obtain ⟨user, hB⟩ := runSubmits_users_some later _ userId quizId userId userA hA
  obtain ⟨hz, user1, hC, e1, e2, e3, e4⟩ :=
    submitQuiz_awards_zero _ c.now userId quizId c.answers user hB h2
  have hquiz : (runSubmits (submitQuiz db first.now userId quizId first.answers).2.2 userId
      quizId later).quizzes quizId = some quiz := by
    rw [runSubmits_quizzes, submitQuiz_quizzes, hq]
  obtain ⟨data, hd⟩ := submitQuiz_data_some _ c.now userId quizId c.answers quiz hquiz
  exact ⟨user, user1, data, hB, hd, hz data hd, hC, e1, e2, e3, e4⟩

theorem submitQuiz_after_scored_attempt_witness :
    twoQuestionDb.quizzes 1 = some twoQuestionQuiz ∧
    twoQuestionDb.users 1 = some {} ∧
    (scoreQuiz twoQuestionQuiz (some [{ questionIndex := 0, answerIndex := 1 }])).score > 0 ∧
    ∃ user user1 data,
      (runSubmits (submitQuiz twoQuestionDb 0 1 1
        (some [{ questionIndex := 0, answerIndex := 1 }])).2.2 1 1 []).users 1 = some user ∧
      (submitQuiz
        (runSubmits (submitQuiz twoQuestionDb 0 1 1
          (some [{ questionIndex := 0, answerIndex := 1 }])).2.2 1 1 []) 9 1 1
        (some [{ questionIndex := 1, answerIndex := 0 }])).2.1 = some data ∧
      data.pointsAwarded = 0 ∧
      (submitQuiz
        (runSubmits (submitQuiz twoQuestionDb 0 1 1
          (some [{ questionIndex := 0, answerIndex := 1 }])).2.2 1 1 []) 9 1 1
        (some [{ questionIndex := 1, answerIndex := 0 }])).2.2.users 1 = some user1 ∧
      user1.points = user.points ∧ user1.weeklyPoints = user.weeklyPoints ∧
      user1.monthlyPoints = user.monthlyPoints ∧
      user1.pointsHistory = user.pointsHistory :=
  ⟨rfl, rfl, by decide,
   submitQuiz_after_scored_attempt twoQuestionDb 1 1 twoQuestionQuiz {}
     { now := 0, answers := some [{ questionIndex := 0, answerIndex := 1 }] } []
     { now := 9, answers := some [{ questionIndex := 1, answerIndex := 0 }] }
     rfl rfl (by decide)⟩

/-! ## The attempt map and the attempt records -/

/-- C12 (as stated, refuted): after a submission that scores 0 the account's
`quizAttempts` map has no entry for the quiz (it does not hold the score 0). -/
theorem submitQuiz_zero_score_not_recorded :
    (submitQuiz twoQuestionDb 0 1 1 none).2.1.map (fun d => d.score) = some 0 ∧
    ((submitQuiz twoQuestionDb 0 1 1 none).2.2.users 1).map (fun u => u.quizAttempts 1)
      = some none := by
  refine ⟨by decide, by decide⟩

/-- C12 (amended): after a `submitQuiz` call by an existing user for an
existing quiz whose computed score is greater than 0, the user's
`quizAttempts` map holds that score under the quiz's id, whether or not points
were awarded, and the entries for other quizzes are unchanged; when the
computed score is not greater than 0 the account, its map included, is left as
it was. -/
theorem submitQuiz_attempt_map (db : Db) (now : Int) (userId quizId : Nat)
    (answers : Option (List Answer)) (quiz : Quiz) (user : User)
    (hq : db.quizzes quizId = some quiz) (hu : db.users userId = some user) :
    ((scoreQuiz quiz answers).score > 0 →
      ∃ user1, (submitQuiz db now userId quizId answers).2.2.users userId = some user1 ∧
        user1.quizAttempts quizId = some (scoreQuiz quiz answers).score ∧
        ∀ q, q ≠ quizId → user1.quizAttempts q = user.quizAttempts q) ∧
    (¬ (scoreQuiz quiz answers).score > 0 →
      (submitQuiz db now userId quizId answers).2.2.users userId = some user) := by
  constructor
  · intro hs
    cases hf : (List.find? (fun a => decide (a.user = userId ∧ a.quiz = quizId))
      db.quizAttempts).isNone with
    | true =>
      simp only [submitQuiz, hq, hs, if_true, hu, hf, Db.setUser]
      refine ⟨_, rfl, ?_, ?_⟩
      · simp
      · intro q hne
        simp [hne]
    | false =>
      simp only [submitQuiz, hq, hs, if_true, hu, hf, Bool.false_eq_true, if_false, Db.setUser]
      refine ⟨_, rfl, ?_, ?_⟩
      · simp
      · intro q hne
        simp [hne]
  · intro hs
    simp [submitQuiz, hq, hs, hu]

theorem submitQuiz_attempt_map_witness :
    twoQuestionDb.quizzes 1 = some twoQuestionQuiz ∧ twoQuestionDb.users 1 = some {} ∧
    ((scoreQuiz twoQuestionQuiz (some [{ questionIndex := 0, answerIndex := 1 }])).score > 0 →
      ∃ user1, (submitQuiz twoQuestionDb 0 1 1
          (some [{ questionIndex := 0, answerIndex := 1 }])).2.2.users 1 = some user1 ∧
        user1.quizAttempts 1
          = some (scoreQuiz twoQuestionQuiz
              (some [{ questionIndex := 0, answerIndex := 1 }])).score ∧
        ∀ q, q ≠ 1 → user1.quizAttempts q = ({} : User).quizAttempts q) ∧
    (scoreQuiz twoQuestionQuiz (some [{ questionIndex := 0, answerIndex := 1 }])).score > 0 :=
  ⟨rfl, rfl,
   (submitQuiz_attempt_map twoQuestionDb 0 1 1 (some [{ questionIndex := 0, answerIndex := 1 }])
      twoQuestionQuiz {} rfl rfl).1,
   by decide⟩

/-- C13: `submitQuiz` for an existing quiz adds exactly one `QuizAttempt`
record, carrying the user, the quiz, the computed score, totalPoints and
per-question results, when the computed score is greater than 0; when the
score is 0 it adds no record and leaves the whole store, the account included,
unchanged. -/
theorem submitQuiz_attempt_record (db : Db) (now : Int) (userId quizId : Nat)
    (answers : Option (List Answer)) (quiz : Quiz) (hq : db.quizzes quizId = some quiz) :
    ((scoreQuiz quiz answers).score > 0 →
      ∃ a, (submitQuiz db now userId quizId answers).2.2.quizAttempts = db.quizAttempts ++ [a] ∧
        a.user = userId ∧ a.quiz = quizId ∧ a.score = (scoreQuiz quiz answers).score ∧
        a.totalPoints = (scoreQuiz quiz answers).totalPoints ∧
        a.answers = (scoreQuiz quiz answers).answerResults) ∧
    ((scoreQuiz quiz answers).score = 0 →
      (submitQuiz db now userId quizId answers).2.2.quizAttempts = db.quizAttempts ∧
      (submitQuiz db now userId quizId answers).2.2.users = db.users ∧
      (submitQuiz db now userId quizId answers).2.2 = db) := by
  constructor
  · intro hs
    refine ⟨{ user := userId, quiz := quizId, score := (scoreQuiz quiz answers).score,
              totalPoints := (scoreQuiz quiz answers).totalPoints,
              answers := (scoreQuiz quiz answers).answerResults,
              submittedAt := now }, ?_, rfl, rfl, rfl, rfl, rfl⟩
    rw [submitQuiz_quizAttempts db now userId quizId answers quiz hq, if_pos hs]
  · intro hs
    have hdb : (submitQuiz db now userId quizId answers).2.2 = db := by
      simp [submitQuiz, hq, hs]
    rw [hdb]
    exact ⟨rfl, rfl, rfl⟩

theorem submitQuiz_attempt_record_witness :
    twoQuestionDb.quizzes 1 = some twoQuestionQuiz ∧
    (scoreQuiz twoQuestionQuiz (some [{ questionIndex := 0, answerIndex := 1 }])).score > 0 ∧
    (scoreQuiz twoQuestionQuiz none).score = 0 ∧
    (∃ a, (submitQuiz twoQuestionDb 0 1 1
          (some [{ questionIndex := 0, answerIndex := 1 }])).2.2.quizAttempts
        = twoQuestionDb.quizAttempts ++ [a] ∧
      a.user = 1 ∧ a.quiz = 1 ∧
      a.score = (scoreQuiz twoQuestionQuiz
        (some [{ questionIndex := 0, answerIndex := 1 }])).score ∧
      a.totalPoints = (scoreQuiz twoQuestionQuiz
        (some [{ questionIndex := 0, answerIndex := 1 }])).totalPoints ∧
      a.answers = (scoreQuiz twoQuestionQuiz
        (some [{ questionIndex := 0, answerIndex := 1 }])).answerResults) ∧
    ((submitQuiz twoQuestionDb 0 1 1 none).2.2.quizAttempts = twoQuestionDb.quizAttempts ∧
      (submitQuiz twoQuestionDb 0 1 1 none).2.2.users = twoQuestionDb.users ∧
      (submitQuiz twoQuestionDb 0 1 1 none).2.2 = twoQuestionDb) :=
  ⟨rfl, by decide, by decide,
   (submitQuiz_attempt_record twoQuestionDb 0 1 1
      (some [{ questionIndex := 0, answerIndex := 1 }]) twoQuestionQuiz rfl).1 (by decide),
   (submitQuiz_attempt_record twoQuestionDb 0 1 1 none twoQuestionQuiz rfl).2 (by decide)⟩

/-! ## Reward redemption -/

theorem redeemReward_status (db : Db) (now : Int) (userId rewardId : Nat) (reward : Reward)
    (user : User) (hr : db.rewards rewardId = some reward) (hu : db.users userId = some user) :
    (redeemReward db now userId rewardId).1.status =
      if user.points < reward.pointsRequired then 400
      else if reward.stock.isSome ∧ reward.stock.getD 0 ≤ 0 then 400 else 200 := by
  simp only [redeemReward, hr, hu]
  split_ifs <;> rfl

theorem redeemReward_ok_iff (db : Db) (now : Int) (userId rewardId : Nat) (reward : Reward)
    (user : User) (hr : db.rewards rewardId = some reward) (hu : db.users userId = some user) :
    (redeemReward db now userId rewardId).1.status = 200 ↔
      (user.points ≥ reward.pointsRequired ∧
        (reward.stock = none ∨ ∃ s, reward.stock = some s ∧ s > 0)) := by
  rw [redeemReward_status db now userId rewardId reward user hr hu]
  cases hs : reward.stock with
  | none =>
    by_cases hp : user.points < reward.pointsRequired
    · simp [hp]
    · simp [hp, not_lt.mp hp]
  | some s =>
    by_cases hp : user.points < reward.pointsRequired
    · simp [hp]
    · by_cases hle : s ≤ 0
      · simp [hp, hle, not_lt.mp hp]
      · simp [hp, hle, not_lt.mp hp, not_le.mp hle]

/-- C16: for an existing reward and account, `redeemReward` answers 400 and
leaves the whole store (account, reward, redemption records) unchanged
whenever `user.points < reward.pointsRequired` or the stock is non-null and
`<= 0`; it answers 200 exactly when `user.points >= reward.pointsRequired` and
the stock is null or `> 0`. -/
theorem redeemReward_rejects (db : Db) (now : Int) (userId rewardId : Nat) (reward : Reward)
    (user : User) (hr : db.rewards rewardId = some reward) (hu : db.users userId = some user) :
    ((user.points < reward.pointsRequired ∨ ∃ s, reward.stock = some s ∧ s ≤ 0) →
      (redeemReward db now userId rewardId).1.status = 400 ∧
      (redeemReward db now userId rewardId).1.success = false ∧
      (redeemReward db now userId rewardId).2 = db) ∧
    ((redeemReward db now userId rewardId).1.status = 200 ↔
      (user.points ≥ reward.pointsRequired ∧
        (reward.stock = none ∨ ∃ s, reward.stock = some s ∧ s > 0))) := by
  constructor
  · intro h
    by_cases hp : user.points < reward.pointsRequired
    · simp [redeemReward, hr, hu, hp]
    · obtain ⟨s, hs, hle⟩ := h.resolve_left hp
      simp [redeemReward, hr, hu, hp, hs, hle]
  · exact redeemReward_ok_iff db now userId rewardId reward user hr hu

theorem redeemReward_rejects_witness :
    shopDb.rewards 2 = some { name := "Trip", pointsRequired := 30, stock := none } ∧
    (((20 : Int) < 30 ∨ ∃ s, (none : Option Int) = some s ∧ s ≤ 0) →
      (redeemReward shopDb 0 1 2).1.status = 400 ∧
      (redeemReward shopDb 0 1 2).1.success = false ∧
      (redeemReward shopDb 0 1 2).2 = shopDb) ∧
    ((20 : Int) < 30 ∨ ∃ s, (none : Option Int) = some s ∧ s ≤ 0) :=
  ⟨rfl,
   (redeemReward_rejects shopDb 0 1 2 { name := "Trip", pointsRequired := 30, stock := none }
      { points := 20, monthlyPoints := 20, weeklyPoints := 20,
        pointsHistory := [{ points := 20, type := PointsType.other, description := "",
                            relatedId := none, earnedAt := 0 }] } rfl rfl).1,
   Or.inl (by decide)⟩

theorem redeemReward_success_store (db : Db) (now : Int) (userId rewardId : Nat)
    (reward : Reward) (user : User) (hr : db.rewards rewardId = some reward)
    (hu : db.users userId = some user)
    (hok : (redeemReward db now userId rewardId).1.status = 200) :
    (redeemReward db now userId rewardId).2.users userId
      = some { user with points := user.points - reward.pointsRequired } ∧
    (redeemReward db now userId rewardId).2.rewards rewardId
      = some { reward with stock := reward.stock.map (fun s => s - 1) } ∧
    (redeemReward db now userId rewardId).2.redemptions = db.redemptions ++
      [{ user := userId, reward := rewardId, pointsSpent := reward.pointsRequired,
         status := RedemptionStatus.pending, redeemedAt := now }] := by
  rw [redeemReward_status db now userId rewardId reward user hr hu] at hok
  by_cases hp : user.points < reward.pointsRequired
  · simp [hp] at hok
  · by_cases hst : reward.stock.isSome ∧ reward.stock.getD 0 ≤ 0
    · simp [hp, hst] at hok
    · simp only [redeemReward, hr, hu, hp, hst, if_false]
      cases hs : reward.stock with
      | none =>
        refine ⟨by simp [Db.setUser], ?_, rfl⟩
        simp only [Db.setUser, hr, Option.map_none']
        cases reward
        simp_all
      | some s =>
        refine ⟨by simp [Db.setUser, Db.setReward], ?_, rfl⟩
        simp [Db.setReward]

/-- C17: when `redeemReward` succeeds, the stored `user.points` is the old
value minus `reward.pointsRequired` and is `>= 0`; the stored `reward.stock`
is the old value minus 1, and `>= 0`, when it was non-null, and is still null
when it was null; and exactly one redemption record is appended, with status
pending and `pointsSpent = reward.pointsRequired`. -/
theorem redeemReward_success (db : Db) (now : Int) (userId rewardId : Nat)
    (reward : Reward) (user : User) (hr : db.rewards rewardId = some reward)
    (hu : db.users userId = some user)
    (hok : (redeemReward db now userId rewardId).1.status = 200) :
    (∃ user1, (redeemReward db now userId rewardId).2.users userId = some user1 ∧
      user1.points = user.points - reward.pointsRequired ∧ 0 ≤ user1.points) ∧
    (∃ reward1, (redeemReward db now userId rewardId).2.rewards rewardId = some reward1 ∧
      (∀ s, reward.stock = some s → reward1.stock = some (s - 1) ∧ 0 ≤ s - 1) ∧
      (reward.stock = none → reward1.stock = none)) ∧
    (∃ r, (redeemReward db now userId rewardId).2.redemptions = db.redemptions ++ [r] ∧
      r.status = RedemptionStatus.pending ∧ r.pointsSpent = reward.pointsRequired ∧
      r.user = userId ∧ r.reward = rewardId) := by
  obtain ⟨h1, h2, h3⟩ := redeemReward_success_store db now userId rewardId reward user hr hu hok
  obtain ⟨hge, hstock⟩ := (redeemReward_ok_iff db now userId rewardId reward user hr hu).mp hok
  refine ⟨⟨_, h1, rfl, ?_⟩, ⟨_, h2, ?_, ?_⟩, ⟨_, h3, rfl, rfl, rfl, rfl⟩⟩
  · show 0 ≤ user.points - reward.pointsRequired
    linarith
  · intro s hs
    rcases hstock with hn | ⟨t, ht, hpos⟩
    · rw [hn] at hs; cases hs
    · rw [hs] at ht
      cases ht
      exact ⟨by simp [hs], by omega⟩
  · intro hn
    simp [hn]

theorem redeemReward_success_witness :
    shopDb.rewards 1 = some { name := "Bottle", pointsRequired := 5, stock := some 2 } ∧
    (redeemReward shopDb 7 1 1).1.status = 200 ∧
    (∃ user1, (redeemReward shopDb 7 1 1).2.users 1 = some user1 ∧
      user1.points = 20 - 5 ∧ 0 ≤ user1.points) ∧
    (∃ reward1, (redeemReward shopDb 7 1 1).2.rewards 1 = some reward1 ∧
      (∀ s, some (2 : Int) = some s → reward1.stock = some (s - 1) ∧ 0 ≤ s - 1) ∧
      (some (2 : Int) = none → reward1.stock = none)) ∧
    (∃ r, (redeemReward shopDb 7 1 1).2.redemptions = shopDb.redemptions ++ [r] ∧
      r.status = RedemptionStatus.pending ∧ r.pointsSpent = 5 ∧ r.user = 1 ∧ r.reward = 1) :=
  ⟨rfl, by decide,
   redeemReward_success shopDb 7 1 1 { name := "Bottle", pointsRequired := 5, stock := some 2 }
     { points := 20, monthlyPoints := 20, weeklyPoints := 20,
       pointsHistory := [{ points := 20, type := PointsType.other, description := "",
                           relatedId := none, earnedAt := 0 }] }
     rfl rfl (by decide)⟩

/-- C18: a successful `redeemReward` changes only `points` on the account:
the stored account is the old one with `points` lowered, so `pointsHistory`,
`weeklyPoints`, `monthlyPoints`, `lastWeeklyReset` and `lastMonthlyReset` (and
the other fields) are unchanged. -/
theorem redeemReward_bypasses_ledger (db : Db) (now : Int) (userId rewardId : Nat)
    (reward : Reward) (user : User) (hr : db.rewards rewardId = some reward)
    (hu : db.users userId = some user)
    (hok : (redeemReward db now userId rewardId).1.status = 200) :
    ∃ user1, (redeemReward db now userId rewardId).2.users userId = some user1 ∧
      user1 = { user with points := user.points - reward.pointsRequired } ∧
      user1.pointsHistory = user.pointsHistory ∧ user1.weeklyPoints = user.weeklyPoints ∧
      user1.monthlyPoints = user.monthlyPoints ∧
      user1.lastWeeklyReset = user.lastWeeklyReset ∧
      user1.lastMonthlyReset = user.lastMonthlyReset ∧
      user1.modulesCompleted = user.modulesCompleted ∧ user1.badges = user.badges ∧
      user1.quizAttempts = user.quizAttempts :=
  ⟨_, (redeemReward_success_store db now userId rewardId reward user hr hu hok).1,
    rfl, rfl, rfl, rfl, rfl, rfl, rfl, rfl, rfl⟩

theorem redeemReward_bypasses_ledger_witness :
    (redeemReward shopDb 7 1 1).1.status = 200 ∧
    ∃ user1, (redeemReward shopDb 7 1 1).2.users 1 = some user1 ∧
      user1 = { points := 20 - 5, monthlyPoints := 20, weeklyPoints := 20,
                pointsHistory := [{ points := 20, type := PointsType.other, description := "",
                                    relatedId := none, earnedAt := 0 }] } ∧
      user1.pointsHistory = [{ points := 20, type := PointsType.other, description := "",
                               relatedId := none, earnedAt := 0 }] ∧
      user1.weeklyPoints = 20 ∧ user1.monthlyPoints = 20 ∧
      user1.lastWeeklyReset = 0 ∧ user1.lastMonthlyReset = 0 ∧
      user1.modulesCompleted = 0 ∧ user1.badges = [] ∧
      user1.quizAttempts = fun _ => none :=
  ⟨by decide,
   redeemReward_bypasses_ledger shopDb 7 1 1
     { name := "Bottle", pointsRequired := 5, stock := some 2 }
     { points := 20, monthlyPoints := 20, weeklyPoints := 20,
       pointsHistory := [{ points := 20, type := PointsType.other, description := "",
                           relatedId := none, earnedAt := 0 }] }
     rfl rfl (by decide)⟩

/-! ## Badges -/

theorem addBadge_absent (now : Int) (user : User) (n d : String)
    (h : ∀ b ∈ user.badges, b.name ≠ n) :
    addBadge now user n d =
      ({ user with badges := user.badges ++ [{ name := n, description := d, earnedAt := now }] },
        true) := by
  have hf : user.badges.find? (fun b => decide (b.name = n)) = none := by
    rw [List.find?_eq_none]
    intro b hb
    simpa using h b hb
  simp only [addBadge, hf]

theorem addBadge_present (now : Int) (user : User) (n d : String)
    (h : ∃ b ∈ user.badges, b.name = n) : addBadge now user n d = (user, false) := by
  cases hf : user.badges.find? (fun b => decide (b.name = n)) with
  | none =>
    rw [List.find?_eq_none] at hf
    obtain ⟨b, hb, hn⟩ := h
    exact absurd (by simpa using hn) (hf b hb)
  | some b => simp only [addBadge, hf]

theorem addBadge_names (now : Int) (user : User) (n d : String) :
    (addBadge now user n d).1.badges.map (fun b => b.name) =
      if n ∈ user.badges.map (fun b => b.name) then user.badges.map (fun b => b.name)
      else user.badges.map (fun b => b.name) ++ [n] := by
  by_cases h : n ∈ user.badges.map (fun b => b.name)
  · rw [if_pos h]
    obtain ⟨b, hb, hn⟩ := List.mem_map.mp h
    rw [addBadge_present now user n d ⟨b, hb, hn⟩]
  · rw [if_neg h]
    have h2 : ∀ b ∈ user.badges, b.name ≠ n := fun b hb hn =>
      h (List.mem_map.mpr ⟨b, hb, hn⟩)
    rw [addBadge_absent now user n d h2]
    simp

/-- C19: for an account whose badges have pairwise distinct names and a name
n, `addBadge(n)` appends one badge named n and returns true when no badge named
n exists, returns false and leaves the account unchanged when one exists, keeps
the names pairwise distinct, and after two calls with the same name exactly one
badge has that name. -/
theorem addBadge_unique (now now2 : Int) (user : User) (n d d2 : String)
    (hnd : (user.badges.map (fun b => b.name)).Nodup) :
    ((∀ b ∈ user.badges, b.name ≠ n) →
      (addBadge now user n d).2 = true ∧
      (addBadge now user n d).1.badges =
        user.badges ++ [{ name := n, description := d, earnedAt := now }]) ∧
    ((∃ b ∈ user.badges, b.name = n) →
      (addBadge now user n d).2 = false ∧ (addBadge now user n d).1 = user) ∧
    ((addBadge now user n d).1.badges.map (fun b => b.name)).Nodup ∧
    (addBadge now2 (addBadge now user n d).1 n d2).2 = false ∧
    ((addBadge now2 (addBadge now user n d).1 n d2).1.badges.map (fun b => b.name)).count n
      = 1 := by
  have hmem : n ∈ (addBadge now user n d).1.badges.map (fun b => b.name) := by
    rw [addBadge_names]
    split_ifs with h
    · exact h
    · simp
  have hnd1 : ((addBadge now user n d).1.badges.map (fun b => b.name)).Nodup := by
    rw [addBadge_names]
    split_ifs with h
    · exact hnd
    · exact List.Nodup.append hnd (List.nodup_singleton n) (by simpa using h)
  have hsecond : addBadge now2 (addBadge now user n d).1 n d2 = ((addBadge now user n d).1, false) := by
    obtain ⟨b, hb, hn⟩ := List.mem_map.mp hmem
    exact addBadge_present now2 _ n d2 ⟨b, hb, hn⟩
  refine ⟨?_, ?_, hnd1, ?_, ?_⟩
  · intro h
    rw [addBadge_absent now user n d h]
    exact ⟨rfl, rfl⟩
  · intro h
    rw [addBadge_present now user n d h]
    exact ⟨rfl, rfl⟩
  · rw [hsecond]
  · rw [hsecond]
    exact List.count_eq_one_of_mem hnd1 hmem

theorem addBadge_unique_witness :
    ((({} : User).badges.map (fun b => b.name)).Nodup) ∧
    ((∀ b ∈ ({} : User).badges, b.name ≠ "Biodiversity Expert") →
      (addBadge 3 {} "Biodiversity Expert" "first").2 = true ∧
      (addBadge 3 {} "Biodiversity Expert" "first").1.badges =
        ({} : User).badges ++
          [{ name := "Biodiversity Expert", description := "first", earnedAt := 3 }]) ∧
    (addBadge 4 (addBadge 3 {} "Biodiversity Expert" "first").1 "Biodiversity Expert"
      "second").2 = false ∧
    ((addBadge 4 (addBadge 3 {} "Biodiversity Expert" "first").1 "Biodiversity Expert"
      "second").1.badges.map (fun b => b.name)).count "Biodiversity Expert" = 1 :=
  ⟨List.nodup_nil,
   (addBadge_unique 3 4 {} "Biodiversity Expert" "first" "second" List.nodup_nil).1,
   (addBadge_unique 3 4 {} "Biodiversity Expert" "first" "second" List.nodup_nil).2.2.2.1,
   (addBadge_unique 3 4 {} "Biodiversity Expert" "first" "second" List.nodup_nil).2.2.2.2⟩

/-! ## Reviews of challenge submissions -/

theorem reviewSubmission_not_found (db : Db) (now : Int) (role : Role)
    (challengeId participantId submissionId : Nat) (status feedback : String)
    (pointsAwarded : Option Int)
    (h : db.challenges challengeId = none ∨ (role ≠ Role.teacher ∧ role ≠ Role.admin) ∨
      (∀ c, db.challenges challengeId = some c →
        ∀ p, c.participants.find? (fun p => p.id = participantId) = some p →
          p.submissions.find? (fun s => s.id = submissionId) = none)) :
    (reviewSubmission db now role challengeId participantId submissionId status feedback
      pointsAwarded).2 = db := by
  unfold reviewSubmission
  cases hc : db.challenges challengeId with
  | none => rfl
  | some c =>
    simp only []
    by_cases hr : role ≠ Role.teacher ∧ role ≠ Role.admin
    · rw [if_pos hr]
    · rw [if_neg hr]
      cases hp : c.participants.find? (fun p => p.id = participantId) with
      | none => rfl
      | some p =>
        simp only []
        rcases h with h | h | h
        · rw [hc] at h; cases h
        · exact absurd h hr
        · rw [h c hc p hp]

theorem setUser_setUser (db : Db) (u : Nat) (a b : User) :
    (db.setUser u a).setUser u b = db.setUser u b := by
  unfold Db.setUser
  congr 1
  funext i
  by_cases h : i = u <;> simp [h]

theorem reviewBonus_eq (db : Db) (now : Int) (challengeId : Nat) (challenge : Challenge)
    (participant : Participant) (submission : Submission) (pointsAwarded : Option Int) :
    reviewBonus db now challengeId challenge participant submission pointsAwarded =
      match bonusPoints pointsAwarded with
      | none => Except.ok (submission, db)
      | some points =>
        match db.users participant.user with
        | none => Except.error "User not found"
        | some user =>
          Except.ok ({ submission with pointsAwarded := points },
            db.setUser participant.user
              (applyPoints now user points PointsType.other
                ("Bonus points for submission in challenge: " ++ challenge.title)
                (some challengeId))) := by
  cases pointsAwarded with
  | none => rfl
  | some pts =>
    by_cases hpos : pts ≠ 0 ∧ pts > 0
    · cases hu : db.users participant.user <;>
        simp [reviewBonus, bonusPoints, hpos, updateUserPoints, hu]
    · simp [reviewBonus, bonusPoints, hpos]

theorem completesNow_iff (challenge : Challenge) (participant : Participant) (status : String) :
    completesNow challenge participant status = true ↔
      status = "approved" ∧
      progressPercentage (participant.approvedSubmissions + 1)
        challenge.completionCriteria.target ≥ 100 ∧
      participant.completed = false := by
  simp [completesNow]

theorem reviewApproval_eq (db : Db) (now : Int) (challengeId : Nat) (challenge : Challenge)
    (participant : Participant) (status : String) :
    reviewApproval db now challengeId challenge participant status =
      if status = "approved" then
        if completesNow challenge participant status = true then
          match db.users participant.user with
          | none => Except.error "User not found"
          | some user =>
            Except.ok ({ participant with
                approvedSubmissions := participant.approvedSubmissions + 1
                progress := progressPercentage (participant.approvedSubmissions + 1)
                  challenge.completionCriteria.target
                completed := true, completedAt := some now },
              db.setUser participant.user
                (addBadge now
                  (applyPoints now user challenge.pointsReward PointsType.challenge_completed
                    ("Completed challenge: " ++ challenge.title) (some challengeId))
                  ("Challenge Champion: " ++ challenge.title)
                  ("Completed the " ++ challenge.title ++ " challenge and earned " ++
                toString challenge.pointsReward ++ " points")).1)
        else
          Except.ok ({ participant with
              approvedSubmissions := participant.approvedSubmissions + 1
              progress := progressPercentage (participant.approvedSubmissions + 1)
                challenge.completionCriteria.target }, db)
      else Except.ok (participant, db) := by
  by_cases hst : status = "approved"
  · subst hst
    by_cases hc : completesNow challenge participant "approved" = true
    · have hc2 := (completesNow_iff challenge participant "approved").mp hc
      cases hu : db.users participant.user with
      | none =>
        simp [reviewApproval, hc, hc2.2.1, hc2.2.2, updateUserPoints, hu]
      | some usr =>
        simp [reviewApproval, hc, hc2.2.1, hc2.2.2, updateUserPoints, hu,
          setUser_users_self, setUser_setUser]
    · have hc3 : ¬ (progressPercentage (participant.approvedSubmissions + 1)
          challenge.completionCriteria.target ≥ 100 ∧ ¬ participant.completed = true) := by
        intro h
        apply hc
        rw [completesNow_iff]
        exact ⟨rfl, h.1, by simpa using h.2⟩
      simp only [reviewApproval, if_neg hc3, if_neg hc]
  · simp [reviewApproval, hst]

theorem completesNow_submissions (challenge : Challenge) (participant : Participant)
    (status : String) (l : List Submission) :
    completesNow challenge { participant with submissions := l } status
      = completesNow challenge participant status := rfl

theorem completesNow_valid (challenge : Challenge) (participant : Participant)
    (status : String) (h : completesNow challenge participant status = true) :
    reviewValid challenge participant status = true := by
  obtain ⟨h1, h2, -⟩ := (completesNow_iff challenge participant status).mp h
  have hle : progressPercentage (participant.approvedSubmissions + 1)
      challenge.completionCriteria.target ≤ 100 := min_le_left _ _
  have hge : (0 : Rat) ≤ progressPercentage (participant.approvedSubmissions + 1)
      challenge.completionCriteria.target := le_trans (by norm_num) h2
  simp [reviewValid, validStatus, h1, hle, hge]

theorem reviewSubmission_found_users (db : Db) (now : Int) (role : Role)
    (challengeId participantId submissionId : Nat) (status feedback : String)
    (pointsAwarded : Option Int) (c : Challenge) (p : Participant) (s : Submission)
    (hc : db.challenges challengeId = some c) (hr : role = Role.teacher ∨ role = Role.admin)
    (hp : c.participants.find? (fun p => p.id = participantId) = some p)
    (hs : p.submissions.find? (fun s => s.id = submissionId) = some s) (i : Nat) :
    (reviewSubmission db now role challengeId participantId submissionId status feedback
        pointsAwarded).2.users i =
      if i = p.user then
        (db.users i).map (reviewedAccount now challengeId c p status pointsAwarded)
      else db.users i := by
  have hr2 : ¬ (role ≠ Role.teacher ∧ role ≠ Role.admin) := by
    rcases hr with h | h <;> simp [h]
  unfold reviewSubmission
  simp only [hc, if_neg hr2, hp, hs]
  rw [reviewBonus_eq]
  by_cases hst : status = "approved"
  · subst hst
    have hvalid : reviewValid c p "approved" = true ↔
        (0 ≤ progressPercentage (p.approvedSubmissions + 1) c.completionCriteria.target ∧
          progressPercentage (p.approvedSubmissions + 1) c.completionCriteria.target ≤ 100) := by
      simp [reviewValid, validStatus]
    by_cases hcn : completesNow c p "approved" = true
    · have hv := completesNow_valid c p "approved" hcn
      have hv2 := hvalid.mp hv
      cases hb : bonusPoints pointsAwarded <;> cases hu : db.users p.user <;>
        simp only [] <;> (try rw [reviewApproval_eq]) <;>
        (try simp only [completesNow_submissions]) <;>
        by_cases hi : i = p.user <;>
        simp [reviewSave, hcn, hv, hv2, hu, hi, hb, Db.setChallenge, Db.setUser,
          reviewedAccount, validStatus]
    · by_cases hv : reviewValid c p "approved" = true
      · have hv2 := hvalid.mp hv
        cases hb : bonusPoints pointsAwarded <;> cases hu : db.users p.user <;>
          simp only [] <;> (try rw [reviewApproval_eq]) <;>
          (try simp only [completesNow_submissions]) <;>
          by_cases hi : i = p.user <;>
          simp [reviewSave, hcn, hv, hv2, hu, hi, hb, Db.setChallenge, Db.setUser,
            reviewedAccount, validStatus]
      · have hv2 : ¬ (0 ≤ progressPercentage (p.approvedSubmissions + 1)
              c.completionCriteria.target ∧
            progressPercentage (p.approvedSubmissions + 1) c.completionCriteria.target ≤ 100) :=
          fun h => hv (hvalid.mpr h)
        cases hb : bonusPoints pointsAwarded <;> cases hu : db.users p.user <;>
          simp only [] <;> (try rw [reviewApproval_eq]) <;>
          (try simp only [completesNow_submissions]) <;>
          by_cases hi : i = p.user <;>
          simp [reviewSave, hcn, hv, hv2, hu, hi, hb, Db.setChallenge, Db.setUser,
            reviewedAccount, validStatus]
  · have hcn : completesNow c p status = false := by simp [completesNow, hst]
    cases hb : bonusPoints pointsAwarded <;> cases hu : db.users p.user <;>
      simp only [] <;> (try rw [reviewApproval_eq]) <;>
      (try simp only [completesNow_submissions]) <;>
      by_cases hi : i = p.user <;> by_cases hv : validStatus status = true <;>
      simp [reviewSave, hcn, hst, hv, hu, hi, hb, Db.setChallenge, Db.setUser,
        reviewedAccount]

theorem reviewSubmission_found_challenges (db : Db) (now : Int) (role : Role)
    (challengeId participantId submissionId : Nat) (status feedback : String)
    (pointsAwarded : Option Int) (c : Challenge) (p : Participant) (s : Submission)
    (hc : db.challenges challengeId = some c) (hr : role = Role.teacher ∨ role = Role.admin)
    (hp : c.participants.find? (fun p => p.id = participantId) = some p)
    (hs : p.submissions.find? (fun s => s.id = submissionId) = some s) (i : Nat) :
    (reviewSubmission db now role challengeId participantId submissionId status feedback
        pointsAwarded).2.challenges i =
      if i = challengeId ∧ reviewValid c p status = true ∧
          ((db.users p.user).isSome = true ∨
            (bonusPoints pointsAwarded = none ∧ completesNow c p status = false)) then
        some { c with
          participants := modifyFirst (fun q => q.id = participantId)
            (fun _ => reviewedParticipant now c p s status feedback pointsAwarded)
            c.participants }
      else db.challenges i := by
  have hr2 : ¬ (role ≠ Role.teacher ∧ role ≠ Role.admin) := by
    rcases hr with h | h <;> simp [h]
  have hsid : s.id = submissionId := by
    have := List.find?_some hs
    simpa using this
  subst hsid
  unfold reviewSubmission
  simp only [hc, if_neg hr2, hp, hs]
  rw [reviewBonus_eq]
  by_cases hst : status = "approved"
  · subst hst
    have hvalid : reviewValid c p "approved" = true ↔
        (0 ≤ progressPercentage (p.approvedSubmissions + 1) c.completionCriteria.target ∧
          progressPercentage (p.approvedSubmissions + 1) c.completionCriteria.target ≤ 100) := by
      simp [reviewValid, validStatus]
    by_cases hcn : completesNow c p "approved" = true
    · have hv := completesNow_valid c p "approved" hcn
      have hv2 := hvalid.mp hv
      have hcf := ((completesNow_iff c p "approved").mp hcn).2.2
      cases hb : bonusPoints pointsAwarded <;> cases hu : db.users p.user <;>
        simp only [] <;> (try rw [reviewApproval_eq]) <;>
        (try simp only [completesNow_submissions]) <;>
        by_cases hj : i = challengeId <;>
        simp [reviewSave, hcn, hv, hv2, hu, hj, hb, hc, hcf, Db.setChallenge, Db.setUser,
          reviewedParticipant, reviewedSubmission, validStatus]
    · by_cases hv : reviewValid c p "approved" = true
      · have hv2 := hvalid.mp hv
        cases hb : bonusPoints pointsAwarded <;> cases hu : db.users p.user <;>
          simp only [] <;> (try rw [reviewApproval_eq]) <;>
          (try simp only [completesNow_submissions]) <;>
          by_cases hj : i = challengeId <;>
          simp [reviewSave, hcn, hv, hv2, hu, hj, hb, hc, Db.setChallenge, Db.setUser,
            reviewedParticipant, reviewedSubmission, validStatus]
      · have hv2 : ¬ (0 ≤ progressPercentage (p.approvedSubmissions + 1)
              c.completionCriteria.target ∧
            progressPercentage (p.approvedSubmissions + 1) c.completionCriteria.target ≤ 100) :=
          fun h => hv (hvalid.mpr h)
        cases hb : bonusPoints pointsAwarded <;> cases hu : db.users p.user <;>
          simp only [] <;> (try rw [reviewApproval_eq]) <;>
          (try simp only [completesNow_submissions]) <;>
          by_cases hj : i = challengeId <;>
          simp [reviewSave, hcn, hv, hv2, hu, hj, hb, hc, Db.setChallenge, Db.setUser,
            reviewedParticipant, reviewedSubmission, validStatus]
  · have hcn : completesNow c p status = false := by simp [completesNow, hst]
    have hvalid : reviewValid c p status = validStatus status := by
      simp [reviewValid, hst]
    cases hb : bonusPoints pointsAwarded <;> cases hu : db.users p.user <;>
      simp only [] <;> (try rw [reviewApproval_eq]) <;>
      (try simp only [completesNow_submissions]) <;>
      by_cases hj : i = challengeId <;> by_cases hv : validStatus status = true <;>
      simp [reviewSave, hcn, hst, hv, hvalid, hu, hj, hb, hc, Db.setChallenge, Db.setUser,
        reviewedParticipant, reviewedSubmission]

theorem find?_modifyFirst_self {α : Type} (p : α → Bool) (b : α) (hb : p b = true) :
    ∀ (l : List α) (a : α), l.find? p = some a →
      (modifyFirst p (fun _ => b) l).find? p = some b := by
  intro l
  induction l with
  | nil => intro a h; simp at h
  | cons x l ih =>
    intro a h
    by_cases hx : p x = true
    · simp [modifyFirst, hx, List.find?, hb]
    · simp only [Bool.not_eq_true] at hx
      simp only [List.find?, hx] at h
      simp only [modifyFirst, hx, Bool.false_eq_true, if_false, List.find?]
      exact ih a h

theorem find?_modifyFirst_other {α : Type} (p q : α → Bool) (b : α) (hq : q b = false)
    (hpq : ∀ x, p x = true → q x = false) :
    ∀ l : List α, (modifyFirst p (fun _ => b) l).find? q = l.find? q := by
  intro l
  induction l with
  | nil => rfl
  | cons x l ih =>
    by_cases hx : p x = true
    · simp [modifyFirst, hx, List.find?, hq, hpq x hx]
    · simp only [Bool.not_eq_true] at hx
      simp only [modifyFirst, hx, Bool.false_eq_true, if_false, List.find?, ih]

theorem map_modifyFirst {α β : Type} (p : α → Bool) (g : α → β) (b : α) :
    ∀ (l : List α) (a : α), l.find? p = some a → g b = g a →
      (modifyFirst p (fun _ => b) l).map g = l.map g := by
  intro l
  induction l with
  | nil => intro a h; simp at h
  | cons x l ih =>
    intro a h hg
    by_cases hx : p x = true
    · simp only [List.find?, hx, Option.some.injEq] at h
      subst h
      simp [modifyFirst, hx, hg]
    · simp only [Bool.not_eq_true] at hx
      simp only [List.find?, hx] at h
      simp only [modifyFirst, hx, Bool.false_eq_true, if_false, List.map_cons, ih a h hg]

theorem reviewedSubmission_fields (now : Int) (s : Submission) (status feedback : String)
    (pointsAwarded : Option Int) :
    (reviewedSubmission now s status feedback pointsAwarded).id = s.id ∧
    (reviewedSubmission now s status feedback pointsAwarded).status = status := by
  unfold reviewedSubmission
  cases bonusPoints pointsAwarded <;> exact ⟨rfl, rfl⟩

theorem reviewedParticipant_fields (now : Int) (c : Challenge) (p : Participant)
    (s : Submission) (status feedback : String) (pointsAwarded : Option Int) :
    (reviewedParticipant now c p s status feedback pointsAwarded).id = p.id ∧
    (reviewedParticipant now c p s status feedback pointsAwarded).user = p.user ∧
    (reviewedParticipant now c p s status feedback pointsAwarded).submissions =
      modifyFirst (fun x => x.id = s.id)
        (fun _ => reviewedSubmission now s status feedback pointsAwarded) p.submissions ∧
    (reviewedParticipant now c p s status feedback pointsAwarded).approvedSubmissions =
      p.approvedSubmissions + (if status = "approved" then 1 else 0) ∧
    (reviewedParticipant now c p s status feedback pointsAwarded).completed =
      (p.completed || completesNow c p status) := by
  unfold reviewedParticipant
  by_cases hst : status = "approved"
  · simp [hst]
  · simp [hst, completesNow]

theorem progressPercentage_nonneg (a t : Int) (ha : 0 ≤ a) (ht : 1 ≤ t) :
    0 ≤ progressPercentage a t := by
  unfold progressPercentage
  have h1 : (0 : Rat) ≤ (a : Rat) := by exact_mod_cast ha
  have h2 : (0 : Rat) ≤ (t : Rat) := by exact_mod_cast (le_trans (by norm_num) ht)
  exact le_min (by norm_num) (mul_nonneg (div_nonneg h1 h2) (by norm_num))

theorem reviewValid_of (c : Challenge) (p : Participant) (status : String)
    (hv : status = "pending" ∨ status = "approved" ∨ status = "rejected")
    (ht : 1 ≤ c.completionCriteria.target) (ha : 0 ≤ p.approvedSubmissions) :
    reviewValid c p status = true := by
  have h1 : validStatus status = true := by
    rcases hv with h | h | h <;> simp [validStatus, h]
  have h2 : 0 ≤ progressPercentage (p.approvedSubmissions + 1) c.completionCriteria.target :=
    progressPercentage_nonneg _ _ (by omega) ht
  have h3 : progressPercentage (p.approvedSubmissions + 1) c.completionCriteria.target ≤ 100 :=
    min_le_left _ _
  simp [reviewValid, h1, h2, h3]

theorem reviewSubmission_stored (db : Db) (now : Int) (role : Role)
    (challengeId participantId submissionId : Nat) (status feedback : String)
    (pointsAwarded : Option Int) (c : Challenge) (p : Participant) (s : Submission)
    (usr : User)
    (hc : db.challenges challengeId = some c) (hr : role = Role.teacher ∨ role = Role.admin)
    (hp : c.participants.find? (fun p => p.id = participantId) = some p)
    (hs : p.submissions.find? (fun s => s.id = submissionId) = some s)
    (hu : db.users p.user = some usr) (hv : reviewValid c p status = true) :
    findParticipant (reviewSubmission db now role challengeId participantId submissionId
        status feedback pointsAwarded).2 challengeId participantId
      = some (reviewedParticipant now c p s status feedback pointsAwarded) ∧
    findSubmission (reviewSubmission db now role challengeId participantId submissionId
        status feedback pointsAwarded).2 challengeId participantId submissionId
      = some (reviewedSubmission now s status feedback pointsAwarded) ∧
    (reviewSubmission db now role challengeId participantId submissionId
        status feedback pointsAwarded).2.users p.user
      = some (reviewedAccount now challengeId c p status pointsAwarded usr) := by
  have hch := reviewSubmission_found_challenges db now role challengeId participantId
    submissionId status feedback pointsAwarded c p s hc hr hp hs challengeId
  have hus := reviewSubmission_found_users db now role challengeId participantId
    submissionId status feedback pointsAwarded c p s hc hr hp hs p.user
  simp only [hv, hu, Option.isSome_some, true_or, and_self, if_true, true_and] at hch
  simp only [if_true, hu, Option.map_some'] at hus
  have hpid : p.id = participantId := by simpa using List.find?_some hp
  have hsid : s.id = submissionId := by simpa using List.find?_some hs
  have hf := reviewedParticipant_fields now c p s status feedback pointsAwarded
  have hg := reviewedSubmission_fields now s status feedback pointsAwarded
  have h1 : findParticipant (reviewSubmission db now role challengeId participantId
      submissionId status feedback pointsAwarded).2 challengeId participantId
      = some (reviewedParticipant now c p s status feedback pointsAwarded) := by
    simp only [findParticipant, hch]
    exact find?_modifyFirst_self _ _ (by simp [hf.1, hpid]) _ p hp
  refine ⟨h1, ?_, hus⟩
  simp only [findSubmission, h1, hf.2.2.1, hsid]
  exact find?_modifyFirst_self _ _ (by simp [hg.1, hsid]) _ s hs

/-- C15 (as stated, refuted): submission 1 has been reviewed and is approved;
a second review, with status rejected, stores the status rejected. -/
theorem reviewSubmission_review_again :
    (findSubmission reviewDb 1 1 1).map (fun s => s.status) = some "approved" ∧
    (findSubmission (reviewSubmission reviewDb 5 Role.teacher 1 1 1 "rejected" "" none).2
      1 1 1).map (fun s => s.status) = some "rejected" := by
  have hv1 := reviewValid_of
    { title := "Cleanup", pointsReward := 100,
      completionCriteria := { target := 3, requiresSubmission := true },
      participants :=
        [{ id := 1, user := 1, approvedSubmissions := 1,
           submissions := [{ id := 1, status := "approved" }, { id := 2 }] }] }
    { id := 1, user := 1, approvedSubmissions := 1,
      submissions := [{ id := 1, status := "approved" }, { id := 2 }] }
    "rejected" (Or.inr (Or.inr rfl)) (by decide) (by decide)
  have h1 := reviewSubmission_stored reviewDb 5 Role.teacher 1 1 1 "rejected" "" none _ _
    { id := 1, status := "approved" } {} rfl (Or.inl rfl) rfl rfl rfl hv1
  refine ⟨by decide, ?_⟩
  rw [h1.2.1]
  simp [(reviewedSubmission_fields _ _ _ _ _).2]

/-- C15 (amended): a `reviewSubmission` call by a teacher or admin on an
existing submission of a participant whose account exists, with a status among
pending, approved and rejected, stores that status on the submission whatever
its status was before, reviewed or not. -/
theorem reviewSubmission_sets_status (db : Db) (now : Int) (role : Role)
    (challengeId participantId submissionId : Nat) (status feedback : String)
    (pointsAwarded : Option Int) (c : Challenge) (p : Participant) (s : Submission)
    (usr : User)
    (hc : db.challenges challengeId = some c) (hr : role = Role.teacher ∨ role = Role.admin)
    (hp : c.participants.find? (fun p => p.id = participantId) = some p)
    (hs : p.submissions.find? (fun s => s.id = submissionId) = some s)
    (hu : db.users p.user = some usr)
    (hv : status = "pending" ∨ status = "approved" ∨ status = "rejected")
    (ht : 1 ≤ c.completionCriteria.target) (ha : 0 ≤ p.approvedSubmissions) :
    ∃ s1,
      findSubmission (reviewSubmission db now role challengeId participantId submissionId
        status feedback pointsAwarded).2 challengeId participantId submissionId = some s1 ∧
      s1.status = status := by
  obtain ⟨-, h2, -⟩ := reviewSubmission_stored db now role challengeId participantId
    submissionId status feedback pointsAwarded c p s usr hc hr hp hs hu
    (reviewValid_of c p status hv ht ha)
  exact ⟨_, h2, (reviewedSubmission_fields now s status feedback pointsAwarded).2⟩

theorem reviewSubmission_sets_status_witness :
    reviewDb.users 1 = some {} ∧
    ∃ s1,
      findSubmission (reviewSubmission reviewDb 5 Role.teacher 1 1 1 "rejected" "late" none).2
        1 1 1 = some s1 ∧
      s1.status = "rejected" :=
  ⟨rfl,
   reviewSubmission_sets_status reviewDb 5 Role.teacher 1 1 1 "rejected" "late" none
     { title := "Cleanup", pointsReward := 100,
       completionCriteria := { target := 3, requiresSubmission := true },
       participants :=
         [{ id := 1, user := 1, approvedSubmissions := 1,
            submissions := [{ id := 1, status := "approved" }, { id := 2 }] }] }
     { id := 1, user := 1, approvedSubmissions := 1,
       submissions := [{ id := 1, status := "approved" }, { id := 2 }] }
     { id := 1, status := "approved" } {} rfl (Or.inl rfl) rfl rfl rfl
     (Or.inr (Or.inr rfl)) (by decide) (by decide)⟩

/-! ## Completion credits over sequences of reviews -/

theorem addBadge_pointsHistory (now : Int) (user : User) (n d : String) :
    (addBadge now user n d).1.pointsHistory = user.pointsHistory := by
  unfold addBadge
  split <;> rfl

theorem completionPoints_applyPoints (now : Int) (user : User) (points : Int)
    (type : PointsType) (description : String) (relatedId : Option Nat) (challengeId : Nat) :
    completionPoints (applyPoints now user points type description relatedId) challengeId =
      completionPoints user challengeId ++
        (if type = PointsType.challenge_completed ∧ relatedId = some challengeId then [points]
         else []) := by
  simp only [completionPoints, completionEntries, applyPoints_pointsHistory,
    List.filter_append, List.map_append]
  by_cases h : type = PointsType.challenge_completed ∧ relatedId = some challengeId
  · simp [List.filter, h]
  · simp [List.filter, h]

theorem completionPoints_addBadge (now : Int) (user : User) (n d : String) (challengeId : Nat) :
    completionPoints (addBadge now user n d).1 challengeId = completionPoints user challengeId := by
  simp only [completionPoints, completionEntries, addBadge_pointsHistory]

theorem completionPoints_reviewedAccount (now : Int) (k : Nat) (c : Challenge)
    (q : Participant) (status : String) (pointsAwarded : Option Int) (usr : User)
    (challengeId : Nat) :
    completionPoints (reviewedAccount now k c q status pointsAwarded usr) challengeId =
      completionPoints usr challengeId ++
        (if k = challengeId ∧ completesNow c q status = true then [c.pointsReward] else []) := by
  unfold reviewedAccount
  cases bonusPoints pointsAwarded <;> by_cases hcn : completesNow c q status = true <;>
    by_cases hk : k = challengeId <;>
    simp [hcn, hk, completionPoints_addBadge, completionPoints_applyPoints]

theorem reviewSubmission_completionInv (db : Db) (now : Int) (role : Role)
    (cid pid sid : Nat) (status feedback : String) (pa : Option Int)
    (challengeId participantId userId : Nat) (reward : Int) (before : List Int)
    (hinv : CompletionInv db challengeId participantId userId reward before) :
    CompletionInv (reviewSubmission db now role cid pid sid status feedback pa).2
      challengeId participantId userId reward before := by
  obtain ⟨c, p, usr, hc, hR, hp, hpu, hnd, hu, hL⟩ := hinv
  have hsame : (reviewSubmission db now role cid pid sid status feedback pa).2 = db →
      CompletionInv (reviewSubmission db now role cid pid sid status feedback pa).2
        challengeId participantId userId reward before := by
    intro h
    rw [h]
    exact ⟨c, p, usr, hc, hR, hp, hpu, hnd, hu, hL⟩
  by_cases hrole : role = Role.teacher ∨ role = Role.admin
  swap
  · refine hsame (reviewSubmission_not_found db _ _ _ _ _ _ _ _ (Or.inr (Or.inl ?_)))
    exact ⟨fun h => hrole (Or.inl h), fun h => hrole (Or.inr h)⟩
  cases hc1 : db.challenges cid with
  | none => exact hsame (reviewSubmission_not_found db _ _ _ _ _ _ _ _ (Or.inl hc1))
  | some c1 =>
    cases hq : c1.participants.find? (fun x => x.id = pid) with
    | none =>
      refine hsame (reviewSubmission_not_found db _ _ _ _ _ _ _ _ (Or.inr (Or.inr ?_)))
      intro c2 hc2 q hq2
      rw [hc1] at hc2
      cases hc2
      rw [hq] at hq2
      cases hq2
    | some q =>
      cases hs : q.submissions.find? (fun x => x.id = sid) with
      | none =>
        refine hsame (reviewSubmission_not_found db _ _ _ _ _ _ _ _ (Or.inr (Or.inr ?_)))
        intro c2 hc2 q2 hq2
        rw [hc1] at hc2
        cases hc2
        rw [hq] at hq2
        cases hq2
        exact hs
      | some s =>
        have hU := reviewSubmission_found_users db now role cid pid sid status feedback pa
          c1 q s hc1 hrole hq hs userId
        have hC := reviewSubmission_found_challenges db now role cid pid sid status feedback pa
          c1 q s hc1 hrole hq hs challengeId
        have hf := reviewedParticipant_fields now c1 q s status feedback pa
        have hqid : q.id = pid := by simpa using List.find?_some hq
        have hpid : p.id = participantId := by simpa using List.find?_some hp
        by_cases hk : cid = challengeId
        · subst hk
          rw [hc] at hc1
          cases hc1
          by_cases hqu : q.user = userId
          · -- the reviewed participant is the tracked one
            have hqp : q = p :=
              List.inj_on_of_nodup_map hnd (List.mem_of_find?_eq_some hq)
                (List.mem_of_find?_eq_some hp) (hqu.trans hpu.symm)
            subst hqp
            have hpp : pid = participantId := hqid.symm.trans hpid
            subst hpp
            simp only [hqu, if_true, hu, Option.map_some'] at hU
            have hL1 := completionPoints_reviewedAccount now cid c q status pa usr cid
            by_cases hv : reviewValid c q status = true
            · simp only [hv, hqu, hu, Option.isSome_some, true_or, and_self, if_true] at hC
              refine ⟨_, _, _, hC, hR, ?_, hf.2.1.trans hqu, ?_, hU, ?_⟩
              · exact find?_modifyFirst_self _ _ (by simp [hf.1, hpid]) _ q hp
              · show (List.map _ (modifyFirst _ _ c.participants)).Nodup
                rw [map_modifyFirst _ (fun x => x.user) _ c.participants q hq hf.2.1]
                exact hnd
              · rw [hL1, hL, hf.2.2.2.2, hR]
                by_cases hcn : completesNow c q status = true
                · have hcf := ((completesNow_iff c q status).mp hcn).2.2
                  simp [hcn, hcf]
                · simp [hcn]
            · have hcn : ¬ completesNow c q status = true :=
                fun h => hv (completesNow_valid c q status h)
              simp only [hv, false_and, and_false, if_false] at hC
              refine ⟨c, q, _, hC.trans hc, hR, hp, hpu, hnd, hU, ?_⟩
              rw [hL1, hL]
              simp [hcn]
          · -- another participant of the same challenge
            have hne : pid ≠ participantId := by
              intro h
              rw [h, hp] at hq
              cases hq
              exact hqu hpu
            have hU2 : (reviewSubmission db now role cid pid sid status feedback pa).2.users
                userId = some usr := by
              have hx : ¬ userId = q.user := fun h => hqu h.symm
              simp only [hx, if_false] at hU
              exact hU.trans hu
            by_cases hsv : reviewValid c q status = true ∧
                ((db.users q.user).isSome = true ∨
                  (bonusPoints pa = none ∧ completesNow c q status = false))
            · simp only [true_and, hsv, and_self, if_true] at hC
              refine ⟨_, p, usr, hC, hR, ?_, hpu, ?_, hU2, hL⟩
              · exact (find?_modifyFirst_other _ _ _ (by simp [hf.1, hqid, hne])
                  (by intro x hx; simp at hx; simp [hx, hne]) c.participants).trans hp
              · show (List.map _ (modifyFirst _ _ c.participants)).Nodup
                rw [map_modifyFirst _ (fun x => x.user) _ c.participants q hq hf.2.1]
                exact hnd
            · simp only [hsv, and_false, if_false] at hC
              exact ⟨c, p, usr, hC.trans hc, hR, hp, hpu, hnd, hU2, hL⟩
        · -- a review on another challenge
          have hk2 : ¬ challengeId = cid := fun h => hk h.symm
          simp only [hk2, false_and, if_false] at hC
          by_cases hqu : userId = q.user
          · simp only [hqu, if_true] at hU
            rw [← hqu, hu, Option.map_some'] at hU
            refine ⟨c, p, _, hC.trans hc, hR, hp, hpu, hnd, hU, ?_⟩
            rw [completionPoints_reviewedAccount, hL]
            simp [hk]
          · simp only [hqu, if_false] at hU
            exact ⟨c, p, usr, hC.trans hc, hR, hp, hpu, hnd, hU.trans hu, hL⟩

theorem runReviews_completionInv (calls : List ReviewCall) :
    ∀ (db : Db) (challengeId participantId userId : Nat) (reward : Int) (before : List Int),
      CompletionInv db challengeId participantId userId reward before →
      CompletionInv (runReviews db calls) challengeId participantId userId reward before := by
  induction calls with
  | nil => intro db challengeId participantId userId reward before h; exact h
  | cons rc rest ih =>
    intro db challengeId participantId userId reward before h
    exact ih _ challengeId participantId userId reward before
      (reviewSubmission_completionInv db rc.now rc.role rc.challengeId rc.participantId
        rc.submissionId rc.status rc.feedback rc.pointsAwarded challengeId participantId userId
        reward before h)

theorem progressPercentage_ge_iff (a t : Int) :
    progressPercentage a t ≥ 100 ↔ (a : Rat) / (t : Rat) ≥ 1 := by
  unfold progressPercentage
  constructor
  · intro h
    have h2 : (100 : Rat) ≤ (a : Rat) / (t : Rat) * 100 := (le_min_iff.mp h).2
    linarith
  · intro h
    exact le_min (le_refl _) (by linarith)

/-- C14: for a participant of a challenge with target >= 1 whose account
exists (the participants of the challenge having distinct accounts), an
approval by `reviewSubmission` raises `approvedSubmissions` by 1, leaves
`completed` true exactly when it was true already or the new
approvedSubmissions / target is at least 1, and credits `challenge.pointsReward`
exactly when the participant was not completed and that ratio is reached; and
over any sequence of `reviewSubmission` calls starting from a not completed
participant, the account holds exactly one completion credit of
`challenge.pointsReward` more than before when the participant is completed
and none more when it is not, however many submissions are approved
afterwards. -/
theorem reviewSubmission_completes_once (db : Db) (challengeId participantId : Nat)
    (c : Challenge) (p : Participant) (usr : User)
    (hc : db.challenges challengeId = some c)
    (hp : c.participants.find? (fun q => q.id = participantId) = some p)
    (hu : db.users p.user = some usr)
    (hnd : (c.participants.map (fun q => q.user)).Nodup)
    (ht : 1 ≤ c.completionCriteria.target) (ha : 0 ≤ p.approvedSubmissions) :
    (∀ (now : Int) (role : Role) (submissionId : Nat) (feedback : String)
        (pointsAwarded : Option Int) (s : Submission),
      (role = Role.teacher ∨ role = Role.admin) →
      p.submissions.find? (fun x => x.id = submissionId) = some s →
      ∃ p1 usr1,
        findParticipant (reviewSubmission db now role challengeId participantId submissionId
          "approved" feedback pointsAwarded).2 challengeId participantId = some p1 ∧
        (reviewSubmission db now role challengeId participantId submissionId
          "approved" feedback pointsAwarded).2.users p.user = some usr1 ∧
        p1.approvedSubmissions = p.approvedSubmissions + 1 ∧
        (p1.completed = true ↔
          p.completed = true ∨
            ((p.approvedSubmissions + 1 : Int) : Rat) / (c.completionCriteria.target : Rat) ≥ 1) ∧
        completionPoints usr1 challengeId = completionPoints usr challengeId ++
          (if p.completed = false ∧
              ((p.approvedSubmissions + 1 : Int) : Rat) / (c.completionCriteria.target : Rat) ≥ 1
           then [c.pointsReward] else [])) ∧
    (p.completed = false → ∀ calls : List ReviewCall,
      ∃ p1 usr1,
        findParticipant (runReviews db calls) challengeId participantId = some p1 ∧
        (runReviews db calls).users p.user = some usr1 ∧
        completionPoints usr1 challengeId = completionPoints usr challengeId ++
          (if p1.completed = true then [c.pointsReward] else [])) := by
  constructor
  · intro now role submissionId feedback pointsAwarded s hr hs
    obtain ⟨h1, -, h3⟩ := reviewSubmission_stored db now role challengeId participantId
      submissionId "approved" feedback pointsAwarded c p s usr hc hr hp hs hu
      (reviewValid_of c p "approved" (Or.inr (Or.inl rfl)) ht ha)
    have hf := reviewedParticipant_fields now c p s "approved" feedback pointsAwarded
    have hcn : completesNow c p "approved" = true ↔
        (p.completed = false ∧
          ((p.approvedSubmissions + 1 : Int) : Rat) / (c.completionCriteria.target : Rat) ≥ 1) := by
      rw [completesNow_iff, progressPercentage_ge_iff]
      constructor
      · intro h; exact ⟨h.2.2, h.2.1⟩
      · intro h; exact ⟨rfl, h.2, h.1⟩
    refine ⟨_, _, h1, h3, ?_, ?_, ?_⟩
    · rw [hf.2.2.2.1]
      simp
    · rw [hf.2.2.2.2]
      cases hpc : p.completed with
      | true => simp
      | false =>
        simp only [Bool.false_or, hcn, hpc, true_and, Bool.false_eq_true, false_or]
    · rw [completionPoints_reviewedAccount]
      by_cases h : completesNow c p "approved" = true
      · rw [if_pos ⟨rfl, h⟩, if_pos (hcn.mp h)]
      · rw [if_neg (fun hx => h hx.2), if_neg (fun hx => h (hcn.mpr hx))]
  · intro hpc calls
    have hinv : CompletionInv db challengeId participantId p.user c.pointsReward
        (completionPoints usr challengeId) :=
      ⟨c, p, usr, hc, rfl, hp, rfl, hnd, hu, by simp [hpc]⟩
    obtain ⟨c1, p1, usr1, hc1, -, hp1, -, -, hu1, hL⟩ :=
      runReviews_completionInv calls db challengeId participantId p.user c.pointsReward
        (completionPoints usr challengeId) hinv
    exact ⟨p1, usr1, by simp only [findParticipant, hc1, hp1], hu1, hL⟩

theorem reviewSubmission_completes_once_witness :
    reviewDb.users 1 = some {} ∧
    (false = false → ∃ p1 usr1,
      findParticipant (runReviews reviewDb
        [{ now := 1, role := Role.teacher, challengeId := 1, participantId := 1,
           submissionId := 2, status := "approved" },
         { now := 2, role := Role.admin, challengeId := 1, participantId := 1,
           submissionId := 1, status := "approved" },
         { now := 3, role := Role.teacher, challengeId := 1, participantId := 1,
           submissionId := 2, status := "approved", pointsAwarded := some 4 }]) 1 1 = some p1 ∧
      (runReviews reviewDb
        [{ now := 1, role := Role.teacher, challengeId := 1, participantId := 1,
           submissionId := 2, status := "approved" },
         { now := 2, role := Role.admin, challengeId := 1, participantId := 1,
           submissionId := 1, status := "approved" },
         { now := 3, role := Role.teacher, challengeId := 1, participantId := 1,
           submissionId := 2, status := "approved", pointsAwarded := some 4 }]).users 1
        = some usr1 ∧
      completionPoints usr1 1 = completionPoints {} 1 ++
        (if p1.completed = true then [100] else [])) :=
  ⟨rfl, fun h =>
    (reviewSubmission_completes_once reviewDb 1 1
      { title := "Cleanup", pointsReward := 100,
        completionCriteria := { target := 3, requiresSubmission := true },
        participants :=
          [{ id := 1, user := 1, approvedSubmissions := 1,
             submissions := [{ id := 1, status := "approved" }, { id := 2 }] }] }
      { id := 1, user := 1, approvedSubmissions := 1,
        submissions := [{ id := 1, status := "approved" }, { id := 2 }] }
      {} rfl rfl rfl (by simp) (by decide) (by decide)).2 h _⟩

/-! ## The quiz award and the ledger -/

/-- C20 (the code at the failing input): 31 days after the last weekly and
monthly resets, a first-attempt `submitQuiz` scoring 10 leaves weeklyPoints and
monthlyPoints at 5 + 10 = 15 and both reset stamps at 0, whereas
`updateUserPoints` with the same delta at the same time resets both counters
first, giving 10 and 10 and stamping both resets with the call time. -/
theorem submitQuiz_award_skips_rollover :
    (submitQuiz staleDb 2678400000 1 1
        (some [{ questionIndex := 0, answerIndex := 1 }])).2.1.map
      (fun d => (d.pointsAwarded, d.isFirstAttempt)) = some (10, true) ∧
    ((submitQuiz staleDb 2678400000 1 1
        (some [{ questionIndex := 0, answerIndex := 1 }])).2.2.users 1).map
      (fun u => (u.points, u.weeklyPoints, u.monthlyPoints, u.lastWeeklyReset,
        u.lastMonthlyReset)) = some (15, 15, 15, 0, 0) ∧
    (updateUserPoints staleDb 2678400000 1 10 PointsType.quiz_completed
        "Completed quiz: Two" none).toOption.map
      (fun r => (r.1.points, r.1.weeklyPoints, r.1.monthlyPoints, r.1.lastWeeklyReset,
        r.1.lastMonthlyReset)) = some (15, 10, 10, 2678400000, 2678400000) := by
  refine ⟨by decide, by decide, by decide⟩

/-! ## Failure of the ledger entry point -/

/-- C24: `updateUserPoints` fails exactly when no account has the given id, the
error then being "User not found"; a failing call returns no account and no
store, so no account is created or modified by it. -/
theorem updateUserPoints_user_not_found (db : Db) (now : Int) (userId : Nat) (points : Int)
    (type : PointsType) (description : String) (relatedId : Option Nat) :
    (db.users userId = none →
      updateUserPoints db now userId points type description relatedId =
        Except.error "User not found") ∧
    (∀ e, updateUserPoints db now userId points type description relatedId = Except.error e →
      db.users userId = none ∧ e = "User not found") := by
  unfold updateUserPoints
  cases h : db.users userId with
  | none =>
    refine ⟨fun _ => rfl, fun e he => ⟨rfl, ?_⟩⟩
    simp only [Except.error.injEq] at he
    exact he.symm
  | some u =>
    refine ⟨fun h0 => (by cases h0), fun e he => ?_⟩
    simp at he

theorem updateUserPoints_user_not_found_witness :
    updateUserPoints {} 0 1 5 PointsType.other "" none = Except.error "User not found" :=
  (updateUserPoints_user_not_found {} 0 1 5 PointsType.other "" none).1 rfl

/-! ## Bonus points of a review -/

theorem reviewedAccount_points (now : Int) (challengeId : Nat) (c : Challenge)
    (p : Participant) (status : String) (pointsAwarded : Option Int) (usr : User) :
    (reviewedAccount now challengeId c p status pointsAwarded usr).points =
      usr.points + (bonusPoints pointsAwarded).getD 0 +
        (if completesNow c p status = true then c.pointsReward else 0) ∧
    (reviewedAccount now challengeId c p status pointsAwarded usr).pointsHistory =
      usr.pointsHistory ++
        ((bonusPoints pointsAwarded).map (bonusEntry now challengeId c)).toList ++
        (if completesNow c p status = true then [completionEntry now challengeId c] else []) := by
  unfold reviewedAccount
  have hb : ∀ (u : User) (n d : String), (addBadge now u n d).1.points = u.points := by
    intro u n d
    unfold addBadge
    split <;> rfl
  cases bonusPoints pointsAwarded <;> by_cases hcn : completesNow c p status = true <;>
    simp [hcn, hb, addBadge_pointsHistory, applyPoints_points, applyPoints_pointsHistory,
      bonusEntry, completionEntry]

/-- C21: a `reviewSubmission` call by a teacher or admin on an existing
submission of a participant whose account exists credits that account through
the ledger, whatever the status given (approved, rejected or any other string):
with `pointsAwarded = n > 0` the account's points grow by `n` (plus the
challenge reward when this review completes the participant) and its history
gains exactly one entry of type `other` worth `n` (followed by the completion
entry when the review completes); with `pointsAwarded` absent or `<= 0` no
bonus is added to the points and no bonus entry is written. -/
theorem reviewSubmission_bonus (db : Db) (now : Int) (role : Role)
    (challengeId participantId submissionId : Nat) (status feedback : String)
    (pointsAwarded : Option Int) (c : Challenge) (p : Participant) (s : Submission)
    (usr : User)
    (hc : db.challenges challengeId = some c) (hr : role = Role.teacher ∨ role = Role.admin)
    (hp : c.participants.find? (fun p => p.id = participantId) = some p)
    (hs : p.submissions.find? (fun s => s.id = submissionId) = some s)
    (hu : db.users p.user = some usr) :
    ∃ usr1,
      (reviewSubmission db now role challengeId participantId submissionId status feedback
        pointsAwarded).2.users p.user = some usr1 ∧
      (∀ n, pointsAwarded = some n → 0 < n →
        usr1.points = usr.points + n +
          (if completesNow c p status = true then c.pointsReward else 0) ∧
        usr1.pointsHistory = usr.pointsHistory ++
          [{ points := n, type := PointsType.other,
             description := "Bonus points for submission in challenge: " ++ c.title,
             relatedId := some challengeId, earnedAt := now }] ++
          (if completesNow c p status = true then [completionEntry now challengeId c]
           else [])) ∧
      ((pointsAwarded = none ∨ ∃ n, pointsAwarded = some n ∧ n ≤ 0) →
        usr1.points = usr.points +
          (if completesNow c p status = true then c.pointsReward else 0) ∧
        usr1.pointsHistory = usr.pointsHistory ++
          (if completesNow c p status = true then [completionEntry now challengeId c]
           else [])) := by
  have hus := reviewSubmission_found_users db now role challengeId participantId
    submissionId status feedback pointsAwarded c p s hc hr hp hs p.user
  simp only [if_true, hu, Option.map_some'] at hus
  have hf := reviewedAccount_points now challengeId c p status pointsAwarded usr
  refine ⟨_, hus, ?_, ?_⟩
  · intro n hn hpos
    have hb : bonusPoints pointsAwarded = some n := by
      subst hn
      have h0 : n ≠ 0 := by omega
      simp [bonusPoints, h0, hpos]
    rw [hb] at hf
    simpa [bonusEntry] using hf
  · intro h
    have hb : bonusPoints pointsAwarded = none := by
      rcases h with h | ⟨n, h, hn⟩
      · subst h; rfl
      · subst h
        have : ¬ n > 0 := by omega
        simp [bonusPoints, this]
    rw [hb] at hf
    simpa using hf

theorem reviewSubmission_bonus_witness :
    ∃ usr1,
      (reviewSubmission reviewDb 5 Role.teacher 1 1 2 "rejected" "" (some 7)).2.users 1
        = some usr1 ∧
      (∀ n, some (7 : Int) = some n → 0 < n →
        usr1.points = (0 : Int) + n +
          (if completesNow
              { title := "Cleanup", pointsReward := 100,
                completionCriteria := { target := 3, requiresSubmission := true },
                participants :=
                  [{ id := 1, user := 1, approvedSubmissions := 1,
                     submissions := [{ id := 1, status := "approved" }, { id := 2 }] }] }
              { id := 1, user := 1, approvedSubmissions := 1,
                submissions := [{ id := 1, status := "approved" }, { id := 2 }] }
              "rejected" = true then 100 else 0) ∧
        usr1.pointsHistory = [] ++
          [{ points := n, type := PointsType.other,
             description := "Bonus points for submission in challenge: " ++ "Cleanup",
             relatedId := some 1, earnedAt := 5 }] ++
          (if completesNow
              { title := "Cleanup", pointsReward := 100,
                completionCriteria := { target := 3, requiresSubmission := true },
                participants :=
                  [{ id := 1, user := 1, approvedSubmissions := 1,
                     submissions := [{ id := 1, status := "approved" }, { id := 2 }] }] }
              { id := 1, user := 1, approvedSubmissions := 1,
                submissions := [{ id := 1, status := "approved" }, { id := 2 }] }
              "rejected" = true
           then [completionEntry 5 1
              { title := "Cleanup", pointsReward := 100,
                completionCriteria := { target := 3, requiresSubmission := true },
                participants :=
                  [{ id := 1, user := 1, approvedSubmissions := 1,
                     submissions := [{ id := 1, status := "approved" }, { id := 2 }] }] }]
           else [])) ∧
      ((some (7 : Int) = none ∨ ∃ n, some (7 : Int) = some n ∧ n ≤ 0) →
        usr1.points = (0 : Int) +
          (if completesNow
              { title := "Cleanup", pointsReward := 100,
                completionCriteria := { target := 3, requiresSubmission := true },
                participants :=
                  [{ id := 1, user := 1, approvedSubmissions := 1,
                     submissions := [{ id := 1, status := "approved" }, { id := 2 }] }] }
              { id := 1, user := 1, approvedSubmissions := 1,
                submissions := [{ id := 1, status := "approved" }, { id := 2 }] }
              "rejected" = true then 100 else 0) ∧
        usr1.pointsHistory = [] ++
          (if completesNow
              { title := "Cleanup", pointsReward := 100,
                completionCriteria := { target := 3, requiresSubmission := true },
                participants :=
                  [{ id := 1, user := 1, approvedSubmissions := 1,
                     submissions := [{ id := 1, status := "approved" }, { id := 2 }] }] }
              { id := 1, user := 1, approvedSubmissions := 1,
                submissions := [{ id := 1, status := "approved" }, { id := 2 }] }
              "rejected" = true
           then [completionEntry 5 1
              { title := "Cleanup", pointsReward := 100,
                completionCriteria := { target := 3, requiresSubmission := true },
                participants :=
                  [{ id := 1, user := 1, approvedSubmissions := 1,
                     submissions := [{ id := 1, status := "approved" }, { id := 2 }] }] }]
           else [])) :=
  reviewSubmission_bonus reviewDb 5 Role.teacher 1 1 2 "rejected" "" (some 7)
    { title := "Cleanup", pointsReward := 100,
      completionCriteria := { target := 3, requiresSubmission := true },
      participants :=
        [{ id := 1, user := 1, approvedSubmissions := 1,
           submissions := [{ id := 1, status := "approved" }, { id := 2 }] }] }
    { id := 1, user := 1, approvedSubmissions := 1,
      submissions := [{ id := 1, status := "approved" }, { id := 2 }] }
    { id := 2 } {} rfl (Or.inl rfl) rfl rfl rfl

/-! ## Progress of a participant under review -/

theorem reviewedParticipant_progress (now : Int) (c : Challenge) (p : Participant)
    (s : Submission) (status feedback : String) (pointsAwarded : Option Int) :
    (reviewedParticipant now c p s status feedback pointsAwarded).progress =
      if status = "approved" then
        progressPercentage (p.approvedSubmissions + 1) c.completionCriteria.target
      else p.progress := by
  unfold reviewedParticipant
  by_cases hst : status = "approved"
  · simp [hst]
  · simp [hst]

theorem progressPercentage_eq_iff (a t : Int) (ht : 1 ≤ t) :
    progressPercentage a t = 100 ↔ t ≤ a := by
  have htq : (0 : Rat) < (t : Rat) := by exact_mod_cast (by omega : (0 : Int) < t)
  have hle : progressPercentage a t ≤ 100 := min_le_left _ _
  constructor
  · intro h
    have h1 : (a : Rat) / (t : Rat) ≥ 1 := (progressPercentage_ge_iff a t).mp (le_of_eq h.symm)
    have h2 : (t : Rat) ≤ (a : Rat) := by
      have := (le_div_iff₀ htq).mp h1
      linarith
    exact_mod_cast h2
  · intro h
    have h2 : (t : Rat) ≤ (a : Rat) := by exact_mod_cast h
    have h1 : (a : Rat) / (t : Rat) ≥ 1 := (le_div_iff₀ htq).mpr (by linarith)
    exact le_antisymm hle ((progressPercentage_ge_iff a t).mpr h1)

/-- C22: for a participant with `approvedSubmissions >= 0` whose account
exists, in a challenge with target >= 1, a `reviewSubmission` call by a teacher
or admin on an existing submission leaves a stored participant such that: when
the status is approved, `approvedSubmissions` is 1 more than before, `progress`
is `min(100, approvedSubmissions / target * 100)` for the new
`approvedSubmissions`, lies in [0, 100], and equals 100 exactly when the new
`approvedSubmissions >= target`; when the status is not approved,
`approvedSubmissions` and `progress` are as before. -/
theorem reviewSubmission_progress (db : Db) (now : Int) (role : Role)
    (challengeId participantId submissionId : Nat) (status feedback : String)
    (pointsAwarded : Option Int) (c : Challenge) (p : Participant) (s : Submission)
    (usr : User)
    (hc : db.challenges challengeId = some c) (hr : role = Role.teacher ∨ role = Role.admin)
    (hp : c.participants.find? (fun p => p.id = participantId) = some p)
    (hs : p.submissions.find? (fun s => s.id = submissionId) = some s)
    (hu : db.users p.user = some usr)
    (ht : 1 ≤ c.completionCriteria.target) (ha : 0 ≤ p.approvedSubmissions) :
    ∃ p1,
      findParticipant (reviewSubmission db now role challengeId participantId submissionId
        status feedback pointsAwarded).2 challengeId participantId = some p1 ∧
      (status = "approved" →
        p1.approvedSubmissions = p.approvedSubmissions + 1 ∧
        p1.progress = min 100
          ((p1.approvedSubmissions : Rat) / (c.completionCriteria.target : Rat) * 100) ∧
        0 ≤ p1.progress ∧ p1.progress ≤ 100 ∧
        (p1.progress = 100 ↔ c.completionCriteria.target ≤ p1.approvedSubmissions)) ∧
      (status ≠ "approved" →
        p1.approvedSubmissions = p.approvedSubmissions ∧ p1.progress = p.progress) := by
  have hf := reviewedParticipant_fields now c p s status feedback pointsAwarded
  have hg := reviewedParticipant_progress now c p s status feedback pointsAwarded
  by_cases hv : reviewValid c p status = true
  · obtain ⟨h1, -, -⟩ := reviewSubmission_stored db now role challengeId participantId
      submissionId status feedback pointsAwarded c p s usr hc hr hp hs hu hv
    refine ⟨_, h1, ?_, ?_⟩
    · intro hst
      rw [hf.2.2.2.1, hg, if_pos hst, if_pos hst]
      refine ⟨rfl, ?_, progressPercentage_nonneg _ _ (by omega) ht, min_le_left _ _,
        progressPercentage_eq_iff _ _ ht⟩
      simp [progressPercentage]
    · intro hst
      rw [hf.2.2.2.1, hg, if_neg hst, if_neg hst]
      exact ⟨by simp, rfl⟩
  · have hch := reviewSubmission_found_challenges db now role challengeId participantId
      submissionId status feedback pointsAwarded c p s hc hr hp hs challengeId
    have hv2 : reviewValid c p status = false := by simpa using hv
    simp [hv2] at hch
    refine ⟨p, ?_, ?_, ?_⟩
    · simp only [findParticipant, hch, hc, hp]
    · intro hst
      exact absurd (reviewValid_of c p status (Or.inr (Or.inl hst)) ht ha) hv
    · intro _
      exact ⟨rfl, rfl⟩

theorem reviewSubmission_progress_witness :
    ∃ p1,
      findParticipant (reviewSubmission reviewDb 5 Role.teacher 1 1 2 "approved" "" none).2
        1 1 = some p1 ∧
      ("approved" = "approved" →
        p1.approvedSubmissions = 1 + 1 ∧
        p1.progress = min 100 ((p1.approvedSubmissions : Rat) / ((3 : Int) : Rat) * 100) ∧
        0 ≤ p1.progress ∧ p1.progress ≤ 100 ∧
        (p1.progress = 100 ↔ (3 : Int) ≤ p1.approvedSubmissions)) ∧
      ("approved" ≠ "approved" →
        p1.approvedSubmissions = 1 ∧ p1.progress = 0) :=
  reviewSubmission_progress reviewDb 5 Role.teacher 1 1 2 "approved" "" none
    { title := "Cleanup", pointsReward := 100,
      completionCriteria := { target := 3, requiresSubmission := true },
      participants :=
        [{ id := 1, user := 1, approvedSubmissions := 1,
           submissions := [{ id := 1, status := "approved" }, { id := 2 }] }] }
    { id := 1, user := 1, approvedSubmissions := 1,
      submissions := [{ id := 1, status := "approved" }, { id := 2 }] }
    { id := 2 } {} rfl (Or.inl rfl) rfl rfl rfl (by decide) (by decide)

/-! ## Failures of a review -/

theorem findSubmission_eq_none (db : Db) (challengeId participantId submissionId : Nat)
    (h : findSubmission db challengeId participantId submissionId = none) :
    db.challenges challengeId = none ∨
      (∀ c, db.challenges challengeId = some c →
        ∀ p, c.participants.find? (fun p => p.id = participantId) = some p →
          p.submissions.find? (fun s => s.id = submissionId) = none) := by
  cases hc : db.challenges challengeId with
  | none => exact Or.inl rfl
  | some c =>
    right
    intro c1 hc1 p hp
    cases hc1
    simpa [findSubmission, findParticipant, hc, hp] using h

theorem reviewSubmission_failure_status (db : Db) (now : Int) (role : Role)
    (challengeId participantId submissionId : Nat) (status feedback : String)
    (pointsAwarded : Option Int)
    (h : ¬ (role = Role.teacher ∨ role = Role.admin) ∨
      findSubmission db challengeId participantId submissionId = none) :
    (reviewSubmission db now role challengeId participantId submissionId status feedback
        pointsAwarded).1.status =
      (if db.challenges challengeId = none then 404
       else if ¬ (role = Role.teacher ∨ role = Role.admin) then 403 else 404) ∧
    (reviewSubmission db now role challengeId participantId submissionId status feedback
        pointsAwarded).1.success = false := by
  unfold reviewSubmission
  cases hc : db.challenges challengeId with
  | none => simp
  | some c =>
    simp only []
    by_cases hr : role ≠ Role.teacher ∧ role ≠ Role.admin
    · have hr2 : ¬ (role = Role.teacher ∨ role = Role.admin) := by
        rintro (h1 | h1)
        · exact hr.1 h1
        · exact hr.2 h1
      rw [if_pos hr]
      simp [hr2]
    · have hr2 : role = Role.teacher ∨ role = Role.admin := by
        by_contra hn
        exact hr ⟨fun h1 => hn (Or.inl h1), fun h1 => hn (Or.inr h1)⟩
      rw [if_neg hr]
      have hnone : findSubmission db challengeId participantId submissionId = none := by
        rcases h with h | h
        · exact absurd hr2 h
        · exact h
      cases hp : c.participants.find? (fun p => p.id = participantId) with
      | none => simp [hr2]
      | some p =>
        have hs : p.submissions.find? (fun s => s.id = submissionId) = none := by
          simpa [findSubmission, findParticipant, hc, hp] using hnone
        simp [hs, hr2]

/-- C23: through the review route (`requireTeacher`, then the handler), a
caller whose role is neither teacher nor admin is answered 403 Forbidden, and a
teacher or admin is answered 404 NotFound when the challenge, the participant
or the submission does not exist; the handler `reviewSubmission` on its own
answers such a failing request with 404 when the challenge does not exist,
otherwise 403 when the role is neither teacher nor admin, otherwise 404; and in
every one of these failures the whole store, challenges and accounts, is left
as it was. -/
theorem reviewSubmission_failures (db : Db) (now : Int) (role : Role)
    (challengeId participantId submissionId : Nat) (status feedback : String)
    (pointsAwarded : Option Int) :
    (¬ (role = Role.teacher ∨ role = Role.admin) →
      (reviewRoute db now role challengeId participantId submissionId status feedback
        pointsAwarded).1.status = 403 ∧
      (reviewRoute db now role challengeId participantId submissionId status feedback
        pointsAwarded).2 = db) ∧
    ((role = Role.teacher ∨ role = Role.admin) →
      findSubmission db challengeId participantId submissionId = none →
      (reviewRoute db now role challengeId participantId submissionId status feedback
        pointsAwarded).1.status = 404 ∧
      (reviewRoute db now role challengeId participantId submissionId status feedback
        pointsAwarded).2 = db) ∧
    (¬ (role = Role.teacher ∨ role = Role.admin) ∨
        findSubmission db challengeId participantId submissionId = none →
      (reviewSubmission db now role challengeId participantId submissionId status feedback
        pointsAwarded).1.status =
          (if db.challenges challengeId = none then 404
           else if ¬ (role = Role.teacher ∨ role = Role.admin) then 403 else 404) ∧
      (reviewSubmission db now role challengeId participantId submissionId status feedback
        pointsAwarded).1.success = false ∧
      (reviewSubmission db now role challengeId participantId submissionId status feedback
        pointsAwarded).2 = db) := by
  have hstore : ¬ (role = Role.teacher ∨ role = Role.admin) ∨
      findSubmission db challengeId participantId submissionId = none →
      (reviewSubmission db now role challengeId participantId submissionId status feedback
        pointsAwarded).2 = db := by
    intro h
    apply reviewSubmission_not_found
    rcases h with h | h
    · exact Or.inr (Or.inl ⟨fun h1 => h (Or.inl h1), fun h1 => h (Or.inr h1)⟩)
    · rcases findSubmission_eq_none db challengeId participantId submissionId h with h1 | h1
      · exact Or.inl h1
      · exact Or.inr (Or.inr h1)
  refine ⟨?_, ?_, ?_⟩
  · intro hr
    have hr2 : role ≠ Role.teacher ∧ role ≠ Role.admin :=
      ⟨fun h1 => hr (Or.inl h1), fun h1 => hr (Or.inr h1)⟩
    simp [reviewRoute, requireTeacher, hr2]
  · intro hr hnone
    have hr2 : ¬ (role ≠ Role.teacher ∧ role ≠ Role.admin) := by
      rcases hr with h1 | h1 <;> simp [h1]
    have hst := reviewSubmission_failure_status db now role challengeId participantId
      submissionId status feedback pointsAwarded (Or.inr hnone)
    simp only [reviewRoute, requireTeacher, if_neg hr2]
    refine ⟨?_, hstore (Or.inr hnone)⟩
    rw [hst.1]
    simp [hr]
  · intro h
    have hst := reviewSubmission_failure_status db now role challengeId participantId
      submissionId status feedback pointsAwarded h
    exact ⟨hst.1, hst.2, hstore h⟩

theorem reviewSubmission_failures_witness :
    ((reviewRoute reviewDb 5 Role.student 1 1 2 "approved" "" none).1.status = 403 ∧
      (reviewRoute reviewDb 5 Role.student 1 1 2 "approved" "" none).2 = reviewDb) ∧
    ((reviewRoute reviewDb 5 Role.teacher 1 1 9 "approved" "" none).1.status = 404 ∧
      (reviewRoute reviewDb 5 Role.teacher 1 1 9 "approved" "" none).2 = reviewDb) :=
  ⟨(reviewSubmission_failures reviewDb 5 Role.student 1 1 2 "approved" "" none).1
      (by decide),
   (reviewSubmission_failures reviewDb 5 Role.teacher 1 1 9 "approved" "" none).2.1
      (Or.inl rfl) (by decide)⟩

/-! ## Module completion by a passed quiz -/

/-- C25 (code bug): account 1 has 0 points and no completed module; with the
progress record of module 1 (worth 50 points) not completed, and also with no
progress record at all, `completeModuleOnQuizPass` with score 10 of 10 answers
200 and stores the progress record as completed, but the account keeps 0
points and `modulesCompleted = 0`. -/
theorem completeModuleOnQuizPass_awards_nothing :
    (quizDb.users 1).map (fun u => (u.points, u.modulesCompleted)) = some (0, 0) ∧
    (quizDb.progress 1 1).map (fun p => p.isCompleted) = some false ∧
    (completeModuleOnQuizPass quizDb 3 1 1 10).1.status = 200 ∧
    ((completeModuleOnQuizPass quizDb 3 1 1 10).2.progress 1 1).map
      (fun p => p.isCompleted) = some true ∧
    ((completeModuleOnQuizPass quizDb 3 1 1 10).2.users 1).map
      (fun u => (u.points, u.modulesCompleted)) = some (0, 0) ∧
    quizDbNoProgress.progress 1 1 = none ∧
    (completeModuleOnQuizPass quizDbNoProgress 3 1 1 10).1.status = 200 ∧
    ((completeModuleOnQuizPass quizDbNoProgress 3 1 1 10).2.progress 1 1).map
      (fun p => p.isCompleted) = some true ∧
    ((completeModuleOnQuizPass quizDbNoProgress 3 1 1 10).2.users 1).map
      (fun u => (u.points, u.modulesCompleted)) = some (0, 0) := by
  have h : meetsThreshold 10 10 = true := by
    simp only [meetsThreshold]
    norm_num
  refine ⟨by decide, by decide, ?_, ?_, ?_, by decide, ?_, ?_, ?_⟩
  · simp [completeModuleOnQuizPass, quizDb, h, Db.setProgress]
  · simp [completeModuleOnQuizPass, quizDb, h, Db.setProgress]
  · rw [(completeModuleOnQuizPass_users quizDb 3 1 1 10).1]
    decide
  · simp [completeModuleOnQuizPass, quizDbNoProgress, quizDb, h, Db.setProgress]
  · simp [completeModuleOnQuizPass, quizDbNoProgress, quizDb, h, Db.setProgress]
  · rw [(completeModuleOnQuizPass_users quizDbNoProgress 3 1 1 10).1]
    decide

/-! ## The completion checks and `completeModule` -/

theorem completeModule_accepts_iff (db : Db) (now : Int) (userId moduleId : Nat)
    (progress : UserProgress) (module : Module)
    (hp : db.progress userId moduleId = some progress)
    (hm : db.modules moduleId = some module) :
    (completeModule db now userId moduleId).1.status = 200 ↔
      (progress.completedLessons.length = module.lessons.length ∧
        progress.isCompleted = false) := by
  by_cases hlen : progress.completedLessons.length = module.lessons.length
  · cases hc : progress.isCompleted with
    | true => simp [completeModule, hp, hm, hlen, hc]
    | false =>
      cases hU : db.users userId with
      | none => simp [completeModule, hp, hm, hlen, hc, hU, Db.setProgress]
      | some user =>
        simp [completeModule, hp, hm, hlen, hc, hU, Db.setProgress, updateUserPoints,
          Db.setUser]
  · simp [completeModule, hp, hm, hlen]

theorem checkModuleCompletion_canComplete (db : Db) (userId moduleId : Nat)
    (progress : UserProgress) (module : Module)
    (hp : db.progress userId moduleId = some progress)
    (hm : db.modules moduleId = some module) :
    ((checkModuleCompletion db userId moduleId).2.map (fun d => d.canComplete) = some true ↔
      (progress.completedLessons.length = module.lessons.length ∧ 0 < module.lessons.length ∧
        progress.isCompleted = false)) ∧
    (validateModuleCompletion db userId moduleId).2.map (fun d => d.canComplete) =
      (checkModuleCompletion db userId moduleId).2.map (fun d => d.canComplete) := by
  simp [checkModuleCompletion, validateModuleCompletion, hp, hm, and_assoc]

/-- C28 (code bug): for module 1 without lessons and the not completed progress
record of account 1 for it, `checkModuleCompletion` and
`validateModuleCompletion` both report `canComplete = false`, yet
`completeModule` accepts the request: it answers 200, marks the record
completed and credits the 50 points of the module. -/
theorem completeModule_accepts_empty_module :
    (checkModuleCompletion emptyModuleDb 1 1).2.map (fun d => d.canComplete) = some false ∧
    (validateModuleCompletion emptyModuleDb 1 1).2.map (fun d => d.canComplete)
      = some false ∧
    (completeModule emptyModuleDb 5 1 1).1.status = 200 ∧
    ((completeModule emptyModuleDb 5 1 1).2.progress 1 1).map (fun p => p.isCompleted)
      = some true ∧
    ((completeModule emptyModuleDb 5 1 1).2.users 1).map (fun u => u.points) = some 50 := by
  decide

/-! ## The approval counter and the approved submissions -/

theorem addBadge_points (now : Int) (user : User) (n d : String) :
    (addBadge now user n d).1.points = user.points := by
  unfold addBadge
  split <;> rfl

/-- C26 (code bug): account 1 submits one piece of work to challenge 1 (target
2) and a teacher approves it: `approvedSubmissions` is 1 and one submission is
approved.  The teacher then approves the same submission again:
`approvedSubmissions` is 2 while still one submission is approved, and the
participant is completed and rewarded; had the teacher rejected it instead,
`approvedSubmissions` would stay 1 with no submission approved. -/
theorem approvedSubmissions_drifts :
    (findParticipant submittedDb 1 1).map
      (fun p => (p.approvedSubmissions, approvedCount p, p.completed)) = some (0, 0, false) ∧
    (findParticipant approvedOnceDb 1 1).map
      (fun p => (p.approvedSubmissions, approvedCount p, p.completed)) = some (1, 1, false) ∧
    (findParticipant approvedTwiceDb 1 1).map
      (fun p => (p.approvedSubmissions, approvedCount p, p.completed)) = some (2, 1, true) ∧
    (approvedTwiceDb.users 1).map (fun u => u.points) = some 100 ∧
    (findParticipant approvedThenRejectedDb 1 1).map
      (fun p => (p.approvedSubmissions, approvedCount p, p.completed))
        = some (1, 0, false) := by
  refine ⟨by decide, ?_, ?_, ?_, ?_⟩
  · simp [approvedOnceDb, submittedDb, reviewSubmission, submitChallengeWork, openChallengeDb,
      Db.setChallenge, modifyFirst, reviewBonus, reviewApproval, reviewSave,
      progressPercentage, validStatus, findParticipant, approvedCount]
    norm_num
  · simp [approvedTwiceDb, approvedOnceDb, submittedDb, reviewSubmission, submitChallengeWork,
      openChallengeDb, Db.setChallenge, Db.setUser, modifyFirst, reviewBonus, reviewApproval,
      reviewSave, progressPercentage, validStatus, findParticipant, approvedCount,
      updateUserPoints]
    norm_num
    simp [modifyFirst]
  · simp [approvedTwiceDb, approvedOnceDb, submittedDb, reviewSubmission, submitChallengeWork,
      openChallengeDb, Db.setChallenge, Db.setUser, modifyFirst, reviewBonus, reviewApproval,
      reviewSave, progressPercentage, validStatus, findParticipant, approvedCount,
      updateUserPoints, applyPoints_points]
    norm_num [addBadge_points, applyPoints_points]
  · simp [approvedThenRejectedDb, approvedOnceDb, submittedDb, reviewSubmission,
      submitChallengeWork, openChallengeDb, Db.setChallenge, modifyFirst, reviewBonus,
      reviewApproval, reviewSave, progressPercentage, validStatus, findParticipant,
      approvedCount]
    norm_num
    simp [modifyFirst]

/-! ## Completion by the participant and completion by review -/

/-- The exported handler `completeChallenge`, which no route dispatches to,
taken on its own: after a submission by account 1 to challenge 1 (reward 100,
target 1), it would credit the reward and set `completedAt` while leaving
`completed` false, and the approval of the submission would then credit the
reward a second time. -/
theorem completion_rewarded_twice :
    (completeChallenge singleSubmittedDb 2 1 1 2).1.status = 200 ∧
    (findParticipant selfCompletedDb 1 1).map
      (fun p => (p.completedAt, p.completed)) = some (some 2, false) ∧
    (selfCompletedDb.users 1).map (fun u => (u.points, completionPoints u 1))
      = some (100, [100]) ∧
    (reviewSubmission selfCompletedDb 3 Role.teacher 1 1 1 "approved" "" none).1.status
      = 200 ∧
    (selfCompletedApprovedDb.users 1).map (fun u => (u.points, completionPoints u 1))
      = some (200, [100, 100]) := by
  refine ⟨by decide, by decide, by decide, ?_, ?_⟩
  · simp [selfCompletedDb, singleSubmittedDb, completeChallenge, reviewSubmission,
      submitChallengeWork, singleTargetDb, Db.setChallenge, Db.setUser, modifyFirst,
      reviewBonus, reviewApproval, reviewSave, progressPercentage, validStatus,
      updateUserPoints]
  · simp [selfCompletedApprovedDb, selfCompletedDb, singleSubmittedDb, completeChallenge,
      reviewSubmission, submitChallengeWork, singleTargetDb, Db.setChallenge, Db.setUser,
      modifyFirst, reviewBonus, reviewApproval, reviewSave, progressPercentage, validStatus,
      updateUserPoints, applyPoints_points, completionPoints_applyPoints,
      completionPoints_addBadge, addBadge_points]
    decide

theorem reviewRoute_store (db : Db) (now : Int) (role : Role)
    (challengeId participantId submissionId : Nat) (status feedback : String)
    (pointsAwarded : Option Int) :
    (reviewRoute db now role challengeId participantId submissionId status feedback
      pointsAwarded).2 =
    (reviewSubmission db now role challengeId participantId submissionId status feedback
      pointsAwarded).2 := by
  by_cases hr : role ≠ Role.teacher ∧ role ≠ Role.admin
  · rw [reviewSubmission_not_found db now role challengeId participantId submissionId status
      feedback pointsAwarded (Or.inr (Or.inl hr))]
    simp [reviewRoute, requireTeacher, hr]
  · simp only [reviewRoute, requireTeacher, if_neg hr]

theorem runRequests_completionInv (requests : List ChallengeRequest) :
    ∀ (db : Db) (challengeId participantId userId : Nat) (reward : Int) (before : List Int),
      CompletionInv db challengeId participantId userId reward before →
      CompletionInv (runRequests db requests) challengeId participantId userId reward
        before := by
  induction requests with
  | nil => intro db challengeId participantId userId reward before h; exact h
  | cons r rest ih =>
    intro db challengeId participantId userId reward before h
    refine ih _ challengeId participantId userId reward before ?_
    cases r with
    | complete now userId challengeId => exact h
    | review rc =>
      simp only [ChallengeRequest.apply, reviewRoute_store]
      exact reviewSubmission_completionInv db rc.now rc.role rc.challengeId rc.participantId
        rc.submissionId rc.status rc.feedback rc.pointsAwarded challengeId participantId userId
        reward before h

/-- C27: the request `POST /api/challenges/:id/complete` is answered 404 by
the application and leaves the store as it was, no route dispatching to
`completeChallenge`; and for a participant of a challenge whose account exists
(the participants of the challenge having distinct accounts) and holds the
completion credits `before`, followed by one credit of `challenge.pointsReward`
exactly when the participant is completed, any interleaving of such requests
and reviews leaves the account with the credits `before`, followed by one credit
of `challenge.pointsReward` exactly when the participant is then completed: at
most one credit is ever added. -/
theorem challenge_reward_at_most_once (db : Db) (requests : List ChallengeRequest)
    (challengeId participantId : Nat) (c : Challenge) (p : Participant) (usr : User)
    (before : List Int)
    (hc : db.challenges challengeId = some c)
    (hp : c.participants.find? (fun q => q.id = participantId) = some p)
    (hu : db.users p.user = some usr)
    (hnd : (c.participants.map (fun q => q.user)).Nodup)
    (h0 : completionPoints usr challengeId =
      before ++ (if p.completed = true then [c.pointsReward] else [])) :
    (∀ (now : Int) (userId : Nat),
      ChallengeRequest.apply db (ChallengeRequest.complete now userId challengeId)
        = (apiRouteNotFound, db)) ∧
    ∃ p1 usr1,
      findParticipant (runRequests db requests) challengeId participantId = some p1 ∧
      (runRequests db requests).users p.user = some usr1 ∧
      completionPoints usr1 challengeId =
        before ++ (if p1.completed = true then [c.pointsReward] else []) ∧
      (completionPoints usr1 challengeId).length ≤ before.length + 1 := by
  refine ⟨fun _ _ => rfl, ?_⟩
  have hinv : CompletionInv db challengeId participantId p.user c.pointsReward before :=
    ⟨c, p, usr, hc, rfl, hp, rfl, hnd, hu, h0⟩
  obtain ⟨c1, p1, usr1, hc1, -, hp1, -, -, hu1, hL⟩ :=
    runRequests_completionInv requests db challengeId participantId p.user c.pointsReward
      before hinv
  refine ⟨p1, usr1, ?_, hu1, hL, ?_⟩
  · simp only [findParticipant, hc1, hp1]
  · rw [hL]
    split_ifs <;> simp

theorem challenge_reward_at_most_once_witness :
    ∃ p1 usr1,
      findParticipant
        (runRequests reviewDb
          [ChallengeRequest.complete 2 1 1,
           ChallengeRequest.review
             { now := 3, role := Role.teacher, challengeId := 1, participantId := 1,
               submissionId := 2, status := "approved" },
           ChallengeRequest.complete 4 1 1]) 1 1 = some p1 ∧
      (runRequests reviewDb
          [ChallengeRequest.complete 2 1 1,
           ChallengeRequest.review
             { now := 3, role := Role.teacher, challengeId := 1, participantId := 1,
               submissionId := 2, status := "approved" },
           ChallengeRequest.complete 4 1 1]).users 1 = some usr1 ∧
      completionPoints usr1 1 = [] ++ (if p1.completed = true then [100] else []) ∧
      (completionPoints usr1 1).length ≤ ([] : List Int).length + 1 :=
  (challenge_reward_at_most_once reviewDb
    [ChallengeRequest.complete 2 1 1,
     ChallengeRequest.review
       { now := 3, role := Role.teacher, challengeId := 1, participantId := 1,
         submissionId := 2, status := "approved" },
     ChallengeRequest.complete 4 1 1]
    1 1
    { title := "Cleanup", pointsReward := 100,
      completionCriteria := { target := 3, requiresSubmission := true },
      participants :=
        [{ id := 1, user := 1, approvedSubmissions := 1,
           submissions := [{ id := 1, status := "approved" }, { id := 2 }] }] }
    { id := 1, user := 1, approvedSubmissions := 1,
      submissions := [{ id := 1, status := "approved" }, { id := 2 }] }
    {} [] rfl rfl rfl (by decide) (by decide)).2

/-! ## Event registrations -/

theorem addRegistration_ok_iff (now : Int) (event : Event) (userId : Nat)
    (pointsAwarded : Int) :
    (addRegistration now event userId pointsAwarded).1 = Except.ok () ↔
      (registrationOpen now event = true ∧
        event.registrations.find? (fun reg => reg.userId = userId) = none) := by
  unfold addRegistration
  by_cases ho : registrationOpen now event = true
  · cases hf : event.registrations.find? (fun reg => reg.userId = userId) with
    | none => simp [ho]
    | some r => simp [ho]
  · simp [ho]

theorem find?_userId_eq_none (l : List Registration) (userId : Nat) :
    l.find? (fun reg => reg.userId = userId) = none ↔
      userId ∉ l.map (fun reg => reg.userId) := by
  simp only [List.find?_eq_none, List.mem_map, decide_eq_true_eq, not_exists, not_and]

theorem addRegistration_eventInv (now : Int) (event : Event) (userId : Nat)
    (pointsAwarded : Int) (h : EventInv event) :
    EventInv (addRegistration now event userId pointsAwarded).2 := by
  unfold addRegistration
  by_cases ho : registrationOpen now event = true
  · cases hf : event.registrations.find? (fun reg => reg.userId = userId) with
    | some r => simpa [ho] using h
    | none =>
      have hnot := (find?_userId_eq_none _ _).mp hf
      simp only [ho, not_true_eq_false, if_false]
      refine ⟨?_, ?_⟩
      · simp only [List.length_append, List.length_singleton, h.1]
        push_cast
        rfl
      · simp only [List.map_append, List.map_cons, List.map_nil]
        refine List.Nodup.append h.2 (List.nodup_singleton _) ?_
        intro a ha hb
        simp only [List.mem_singleton] at hb
        subst hb
        exact hnot ha
  · simpa [ho] using h

theorem removeRegistration_eventInv (event : Event) (userId : Nat) (h : EventInv event) :
    EventInv (removeRegistration event userId).2 := by
  unfold removeRegistration
  cases hf : event.registrations.find? (fun reg => reg.userId = userId) with
  | none => exact h
  | some r =>
    have hmem : r ∈ event.registrations := List.mem_of_find?_eq_some hf
    have hP : (fun reg : Registration => decide (reg.userId = userId)) r = true := by
      have := List.find?_some hf
      simpa using this
    have hlen : (event.registrations.eraseP (fun reg => decide (reg.userId = userId))).length
        = event.registrations.length - 1 := List.length_eraseP_of_mem hmem hP
    have hpos : 0 < event.registrations.length := List.length_pos_of_mem hmem
    refine ⟨?_, ?_⟩
    · simp only [hlen, h.1]
      have h1 : ((event.registrations.length - 1 : Nat) : Int)
          = (event.registrations.length : Int) - 1 := by omega
      rw [h1]
      omega
    · exact (List.eraseP_sublist _).map _ |>.nodup h.2

/-- C29: for an event whose `currentParticipants` equals the number of its
registrations, no user id appearing in two of them, the documents left by
`addRegistration` and by `removeRegistration` have the same two properties; a
successful `addRegistration` on an event with `maxParticipants > 0` leaves
`currentParticipants <= maxParticipants`; `addRegistration` succeeds exactly
when registration is open and the user has no registration, `removeRegistration`
exactly when the user has one; and a failed call of either leaves the event as
it was. -/
theorem registrations_invariant (now : Int) (event : Event) (userId : Nat)
    (pointsAwarded : Int) (h : EventInv event) :
    EventInv (addRegistration now event userId pointsAwarded).2 ∧
    EventInv (removeRegistration event userId).2 ∧
    (0 < event.maxParticipants →
      (addRegistration now event userId pointsAwarded).1 = Except.ok () →
      (addRegistration now event userId pointsAwarded).2.currentParticipants
        ≤ event.maxParticipants) ∧
    ((addRegistration now event userId pointsAwarded).1 = Except.ok () ↔
      (registrationOpen now event = true ∧
        userId ∉ event.registrations.map (fun reg => reg.userId))) ∧
    ((∃ r, (removeRegistration event userId).1 = Except.ok r) ↔
      userId ∈ event.registrations.map (fun reg => reg.userId)) ∧
    (∀ e, (addRegistration now event userId pointsAwarded).1 = Except.error e →
      (addRegistration now event userId pointsAwarded).2 = event) ∧
    (∀ e, (removeRegistration event userId).1 = Except.error e →
      (removeRegistration event userId).2 = event) := by
  refine ⟨addRegistration_eventInv now event userId pointsAwarded h,
    removeRegistration_eventInv event userId h, ?_, ?_, ?_, ?_, ?_⟩
  · intro hmax hok
    have ho := ((addRegistration_ok_iff now event userId pointsAwarded).mp hok)
    have hopen := ho.1
    simp only [addRegistration, ho.1, ho.2, not_true_eq_false, if_false]
    simp only [registrationOpen, Bool.and_eq_true, Bool.or_eq_true, decide_eq_true_eq] at hopen
    rcases hopen.2 with h0 | h1
    · omega
    · omega
  · rw [addRegistration_ok_iff, find?_userId_eq_none]
  · have hiff := find?_userId_eq_none event.registrations userId
    unfold removeRegistration
    cases hf : event.registrations.find? (fun reg => reg.userId = userId) with
    | none =>
      have hn := hiff.mp hf
      simp [hn]
    | some r =>
      have hn : userId ∈ event.registrations.map (fun reg => reg.userId) := by
        by_contra hc
        rw [hiff.mpr hc] at hf
        cases hf
      simp [hn]
  · intro e he
    unfold addRegistration at he ⊢
    by_cases ho : registrationOpen now event = true
    · cases hf : event.registrations.find? (fun reg => reg.userId = userId) with
      | none => simp [ho, hf] at he
      | some r => simp [ho]
    · simp [ho]
  · intro e he
    unfold removeRegistration at he ⊢
    cases hf : event.registrations.find? (fun reg => reg.userId = userId) with
    | none => rfl
    | some r => simp [hf] at he

theorem registrations_invariant_witness :
    EventInv fairEvent ∧
    EventInv (addRegistration 10 fairEvent 1 20).2 ∧
    EventInv (removeRegistration fairEvent 7).2 ∧
    (addRegistration 10 fairEvent 1 20).2.currentParticipants = 2 ∧
    (removeRegistration fairEvent 7).2.currentParticipants = 0 :=
  ⟨⟨by decide, by decide⟩,
   (registrations_invariant 10 fairEvent 1 20 ⟨by decide, by decide⟩).1,
   (registrations_invariant 10 fairEvent 7 20 ⟨by decide, by decide⟩).2.1,
   by decide, by decide⟩

/-! ## Registering for an event and unregistering again -/

theorem find?_append_singleton {α : Type} (p : α → Bool) (l : List α) (a : α)
    (hl : l.find? p = none) (ha : p a = true) :
    (l ++ [a]).find? p = some a ∧ (l ++ [a]).eraseP p = l := by
  induction l with
  | nil => simp [List.find?, List.eraseP, ha]
  | cons x xs ih =>
    have hx : p x = false := by
      cases hpx : p x with
      | false => rfl
      | true => simp [List.find?, hpx] at hl
    have hxs : xs.find? p = none := by simpa [List.find?, hx] using hl
    have := ih hxs
    simp [List.find?, List.eraseP, hx, this.1, this.2]

theorem setEvent_events_self (db : Db) (id : Nat) (e : Event) :
    (db.setEvent id e).events id = some e := by
  simp [Db.setEvent]

/-- C30: for an event open for registration with `pointsReward = p > 0` and
`currentParticipants >= 0`, and an existing account without a registration for
it, `registerForEvent` followed (whatever `pointsReward` the event is given in
between) by `unregisterFromEvent` by the same user both answer 200, and leave
the account with its prior points and exactly two more history entries, of type
`event_registration`, worth `+p` and `-p`, and the event with its prior
registrations and `currentParticipants`. -/
theorem register_unregister_round_trip (db : Db) (now1 now2 : Int) (userId eventId : Nat)
    (event : Event) (usr : User) (q : Int)
    (he : db.events eventId = some event) (hu : db.users userId = some usr)
    (hopen : registrationOpen now1 event = true)
    (hreg : event.registrations.find? (fun reg => reg.userId = userId) = none)
    (hp : 0 < event.pointsReward) (hcp : 0 ≤ event.currentParticipants) :
    (registerForEvent db now1 userId eventId).1.status = 200 ∧
    (unregisterFromEvent
      (setPointsReward (registerForEvent db now1 userId eventId).2 eventId q)
      now2 userId eventId).1.status = 200 ∧
    ∃ usr2 event2,
      (unregisterFromEvent
        (setPointsReward (registerForEvent db now1 userId eventId).2 eventId q)
        now2 userId eventId).2.users userId = some usr2 ∧
      (unregisterFromEvent
        (setPointsReward (registerForEvent db now1 userId eventId).2 eventId q)
        now2 userId eventId).2.events eventId = some event2 ∧
      usr2.points = usr.points ∧
      usr2.pointsHistory = usr.pointsHistory ++
        [{ points := event.pointsReward, type := PointsType.event_registration,
           description := "Registered for event: " ++ event.name,
           relatedId := some eventId, earnedAt := now1 },
         { points := - event.pointsReward, type := PointsType.event_registration,
           description := "Unregistered from event: " ++ event.name,
           relatedId := some eventId, earnedAt := now2 }] ∧
      event2.registrations = event.registrations ∧
      event2.currentParticipants = event.currentParticipants := by
  have hne : event.pointsReward ≠ 0 := by omega
  have hlate : ¬ now1 > event.lastDateToRegister := by
    simp only [registrationOpen, Bool.and_eq_true, Bool.not_eq_true', decide_eq_false_iff_not]
      at hopen
    exact hopen.1.2
  have hfa := find?_append_singleton (fun reg : Registration => decide (reg.userId = userId))
    event.registrations
    { userId := userId, registrationDate := now1, pointsAwarded := event.pointsReward }
    hreg (by simp)
  have h1 : registerForEvent db now1 userId eventId =
      ({ status := 200, success := true, message := "Successfully registered for event" },
        (db.setEvent eventId
          { event with
            registrations := event.registrations ++
              [{ userId := userId, registrationDate := now1,
                 pointsAwarded := event.pointsReward }]
            currentParticipants := event.currentParticipants + 1 }).setUser userId
          (applyPoints now1 usr event.pointsReward PointsType.event_registration
            ("Registered for event: " ++ event.name) (some eventId))) := by
    simp [registerForEvent, he, hu, hlate, hopen, addRegistration, hreg, hne, hp,
      updateUserPoints, Db.setEvent, Db.setUser]
  rw [h1]
  refine ⟨rfl, ?_⟩
  simp [unregisterFromEvent, setPointsReward, Db.setEvent, Db.setUser, removeRegistration,
    hfa.1, hfa.2, hne, hp, updateUserPoints, applyPoints_points, applyPoints_pointsHistory,
    hcp]

theorem register_unregister_round_trip_witness :
    (registerForEvent eventDb 10 1 1).1.status = 200 ∧
    (unregisterFromEvent (setPointsReward (registerForEvent eventDb 10 1 1).2 1 99)
      60 1 1).1.status = 200 ∧
    ∃ usr2 event2,
      (unregisterFromEvent (setPointsReward (registerForEvent eventDb 10 1 1).2 1 99)
        60 1 1).2.users 1 = some usr2 ∧
      (unregisterFromEvent (setPointsReward (registerForEvent eventDb 10 1 1).2 1 99)
        60 1 1).2.events 1 = some event2 ∧
      usr2.points = 5 ∧
      usr2.pointsHistory =
        [{ points := 5, type := PointsType.other, description := "",
           relatedId := none, earnedAt := 0 }] ++
        [{ points := 20, type := PointsType.event_registration,
           description := "Registered for event: " ++ "Fair",
           relatedId := some 1, earnedAt := 10 },
         { points := - 20, type := PointsType.event_registration,
           description := "Unregistered from event: " ++ "Fair",
           relatedId := some 1, earnedAt := 60 }] ∧
      event2.registrations = [{ userId := 7, registrationDate := 1, pointsAwarded := 20 }] ∧
      event2.currentParticipants = 1 :=
  register_unregister_round_trip eventDb 10 60 1 1 fairEvent
    { points := 5,
      pointsHistory := [{ points := 5, type := PointsType.other, description := "",
                          relatedId := none, earnedAt := 0 }] }
    99 rfl rfl (by decide) (by decide) (by decide) (by decide)

end Ujjivana
